import Mathlib

/-!
# softhddevice core: frame sniffers, demuxers, packet rings and audio filters

A shallow embedding of parts of `softhddev.c` and `audio.c`, with the
properties of the design document stated and proved over it.  The
definitions come first (the codec parser, the timestamp expression, the
frame lengths the statements use, the audio ring, the video packet ring, the
PES and transport stream demuxer, the sample filters, example windows), the
theorems follow.

Conventions of the embedding

* A C pointer `const uint8_t *data` is a function from offsets to bytes
  (`Bytes`); `data[i]` is `rd data i` and `data + n` is `ptrAdd data n`.
  The window length `size` is a separate C `int`, as in the source, so a
  read past `size` is expressible.
* C `int` values that may be negative are `Int`; values that are
  non-negative by construction (bytes, table entries, frame sizes) are
  computed in `Nat`.  In the codec parser and the demuxers all intermediate
  values stay far below `2^31` (`2^63` for the timestamps); where a product
  of configured values can leave the range of `int`, the function gives no
  value.
* A function that can leave by `abort()` or read outside a table returns
  a `CResult` or an `Option`; a loop whose number of turns is not bounded by
  its text is run with the number of turns that its progress allows, and
  gives no value beyond that.
-/

namespace SoftHd

/-! ## Bytes and results -/

/-- Memory seen through a `const uint8_t *`: the byte at each offset. -/
abbrev Bytes := Nat → Fin 256

/-- The C expression `data[i]`, promoted to a non-negative integer. -/
def rd (data : Bytes) (i : Nat) : Nat := (data i).val

/-- The C expression `data + n`. -/
def ptrAdd (data : Bytes) (n : Nat) : Bytes := fun i => data (n + i)

/-- Outcome of a C function returning `int`. -/
inductive CResult where
  /-- The function returned the value. -/
  | ret (v : Int)
  /-- The function called `abort()`. -/
  | aborted
  /-- The function indexed an array outside its bounds. -/
  | undefined
deriving DecidableEq

/-! ## Audio codec parser (`softhddev.c`) -/

/-- Mpeg bitrate table, `BitRateTable[Version][Layer][Index]`; the `{}` rows
are zero-initialised. -/
def BitRateTable : List (List (List Nat)) :=
  [ -- MPEG Version 1
    [ [0, 0, 0, 0, 0, 0, 0, 0, 0, 0, 0, 0, 0, 0, 0, 0],
      [0, 32, 64, 96, 128, 160, 192, 224, 256, 288, 320, 352, 384, 416, 448, 0],
      [0, 32, 48, 56, 64, 80, 96, 112, 128, 160, 192, 224, 256, 320, 384, 0],
      [0, 32, 40, 48, 56, 64, 80, 96, 112, 128, 160, 192, 224, 256, 320, 0] ],
    -- MPEG Version 2 & 2.5
    [ [0, 0, 0, 0, 0, 0, 0, 0, 0, 0, 0, 0, 0, 0, 0, 0],
      [0, 32, 48, 56, 64, 80, 96, 112, 128, 144, 160, 176, 192, 224, 256, 0],
      [0, 8, 16, 24, 32, 40, 48, 56, 64, 80, 96, 112, 128, 144, 160, 0],
      [0, 8, 16, 24, 32, 40, 48, 56, 64, 80, 96, 112, 128, 144, 160, 0] ] ]

/-- Bounds-checked read `BitRateTable[v][l][i]` of the `[2][4][16]` table. -/
def BitRateTable_at (v l i : Nat) : Option Nat :=
  match BitRateTable[v]? with
  | none => none
  | some t =>
    match t[l]? with
    | none => none
    | some row => row[i]?

/-- Mpeg samperate table. -/
def SampleRateTable : List Nat := [44100, 48000, 32000, 0]

/-- Fast check for Mpeg audio: 4 bytes 0xFFExxxxx. -/
def FastMpegCheck (p : Bytes) : Bool :=
  if rd p 0 ≠ 0xFF then false                  -- 11bit frame sync
  else if rd p 1 &&& 0xE0 ≠ 0xE0 then false
  else if rd p 1 &&& 0x18 = 0x08 then false    -- version ID - 01 reserved
  else if rd p 1 &&& 0x06 = 0 then false       -- layer description - 00 reserved
  else if rd p 2 &&& 0xF0 = 0xF0 then false    -- bitrate index - 1111 reserved
  else if rd p 2 &&& 0x0C = 0x0C then false    -- sampling rate index - 11 reserved
  else true

/-- Check for Mpeg audio (`MpegCheck`): negative when more data is needed,
`0` for no valid mpeg audio, the frame size when a frame is confirmed. -/
def MpegCheck (data : Bytes) (size : Int) : CResult :=
  let mpeg2 : Nat := if rd data 1 &&& 0x08 = 0 ∧ rd data 1 &&& 0x10 ≠ 0 then 1 else 0
  let mpeg25 : Nat := if rd data 1 &&& 0x08 = 0 ∧ rd data 1 &&& 0x10 = 0 then 1 else 0
  let layer := 4 - ((rd data 1 >>> 1) &&& 0x03)
  let bit_rate_index := (rd data 2 >>> 4) &&& 0x0F
  let sample_rate_index := (rd data 2 >>> 2) &&& 0x03
  let padding := (rd data 2 >>> 1) &&& 0x01
  match SampleRateTable[sample_rate_index]? with
  | none => .undefined
  | some sample_rate0 =>
    if sample_rate0 = 0 then .aborted           -- moved into fast check: abort()
    else
      let sample_rate := (sample_rate0 >>> mpeg2) >>> mpeg25
      match BitRateTable_at (mpeg2 ||| mpeg25) layer bit_rate_index with
      | none => .undefined
      | some bit_rate0 =>
        if bit_rate0 = 0 then .ret 0            -- no valid bit-rate try next
        else
          let bit_rate := bit_rate0 * 1000
          let frame_size :=
            if layer = 1 then (12 * bit_rate / sample_rate + padding) * 4
            else 144 * bit_rate / sample_rate + padding
          if (frame_size : Int) + 4 > size then .ret (-(frame_size : Int) - 4)
          else if FastMpegCheck (ptrAdd data frame_size) then .ret frame_size
          else .ret 0

/-- Fast check for AAC LATM audio: 3 bytes 0x56Exxx. -/
def FastLatmCheck (p : Bytes) : Bool :=
  if rd p 0 ≠ 0x56 then false                  -- 11bit sync
  else if rd p 1 &&& 0xE0 ≠ 0xE0 then false
  else true

/-- Check for AAC LATM audio (`LatmCheck`). -/
def LatmCheck (data : Bytes) (size : Int) : CResult :=
  -- 13 bit frame size without header
  let frame_size := ((rd data 1 &&& 0x1F) <<< 8) + rd data 2
  let frame_size := frame_size + 3
  if (frame_size : Int) + 2 > size then .ret (-(frame_size : Int) - 2)
  else if FastLatmCheck (ptrAdd data frame_size) then .ret frame_size
  else .ret 0

/-- Possible AC-3 frame sizes, from ATSC A/52 table 5.18 frame size code
table (`Ac3FrameSizeTable[38][3]`). -/
def Ac3FrameSizeTable : List (List Nat) :=
  [ [64, 69, 96], [64, 70, 96], [80, 87, 120], [80, 88, 120],
    [96, 104, 144], [96, 105, 144], [112, 121, 168], [112, 122, 168],
    [128, 139, 192], [128, 140, 192], [160, 174, 240], [160, 175, 240],
    [192, 208, 288], [192, 209, 288], [224, 243, 336], [224, 244, 336],
    [256, 278, 384], [256, 279, 384], [320, 348, 480], [320, 349, 480],
    [384, 417, 576], [384, 418, 576], [448, 487, 672], [448, 488, 672],
    [512, 557, 768], [512, 558, 768], [640, 696, 960], [640, 697, 960],
    [768, 835, 1152], [768, 836, 1152], [896, 975, 1344], [896, 976, 1344],
    [1024, 1114, 1536], [1024, 1115, 1536], [1152, 1253, 1728],
    [1152, 1254, 1728], [1280, 1393, 1920], [1280, 1394, 1920] ]

/-- Bounds-checked read `Ac3FrameSizeTable[frmsizcod][fscod]`. -/
def Ac3FrameSizeTable_at (frmsizcod fscod : Nat) : Option Nat :=
  match Ac3FrameSizeTable[frmsizcod]? with
  | none => none
  | some row => row[fscod]?

/-- Fast check for (E-)AC-3 audio: 5 bytes 0x0B77xxxxxx. -/
def FastAc3Check (p : Bytes) : Bool :=
  if rd p 0 ≠ 0x0B then false                  -- 16bit sync
  else if rd p 1 ≠ 0x77 then false
  else true

/-- Check for (E-)AC-3 audio (`Ac3Check`). -/
def Ac3Check (data : Bytes) (size : Int) : CResult :=
  if size < 5 then .ret (-5)                    -- need 5 bytes to see if AC-3/E-AC-3
  else if rd data 5 > (10 <<< 3) then           -- E-AC-3
    if rd data 4 &&& 0xF0 = 0xF0 then .ret 0    -- invalid fscod fscod2
    else
      let frame_size := ((rd data 2 &&& 0x07) <<< 8) + rd data 3 + 1
      let frame_size := frame_size * 2
      if (frame_size : Int) + 5 > size then .ret (-(frame_size : Int) - 5)
      else if FastAc3Check (ptrAdd data frame_size) then .ret frame_size
      else .ret 0
  else                                          -- AC-3
    let fscod := rd data 4 >>> 6
    if fscod = 0x03 then .ret 0                 -- invalid sample rate
    else
      let frmsizcod := rd data 4 &&& 0x3F
      if frmsizcod > 37 then .ret 0             -- invalid frame size
      else
        match Ac3FrameSizeTable_at frmsizcod fscod with
        | none => .undefined
        | some entry =>
          let frame_size := entry * 2
          if (frame_size : Int) + 5 > size then .ret (-(frame_size : Int) - 5)
          else if FastAc3Check (ptrAdd data frame_size) then .ret frame_size
          else .ret 0

/-- Fast check for ADTS Audio Data Transport Stream: 0xFFFxxxxxxxxxxx. -/
def FastAdtsCheck (p : Bytes) : Bool :=
  if rd p 0 ≠ 0xFF then false                  -- 12bit sync
  else if rd p 1 &&& 0xF6 ≠ 0xF0 then false    -- sync + layer must be 0
  else if rd p 2 &&& 0x3C = 0x3C then false    -- sampling frequency index != 15
  else true

/-- Check for ADTS Audio Data Transport Stream (`AdtsCheck`). -/
def AdtsCheck (data : Bytes) (size : Int) : CResult :=
  if size < 6 then .ret (-6)
  else
    let frame_size := (rd data 3 &&& 0x03) <<< 11
    let frame_size := frame_size ||| ((rd data 4 &&& 0xFF) <<< 3)
    let frame_size := frame_size ||| ((rd data 5 &&& 0xE0) >>> 5)
    if (frame_size : Int) + 3 > size then .ret (-(frame_size : Int) - 3)
    else if FastAdtsCheck (ptrAdd data frame_size) then .ret frame_size
    else .ret 0

/-! ## PES timestamps (`PlayVideo3`, `PlayAudio`) -/

/-- The timestamp expression of `PlayVideo3` and `PlayAudio`,
`(int64_t) (data[o] & 0x0E) << 29 | data[o+1] << 22 | (data[o+2] & 0xFE) << 14
 | data[o+3] << 7 | (data[o+4] & 0xFE) >> 1`, for the five bytes at offset `o`
(`o = 9` for the PTS, `o = 14` for the DTS). -/
def PesTimestamp (data : Bytes) (o : Nat) : Nat :=
  ((((((rd data o &&& 0x0E) <<< 29) ||| (rd data (o + 1) <<< 22))
    ||| ((rd data (o + 2) &&& 0xFE) <<< 14))
    ||| (rd data (o + 3) <<< 7))
    ||| ((rd data (o + 4) &&& 0xFE) >>> 1))

/-- Modelled from the spec: the encoder of the standard 5-byte PES timestamp
layout, which the repository does not contain (it only decodes).  Byte `k` of
the packed 33-bit value `v`: 3 high bits in bits 3..1 of byte 0 below a 4-bit
prefix, 8 bits in byte 1, 7 bits in bits 7..1 of byte 2, 8 bits in byte 3,
7 bits in bits 7..1 of byte 4; `m0 m1 m2` are the marker bits. -/
def pesPackByte (pre : Fin 16) (m0 m1 m2 : Fin 2) (v : Nat) (k : Nat) : Nat :=
  match k with
  | 0 => pre.val * 16 + (v / 2 ^ 30 % 8) * 2 + m0.val
  | 1 => v / 2 ^ 22 % 256
  | 2 => (v / 2 ^ 15 % 128) * 2 + m1.val
  | 3 => v / 2 ^ 7 % 256
  | _ => (v % 128) * 2 + m2.val

/-- A PES header `hdr` with the packed timestamp stored at bytes
`o .. o+4`. -/
def pesPutTimestamp (hdr : Bytes) (o : Nat) (pre : Fin 16) (m0 m1 m2 : Fin 2)
    (v : Nat) : Bytes :=
  fun i => if o ≤ i ∧ i < o + 5 then Fin.ofNat (pesPackByte pre m0 m1 m2 v (i - o)) else hdr i

/-! ## Frame lengths, stated apart from the checks -/

/-- The `frame_size` that `MpegCheck` computes from the header bytes (the
same expressions as in the function, `0` where a table read fails). -/
def MpegCheck_frame_size (data : Bytes) : Nat :=
  let mpeg2 : Nat := if rd data 1 &&& 0x08 = 0 ∧ rd data 1 &&& 0x10 ≠ 0 then 1 else 0
  let mpeg25 : Nat := if rd data 1 &&& 0x08 = 0 ∧ rd data 1 &&& 0x10 = 0 then 1 else 0
  let layer := 4 - ((rd data 1 >>> 1) &&& 0x03)
  let bit_rate_index := (rd data 2 >>> 4) &&& 0x0F
  let sample_rate_index := (rd data 2 >>> 2) &&& 0x03
  let padding := (rd data 2 >>> 1) &&& 0x01
  let sample_rate := ((SampleRateTable.getD sample_rate_index 0) >>> mpeg2) >>> mpeg25
  let bit_rate := (BitRateTable_at (mpeg2 ||| mpeg25) layer bit_rate_index).getD 0 * 1000
  if layer = 1 then (12 * bit_rate / sample_rate + padding) * 4
  else 144 * bit_rate / sample_rate + padding

/-- The bit-rate table entry `MpegCheck` selects for the header. -/
def MpegCheck_bit_rate (data : Bytes) : Option Nat :=
  let mpeg2 : Nat := if rd data 1 &&& 0x08 = 0 ∧ rd data 1 &&& 0x10 ≠ 0 then 1 else 0
  let mpeg25 : Nat := if rd data 1 &&& 0x08 = 0 ∧ rd data 1 &&& 0x10 = 0 then 1 else 0
  BitRateTable_at (mpeg2 ||| mpeg25) (4 - ((rd data 1 >>> 1) &&& 0x03)) ((rd data 2 >>> 4) &&& 0x0F)

/-- Version field of an MPEG audio header `AAAAAAAA AAABBCCD EEEEFFGH`
(bits `BB`): 3 = MPEG-1, 2 = MPEG-2, 1 = reserved, 0 = MPEG-2.5. -/
def mpegVersionBits (data : Bytes) : Nat := rd data 1 / 8 % 4

/-- Layer number of an MPEG audio header (bits `CC`: 3 = Layer I, 2 = Layer II,
1 = Layer III, 0 = reserved, giving layer number 4). -/
def mpegLayer (data : Bytes) : Nat := 4 - rd data 1 / 2 % 4

/-- Bit-rate index of an MPEG audio header (bits `EEEE`). -/
def mpegBitrateIndex (data : Bytes) : Nat := rd data 2 / 16

/-- Sample-rate index of an MPEG audio header (bits `FF`). -/
def mpegSamplerateIndex (data : Bytes) : Nat := rd data 2 / 4 % 4

/-- Bit rate in bit/s as the specification words it: the table entry for
the version (MPEG-1 or MPEG-2), the layer and the bit-rate index, in kbit/s,
times 1000. -/
def specMpegBitrate (data : Bytes) : Nat :=
  (BitRateTable_at (if mpegVersionBits data = 3 then 0 else 1) (mpegLayer data)
    (mpegBitrateIndex data)).getD 0 * 1000

/-- Sample rate as the specification words it: 44100/48000/32000 for
MPEG-1 by the sample-rate index, and half of that for MPEG-2. -/
def specMpegSamplerate (data : Bytes) : Nat :=
  let base := [44100, 48000, 32000].getD (mpegSamplerateIndex data) 0
  if mpegVersionBits data = 3 then base else base / 2

/-- Frame length as the specification words it:
`(12*bitrate/samplerate + padding)*4` for Layer I and
`144*bitrate/samplerate + padding` for Layer II/III. -/
def specMpegFrameLength (data : Bytes) : Nat :=
  let padding := rd data 2 / 2 % 2
  if mpegLayer data = 1 then (12 * specMpegBitrate data / specMpegSamplerate data + padding) * 4
  else 144 * specMpegBitrate data / specMpegSamplerate data + padding

/-- The `frame_size` of `LatmCheck`: 13 bit frame size plus the 3 header
bytes. -/
def LatmCheck_frame_size (data : Bytes) : Nat :=
  ((rd data 1 &&& 0x1F) <<< 8) + rd data 2 + 3

/-- The `frame_size` of `AdtsCheck`: the 13 bit frame length field. -/
def AdtsCheck_frame_size (data : Bytes) : Nat :=
  (((rd data 3 &&& 0x03) <<< 11) ||| ((rd data 4 &&& 0xFF) <<< 3)) ||| ((rd data 5 &&& 0xE0) >>> 5)

/-- The `frame_size` of `Ac3Check` on its E-AC-3 branch. -/
def Ac3Check_eac3_frame_size (data : Bytes) : Nat :=
  (((rd data 2 &&& 0x07) <<< 8) + rd data 3 + 1) * 2

/-- The `frame_size` of `Ac3Check` on its AC-3 branch: twice the table
entry for `frmsizcod = data[4] & 0x3F` and `fscod = data[4] >> 6`. -/
def Ac3Check_ac3_frame_size (data : Bytes) : Nat :=
  (Ac3FrameSizeTable_at (rd data 4 &&& 0x3F) (rd data 4 >>> 6)).getD 0 * 2

/-- The `frame_size` of `Ac3Check` on whichever branch the window takes. -/
def Ac3Check_frame_size (data : Bytes) : Nat :=
  if rd data 5 > (10 <<< 3) then Ac3Check_eac3_frame_size data else Ac3Check_ac3_frame_size data

/-- A valid MPEG audio header: it passes the fast check and its bit-rate
table entry is not zero. -/
def MpegHeaderValid (data : Bytes) : Prop :=
  FastMpegCheck data = true ∧ (MpegCheck_bit_rate data).getD 0 ≠ 0

instance (data : Bytes) : Decidable (MpegHeaderValid data) := by
  unfold MpegHeaderValid; infer_instance

/-- A valid (E-)AC-3 header inside a window of `size` bytes: the five bytes
`Ac3Check` asks for are there, the sync word is right, and the sample-rate
and frame-size codes are not the invalid ones. -/
def Ac3HeaderValid (data : Bytes) (size : Int) : Prop :=
  5 ≤ size ∧ FastAc3Check data = true ∧
    (if rd data 5 > (10 <<< 3) then rd data 4 &&& 0xF0 ≠ 0xF0
     else rd data 4 >>> 6 ≠ 0x03 ∧ rd data 4 &&& 0x3F ≤ 37)

instance (data : Bytes) (size : Int) : Decidable (Ac3HeaderValid data size) := by
  unfold Ac3HeaderValid; infer_instance

/-- A valid LATM header: the sync passes the fast check. -/
def LatmHeaderValid (data : Bytes) : Prop := FastLatmCheck data = true

instance (data : Bytes) : Decidable (LatmHeaderValid data) := by
  unfold LatmHeaderValid; infer_instance

/-- A valid ADTS header inside a window of `size` bytes: the six bytes that
hold the frame length are there and the sync passes the fast check. -/
def AdtsHeaderValid (data : Bytes) (size : Int) : Prop :=
  6 ≤ size ∧ FastAdtsCheck data = true

instance (data : Bytes) (size : Int) : Decidable (AdtsHeaderValid data size) := by
  unfold AdtsHeaderValid; infer_instance

/-- A window given by its first bytes, zero elsewhere. -/
def bytesOfList (l : List (Fin 256)) : Bytes := fun i => l.getD i 0

/-- A window holding `hdr` at offset 0 and `nxt` at offset `n`, zero
elsewhere. -/
def twoFrames (hdr : List (Fin 256)) (n : Nat) (nxt : List (Fin 256)) : Bytes :=
  fun i => if i < n then hdr.getD i 0 else nxt.getD (i - n) 0

/-! ## Audio ring (`audio.c`) -/

/-- Number of audio ring buffers. -/
def AUDIO_RING_MAX : Nat := 4

/-- Number of entries of the sample rates enumeration (`AudioRatesMax`). -/
def AudioRatesMax : Nat := 3

/-- Rates table (must be sorted by frequency). -/
def AudioRatesTable : List Nat := [44100, 48000, 192000]

/-- The libavutil constant `AV_NOPTS_VALUE`,
`((int64_t)UINT64_C(0x8000000000000000))`; its header is outside the
repository. -/
def AV_NOPTS_VALUE : Int := -(2 ^ 63)

/-- Conversion of a C `int` to `unsigned` (32 bit). -/
def toUnsigned (x : Int) : Nat := (x % 2 ^ 32).toNat

/-- Conversion of a C `int` to the plain `char` of a flag field; plain
`char` is unsigned on the ARM Linux targets of this plugin. -/
def toChar (x : Int) : Int := x % 256

/-- Audio ring buffer segment (`AudioRingRing`).  Modelled from the spec:
`ringbuffer.c` is not among the sources, so the byte ring behind the
`RingBuffer` pointer is kept as its number of used bytes; a reset ring and a
ring whose read pointer was advanced by all used bytes hold 0 used bytes. -/
structure AudioRingRing where
  /-- flag: flush buffers -/
  FlushBuffers : Int
  /-- flag: use pass-through (AC-3, ...) -/
  Passthrough : Int
  /-- packet size -/
  PacketSize : Int
  /-- hardware sample rate in Hz -/
  HwSampleRate : Nat
  /-- hardware number of channels -/
  HwChannels : Nat
  /-- input sample rate in Hz -/
  InSampleRate : Nat
  /-- input number of channels -/
  InChannels : Nat
  /-- pts clock -/
  PTS : Int
  /-- used bytes of the sample ring buffer -/
  RingBuffer : Nat

/-- The file-scope variables of `audio.c` that hold the ring and its
bookkeeping (the wake-up flag `AudioRunning` of the play thread is left out).
The ring indices are only ever assigned `0` or `(index + 1) % AUDIO_RING_MAX`,
so they are kept as natural numbers; `AudioRing` and `AudioChannelMatrix` are
indexed like the C arrays `AudioRing[AUDIO_RING_MAX]` and
`AudioChannelMatrix[AudioRatesMax][9]`. -/
structure AudioState where
  /-- input to hardware channel matrix -/
  AudioChannelMatrix : Nat → Nat → Int
  /-- ring of audio ring buffers -/
  AudioRing : Nat → AudioRingRing
  /-- audio ring write pointer -/
  AudioRingWrite : Nat
  /-- audio ring read pointer -/
  AudioRingRead : Nat
  /-- how many of the ring is used -/
  AudioRingFilled : Int
  /-- video ready start early -/
  AudioVideoIsReady : Int
  /-- skip audio to sync to video -/
  AudioSkip : Int

/-- The state at program start: objects of static storage are
zero-initialised. -/
def AudioState.zero : AudioState where
  AudioChannelMatrix := fun _ _ => 0
  AudioRing := fun _ => ⟨0, 0, 0, 0, 0, 0, 0, 0, 0⟩
  AudioRingWrite := 0
  AudioRingRead := 0
  AudioRingFilled := 0
  AudioVideoIsReady := 0
  AudioSkip := 0

/-- The read `AudioChannelMatrix[u][channels]` with the row bounds of the
declaration `[AudioRatesMax][9]`: no value when `channels` is outside `0..8`. -/
def AudioChannelMatrix_at (m : Nat → Nat → Int) (u : Nat) (channels : Int) : Option Int :=
  if 0 ≤ channels ∧ channels < 9 then some (m u channels.toNat) else none

/-- Search supported sample-rates: the `for` loop at the head of
`AudioRingAdd`, over the remaining table entries from index `u`; `none` is the
fall-through to `return -1`. -/
def AudioRatesSearch (sample_rate : Nat) : List Nat → Nat → Option Nat
  | [], _ => none
  | r :: rs, u =>
    if r = sample_rate then some u
    else if r > sample_rate then none
    else AudioRatesSearch sample_rate rs (u + 1)

/-- Add sample-rate, number of channels change to ring (`AudioRingAdd`):
the return value and the state after the call, or `none` when the channel
matrix is read outside a row. -/
def AudioRingAdd (st : AudioState) (sample_rate : Nat) (channels : Int) (passthrough : Int) :
    Option (Int × AudioState) :=
  match AudioRatesSearch sample_rate AudioRatesTable 0 with
  | none => some (-1, st)                       -- unsupported sample-rate
  | some u =>
    match AudioChannelMatrix_at st.AudioChannelMatrix u channels with
    | none => none
    | some hw =>
      if hw = 0 then some (-1, st)              -- unsupported nr. of channels
      else if st.AudioRingFilled = AUDIO_RING_MAX then some (-1, st)  -- no free slot
      else
        let w := (st.AudioRingWrite + 1) % AUDIO_RING_MAX
        let seg : AudioRingRing :=
          { FlushBuffers := 0
            Passthrough := toChar passthrough
            PacketSize := 0
            InSampleRate := sample_rate
            InChannels := toUnsigned channels
            HwSampleRate := sample_rate
            HwChannels := toUnsigned hw
            PTS := AV_NOPTS_VALUE
            RingBuffer := 0 }
        some (0, { st with
          AudioRing := Function.update st.AudioRing w seg
          AudioRingWrite := w
          AudioRingFilled := st.AudioRingFilled + 1 })

/-- Setup audio ring (`AudioRingInit`): a new, empty byte ring for every
segment and a fill counter of 0. -/
def AudioRingInit (st : AudioState) : AudioState :=
  { st with
    AudioRing := fun i =>
      if i < AUDIO_RING_MAX then { st.AudioRing i with RingBuffer := 0 } else st.AudioRing i
    AudioRingFilled := 0 }

/-- The channel matrix after the loop of `AudioInit`: in every row `u` below
`AudioRatesMax` the entries 1..8 are set to 2, 2, 4, 4, 6, 6, 8, 8. -/
def AudioInit_matrix (m : Nat → Nat → Int) : Nat → Nat → Int :=
  fun u c =>
    if u < AudioRatesMax then
      match c with
      | 1 => 2
      | 2 => 2
      | 3 => 4
      | 4 => 4
      | 5 => 6
      | 6 => 6
      | 7 => 8
      | 8 => 8
      | _ => m u c
    else m u c

/-- Initialize audio output module (`AudioInit`), on the path where an
output module is found: the ring is set up and the channel matrix is
populated.  The module's own `Init` and the thread start do not touch the
ring or the matrix. -/
def AudioInit (st : AudioState) : AudioState :=
  let st := AudioRingInit st
  { st with AudioChannelMatrix := AudioInit_matrix st.AudioChannelMatrix }

/-- The statements of `AudioFlushBuffers` between its two waits, from the
test `AudioRingFilled >= AUDIO_RING_MAX` behind the first wait to
`atomic_inc(&AudioRingFilled)`: with a full ring nothing is written, else a
new write segment is pushed. -/
def AudioFlushBuffers_enqueue (st : AudioState) : AudioState :=
  if st.AudioRingFilled ≥ AUDIO_RING_MAX then st
  else
    let old := st.AudioRingWrite
    let w := (st.AudioRingWrite + 1) % AUDIO_RING_MAX
    let seg : AudioRingRing :=
      { st.AudioRing w with
        FlushBuffers := 1
        Passthrough := (st.AudioRing old).Passthrough
        HwSampleRate := (st.AudioRing old).HwSampleRate
        HwChannels := (st.AudioRing old).HwChannels
        InSampleRate := (st.AudioRing old).InSampleRate
        InChannels := (st.AudioRing old).InChannels
        PTS := AV_NOPTS_VALUE
        RingBuffer := 0 }
    { st with
      AudioRing := Function.update st.AudioRing w seg
      AudioRingWrite := w
      AudioVideoIsReady := 0
      AudioSkip := 0
      AudioRingFilled := st.AudioRingFilled + 1 }

/-- The loop `while (i--)` of the play thread that looks for a flush command
in the queue: `n` iterations are left (`i = n` inside the body of the first
of them), `read` is the local cursor and `flush` the local result; `filled`
is the fill counter read before the loop. -/
def AudioFlushScan_loop (filled : Int) : Nat → Nat → Int → AudioState → Int × AudioState
  | 0, _, flush, st => (flush, st)
  | n + 1, read, flush, st =>
    let read := (read + 1) % AUDIO_RING_MAX
    if (st.AudioRing read).FlushBuffers ≠ 0 then
      AudioFlushScan_loop filled n read (filled - n)
        { st with
          AudioRing := Function.update st.AudioRing read
            { st.AudioRing read with FlushBuffers := 0 }
          AudioRingRead := read }
    else AudioFlushScan_loop filled n read flush st

/-- The flush handling of `AudioPlayHandlerThread`: scan the queued segments
for a flush command, move the read pointer to the last one found and take
the flushed segments off the fill counter.  The loop runs `filled` times; the
fill counter is never negative (`AudioRingInv`). -/
def AudioFlushScan (st : AudioState) : AudioState :=
  let r := AudioFlushScan_loop st.AudioRingFilled st.AudioRingFilled.toNat st.AudioRingRead 0 st
  if r.1 ≠ 0 then { r.2 with AudioRingFilled := r.2.AudioRingFilled - r.1 } else r.2

/-- The step of `AudioPlayHandlerThread` to the next ring buffer, taken on
underrun: nothing when the fill counter is 0, else the fill counter is
decremented and the read pointer advanced. -/
def AudioNextRingStep (st : AudioState) : AudioState :=
  if st.AudioRingFilled = 0 then st
  else
    { st with
      AudioRingFilled := st.AudioRingFilled - 1
      AudioRingRead := (st.AudioRingRead + 1) % AUDIO_RING_MAX }

/-- One operation on the audio ring, by the producer or by the consumer.
The two threads are interleaved at the grain of these operations. -/
inductive AudioOp where
  /-- a call `AudioRingAdd(sample_rate, channels, passthrough)` -/
  | add (sample_rate : Nat) (channels : Int) (passthrough : Int)
  /-- the writes of a call `AudioFlushBuffers()`; the steps of the play thread
  during the waits of the call are consumer operations of the run -/
  | flushBuffers
  /-- the consumer handles the flush commands in the queue -/
  | flushScan
  /-- the consumer moves to the next ring buffer -/
  | nextRing

/-- The state after one operation; `none` when `AudioRingAdd` reads the
channel matrix outside a row. -/
def AudioOp.step (st : AudioState) : AudioOp → Option AudioState
  | .add sample_rate channels passthrough =>
    (AudioRingAdd st sample_rate channels passthrough).map Prod.snd
  | .flushBuffers => some (AudioFlushBuffers_enqueue st)
  | .flushScan => some (AudioFlushScan st)
  | .nextRing => some (AudioNextRingStep st)

/-- The state after a sequence of operations. -/
def AudioOp.run (st : AudioState) : List AudioOp → Option AudioState
  | [] => some st
  | op :: ops =>
    match AudioOp.step st op with
    | none => none
    | some st1 => AudioOp.run st1 ops

/-- The bookkeeping invariant of the audio ring: both pointers are inside the
ring, the fill counter is between 0 and `AUDIO_RING_MAX`, and it is congruent
to the distance from the read to the write pointer modulo `AUDIO_RING_MAX`. -/
def AudioRingInv (st : AudioState) : Prop :=
  st.AudioRingWrite < AUDIO_RING_MAX ∧ st.AudioRingRead < AUDIO_RING_MAX ∧
    0 ≤ st.AudioRingFilled ∧ st.AudioRingFilled ≤ AUDIO_RING_MAX ∧
    st.AudioRingFilled % 4 = ((st.AudioRingWrite : Int) - st.AudioRingRead) % 4

/-! ## Example windows -/

/-- Two MPEG-1 Layer III frames (128 kbit/s, 44100 Hz, no padding)
back-to-back: a header at offset 0 and the next header at offset 417. -/
def exMpegPair : Bytes := twoFrames [0xFF, 0xFB, 0x90, 0x00] 417 [0xFF, 0xFB, 0x90, 0x00]

/-- Two AC-3 frames (fscod 0, frmsizcod 8, 256 bytes) back-to-back. -/
def exAc3Pair : Bytes :=
  twoFrames [0x0B, 0x77, 0x00, 0x00, 0x08, 0x40] 256 [0x0B, 0x77, 0x00, 0x00, 0x08, 0x40]

/-- Two LATM frames with a 13 bit frame size of 32 (35 bytes with the
header) back-to-back. -/
def exLatmPair : Bytes := twoFrames [0x56, 0xE0, 0x20] 35 [0x56, 0xE0, 0x20]

/-- Two ADTS frames of 64 bytes back-to-back. -/
def exAdtsPair : Bytes :=
  twoFrames [0xFF, 0xF1, 0x50, 0x80, 0x08, 0x00, 0xFC] 64 [0xFF, 0xF1, 0x50, 0x80, 0x08, 0x00, 0xFC]

/-- An MPEG audio header with the reserved sample-rate index 3 (and the
valid bit-rate index 9). -/
def exMpegReservedRate : Bytes := bytesOfList [0xFF, 0xFB, 0x9C, 0x00]

/-- An MPEG-2 audio header with the reserved layer code 00 and the reserved
bit-rate index 15. -/
def exMpegReservedLayer : Bytes := bytesOfList [0xFF, 0xF1, 0xF0, 0x00]

/-- An MPEG-1 Layer III header with the reserved bit-rate index 15. -/
def exMpegReservedBitrate : Bytes := bytesOfList [0xFF, 0xFB, 0xF0, 0x00]

/-- An E-AC-3 frame whose frame-size field has all eleven bits set (frame
length 4096 bytes), followed by the next sync word. -/
def exEac3Max : Bytes :=
  twoFrames [0x0B, 0x77, 0x07, 0xFF, 0x00, 0x88] 4096 [0x0B, 0x77, 0x07, 0xFF, 0x00, 0x88]

/-- A sequence of ring operations by producer and consumer. -/
def audioRingExampleOps : List AudioOp :=
  [.add 48000 2 0, .add 44100 6 0, .nextRing, .flushBuffers, .add 48000 1 0, .flushScan]

/-- The ring after `audioRingExampleOps`, from the state `AudioInit` leaves. -/
def audioRingExampleState : AudioState :=
  (AudioOp.run (AudioInit AudioState.zero) audioRingExampleOps).getD AudioState.zero

/-! ## Video packet ring (`softhddev.c`) -/

/-- The libavcodec codec ids the sources name (`enum AVCodecID`). -/
inductive AVCodecID where
  | NONE
  | MPEG2VIDEO
  | H264
  | HEVC
  | MP2
  | AC3
  | EAC3
  | AAC
  | AAC_LATM
  | PCM_DVD
deriving DecidableEq

/-- Modelled from the spec: the number of slots of the video packet ring,
`VIDEO_PACKET_MAX`.  The header that defines it is not among the sources; the
disabled copy of the declarations in `softhddev.c` and the design document
give 256. -/
def VIDEO_PACKET_MAX : Nat := 256

/-- Video PES buffer default size. -/
def VIDEO_BUFFER_SIZE : Int := 1024 * 1024

/-- The fields of an `AVPacket` of the ring that the sources use: the
accumulated bytes (the first `stream_index` bytes of `data`), the allocated
size, the accumulated size `stream_index` and the timestamps. -/
structure VideoPacket where
  /-- contents of the packet buffer -/
  data : List (Fin 256)
  /-- allocated size of the buffer -/
  size : Int
  /-- number of bytes accumulated in the buffer -/
  stream_index : Nat
  /-- presentation timestamp -/
  pts : Int
  /-- decode timestamp -/
  dts : Int
deriving DecidableEq

/-- A call of the video decoder collaborator (`codec.c`, `video.c`), in the
order the stream functions issue them. -/
inductive VideoCall where
  | CodecVideoOpen (codec_id : AVCodecID)
  | CodecVideoDecode (size : Nat)
  | CodecVideoClose
  | CodecVideoDelDecoder
  | CodecVideoFlushBuffers
  | VideoDelHwDecoder
  | VideoResetStart
  | VideoDisplayWakeup
deriving DecidableEq

/-- Video output stream device structure (`struct __video_stream__`), as the
disabled copy in `softhddev.c` declares it.  The decoder pointers are kept as
flags (set when not `NULL`); `Calls` records the calls to the collaborators. -/
structure VideoStream where
  /-- video hardware decoder is present -/
  HwDecoder : Bool
  /-- video decoder is present -/
  Decoder : Bool
  /-- current codec id -/
  CodecID : AVCodecID
  /-- last codec id -/
  LastCodecID : AVCodecID
  /-- flag new video stream -/
  NewStream : Int
  /-- flag closing video stream -/
  ClosingStream : Int
  /-- skip video stream -/
  SkipStream : Int
  /-- stream freezed -/
  Freezed : Int
  /-- command close video stream -/
  Close : Int
  /-- command clear video buffers -/
  ClearBuffers : Int
  /-- counter of invalid PES packets -/
  InvalidPesCounter : Int
  /-- codec ids in ring buffer -/
  CodecIDRb : Nat → AVCodecID
  /-- PES packet ring buffer -/
  PacketRb : Nat → VideoPacket
  /-- last three bytes start code state -/
  StartCodeState : Int
  /-- ring buffer write pointer -/
  PacketWrite : Nat
  /-- ring buffer read pointer -/
  PacketRead : Nat
  /-- how many of the ring buffer is used -/
  PacketsFilled : Int
  /-- calls to the decoder collaborator so far, oldest first -/
  Calls : List VideoCall

/-- A clean packet as `av_new_packet(avpkt, VIDEO_BUFFER_SIZE)` builds it. -/
def VideoPacket.new : VideoPacket :=
  { data := [], size := VIDEO_BUFFER_SIZE, stream_index := 0,
    pts := AV_NOPTS_VALUE, dts := AV_NOPTS_VALUE }

/-- A packet after `av_packet_unref`: no buffer, default fields. -/
def VideoPacket.unref : VideoPacket :=
  { data := [], size := 0, stream_index := 0, pts := AV_NOPTS_VALUE, dts := AV_NOPTS_VALUE }

/-- Initialize video packet ringbuffer (`VideoPacketInit`). -/
def VideoPacketInit (stream : VideoStream) : VideoStream :=
  { stream with
    PacketRb := fun i => if i < VIDEO_PACKET_MAX then VideoPacket.new else stream.PacketRb i
    PacketsFilled := 0
    PacketRead := 0
    PacketWrite := 0 }

/-- Cleanup video packet ringbuffer (`VideoPacketExit`). -/
def VideoPacketExit (stream : VideoStream) : VideoStream :=
  { stream with
    PacketsFilled := 0
    PacketRb := fun i => if i < VIDEO_PACKET_MAX then VideoPacket.unref else stream.PacketRb i }

/-- Place video data in packet ringbuffer (`VideoEnqueue`); `data` holds the
`size` bytes to append. -/
def VideoEnqueue (stream : VideoStream) (pts dts : Int) (data : List (Fin 256)) : VideoStream :=
  let avpkt := stream.PacketRb stream.PacketWrite
  -- add pts only for first added
  let avpkt := if avpkt.stream_index = 0 then { avpkt with pts := pts, dts := dts } else avpkt
  let size : Int := data.length
  let avpkt :=
    if (avpkt.stream_index : Int) + size ≥ avpkt.size then
      { avpkt with size := avpkt.size
          + ((size + VIDEO_BUFFER_SIZE / 2) / (VIDEO_BUFFER_SIZE / 2)) * (VIDEO_BUFFER_SIZE / 2) }
    else avpkt
  let avpkt := { avpkt with
    data := avpkt.data.take avpkt.stream_index ++ data
    stream_index := avpkt.stream_index + data.length }
  { stream with
    PacketRb := Function.update stream.PacketRb stream.PacketWrite avpkt }

/-- Reset current packet (`VideoResetPacket`). -/
def VideoResetPacket (stream : VideoStream) : VideoStream :=
  { stream with
    StartCodeState := 0
    CodecIDRb := Function.update stream.CodecIDRb stream.PacketWrite AVCodecID.NONE
    PacketRb := Function.update stream.PacketRb stream.PacketWrite
      { stream.PacketRb stream.PacketWrite with
        stream_index := 0, pts := AV_NOPTS_VALUE, dts := AV_NOPTS_VALUE } }

/-- Finish current packet advance to next (`VideoNextPacket`). -/
def VideoNextPacket (stream : VideoStream) (codec_id : AVCodecID) : VideoStream :=
  let avpkt := stream.PacketRb stream.PacketWrite
  if avpkt.stream_index = 0 ∧ codec_id ≠ AVCodecID.NONE then stream   -- ignore empty packets
  else if stream.PacketsFilled ≥ (VIDEO_PACKET_MAX : Int) - 1 then
    -- no free slot available drop last packet
    { stream with
      PacketRb := Function.update stream.PacketRb stream.PacketWrite
        { avpkt with stream_index := 0 } }
  else
    let stream := { stream with
      CodecIDRb := Function.update stream.CodecIDRb stream.PacketWrite codec_id
      -- advance packet write
      PacketWrite := (stream.PacketWrite + 1) % VIDEO_PACKET_MAX
      PacketsFilled := stream.PacketsFilled + 1
      Calls := stream.Calls ++ [VideoCall.VideoDisplayWakeup] }
    -- intialize next package to use
    VideoResetPacket stream

/-- Close video stream (`VideoStreamClose`). -/
def VideoStreamClose (stream : VideoStream) (delhw : Int) : VideoStream :=
  let stream := { stream with SkipStream := 1 }
  let stream :=
    if stream.Decoder then
      { stream with
        Decoder := false
        Calls := stream.Calls ++ [VideoCall.CodecVideoClose, VideoCall.CodecVideoDelDecoder] }
    else stream
  let stream :=
    if stream.HwDecoder then
      { stream with
        HwDecoder := false
        Calls := if delhw ≠ 0 then stream.Calls ++ [VideoCall.VideoDelHwDecoder] else stream.Calls }
    else stream
  let stream := VideoPacketExit stream
  { stream with NewStream := 1, InvalidPesCounter := 0 }

/-- Decode from PES packet ringbuffer (`VideoDecodeInput`): the return value
(0 packet decoded, 1 stream paused, -1 empty stream) and the stream after the
call. -/
def VideoDecodeInput (stream : VideoStream) : Int × VideoStream :=
  if !stream.Decoder then (-1, stream)              -- closing
  else if stream.Close ≠ 0 then                     -- close stream request
    (1, { (VideoStreamClose stream 1) with Close := 0 })
  else if stream.ClearBuffers ≠ 0 then              -- clear buffer request
    let stream := { stream with PacketsFilled := 0, PacketRead := stream.PacketWrite }
    let stream :=
      if stream.Decoder then
        { stream with
          Calls := stream.Calls ++ [VideoCall.CodecVideoFlushBuffers, VideoCall.VideoResetStart] }
      else stream
    (1, { stream with ClearBuffers := 0 })
  else if stream.Freezed ≠ 0 then (1, stream)       -- stream freezed
  else if stream.PacketsFilled = 0 then (-1, stream)
  else
    let avpkt := stream.PacketRb stream.PacketRead
    let codec := stream.CodecIDRb stream.PacketRead
    -- advance packet read
    let skip := fun (s : VideoStream) =>
      ((0 : Int), { s with
        PacketRead := (s.PacketRead + 1) % VIDEO_PACKET_MAX
        PacketsFilled := s.PacketsFilled - 1 })
    if codec = AVCodecID.NONE then
      let stream := { stream with ClosingStream := 0 }
      if stream.LastCodecID ≠ AVCodecID.NONE then
        skip { stream with
          LastCodecID := AVCodecID.NONE
          Calls := stream.Calls ++ [VideoCall.CodecVideoClose] }
      else skip stream
    else
      let stream :=
        if (codec = AVCodecID.MPEG2VIDEO ∨ codec = AVCodecID.H264 ∨ codec = AVCodecID.HEVC)
            ∧ stream.LastCodecID ≠ codec then
          { stream with
            LastCodecID := codec
            Calls := stream.Calls ++ [VideoCall.CodecVideoOpen codec] }
        else stream
      -- avcodec_decode_video2 needs size; the size is restored after the call
      let stream := { stream with
        PacketRb := Function.update stream.PacketRb stream.PacketRead
          { avpkt with stream_index := 0 }
        Calls := if stream.Decoder then
            stream.Calls ++ [VideoCall.CodecVideoDecode avpkt.stream_index]
          else stream.Calls }
      skip stream

/-- A video stream at program start: static storage, all zero. -/
def VideoStream.zero : VideoStream where
  HwDecoder := false
  Decoder := false
  CodecID := AVCodecID.NONE
  LastCodecID := AVCodecID.NONE
  NewStream := 0
  ClosingStream := 0
  SkipStream := 0
  Freezed := 0
  Close := 0
  ClearBuffers := 0
  InvalidPesCounter := 0
  CodecIDRb := fun _ => AVCodecID.NONE
  PacketRb := fun _ => VideoPacket.unref
  StartCodeState := 0
  PacketWrite := 0
  PacketRead := 0
  PacketsFilled := 0
  Calls := []

/-- Open video stream (`VideoStreamOpen`), on the path where the hardware
decoder and the decoder are created. -/
def VideoStreamOpen (stream : VideoStream) : VideoStream :=
  let stream := { stream with
    SkipStream := 1
    CodecID := AVCodecID.NONE
    LastCodecID := AVCodecID.NONE
    HwDecoder := true
    Decoder := true }
  let stream := VideoPacketInit stream
  { stream with SkipStream := 0 }

/-- PES type `PES_PRIVATE_STREAM1`. -/
def PES_PRIVATE_STREAM1 : Nat := 0xBD

/-- PES type `PES_PADDING_STREAM`: filler, padding stream. -/
def PES_PADDING_STREAM : Nat := 0xBE

/-- The `len` bytes at offset `off` of a window, as a list. -/
def bytesFrom (data : Bytes) (off : Nat) (len : Int) : List (Fin 256) :=
  (List.range len.toNat).map (fun i => data (off + i))

/-- The loop of `PlayVideo3` that counts leading zeros,
`while (!*check) { if (l < 3) { z = 0; break; } --l; ++check; ++z; }`:
`check` is the offset of the pointer in the packet and the first argument
bounds the number of passes (`l` passes are never exceeded); the result is
`(check, l, z)` after the loop. -/
def PlayVideo3_zeros (data : Bytes) : Nat → Nat → Int → Int → Nat × Int × Int
  | 0, check, l, z => if rd data check = 0 then (check, l, 0) else (check, l, z)
  | k + 1, check, l, z =>
    if rd data check = 0 then
      if l < 3 then (check, l, 0)
      else PlayVideo3_zeros data k (check + 1) (l - 1) (z + 1)
    else (check, l, z)

/-- Play video packet (`PlayVideo3`): the return value (number of bytes used,
0 if internal buffers are full) and the stream after the call.  The packet is
`size` bytes at `data`, and `data` is not `NULL`. -/
def PlayVideo3 (stream : VideoStream) (data : Bytes) (size : Int) : Int × VideoStream :=
  if !stream.Decoder then (size, stream)            -- no x11 video started
  else if stream.SkipStream ≠ 0 then (size, stream) -- skip video stream
  else if stream.Freezed ≠ 0 then (0, stream)       -- stream freezed
  else if stream.NewStream ≠ 0 ∧ stream.PacketsFilled ≥ (VIDEO_PACKET_MAX : Int) - 1 then
    (0, stream)                                     -- new video stream lost
  else
    let stream :=
      if stream.NewStream ≠ 0 then                  -- channel switched
        { (VideoNextPacket stream AVCodecID.NONE) with
          CodecID := AVCodecID.NONE
          ClosingStream := 1
          NewStream := 0 }
      else stream
    -- must be a PES start code
    if size < 9 ∨ rd data 0 ≠ 0 ∨ rd data 1 ≠ 0 ∨ rd data 2 ≠ 0x01 then
      (size, { stream with InvalidPesCounter := stream.InvalidPesCounter + 1 })
    else
      let stream :=
        if stream.InvalidPesCounter ≠ 0 then { stream with InvalidPesCounter := 0 } else stream
      if rd data 3 = PES_PADDING_STREAM then (size, stream)   -- 0xBE, filler, padding stream
      else
        let n : Nat := rd data 8                    -- header size
        if size ≤ 9 + (n : Int) then (size, stream) -- wrong size
        else if stream.PacketsFilled ≥ (VIDEO_PACKET_MAX : Int) - 10 then
          (0, stream)                               -- hard limit buffer full
        else
          -- get pts/dts
          let pts : Int :=
            if rd data 7 &&& 0xC0 = 0x80 ∨ rd data 7 &&& 0xC0 = 0xC0 then PesTimestamp data 9
            else AV_NOPTS_VALUE
          let dts : Int :=
            if rd data 7 &&& 0xC0 = 0xC0 then PesTimestamp data 14 else AV_NOPTS_VALUE
          let czl := PlayVideo3_zeros data (size - 9 - n).toNat (9 + n) (size - 9 - n) 0
          let check := czl.1
          let l := czl.2.1
          let z := czl.2.2
          -- H264 NAL AUD Access Unit Delimiter (0x00) 0x00 0x00 0x01 0x09 and next start code
          if rd data 6 &&& 0xC0 = 0x80 ∧ z ≥ 2 ∧ rd data check = 0x01 ∧ rd data (check + 1) = 0x09
              ∧ rd data (check + 3) = 0 ∧ rd data (check + 4) = 0 then
            let stream :=
              if stream.CodecID = AVCodecID.H264 then VideoNextPacket stream AVCodecID.H264
              else { stream with CodecID := AVCodecID.H264 }
            (size, VideoEnqueue stream pts dts (bytesFrom data (check - 2) (l + 2)))
          -- HEVC Codec
          else if rd data 6 &&& 0xC0 = 0x80 ∧ z ≥ 2 ∧ rd data check = 0x01
              ∧ rd data (check + 1) = 0x46 then
            let stream :=
              if stream.CodecID = AVCodecID.HEVC then VideoNextPacket stream AVCodecID.HEVC
              else { stream with CodecID := AVCodecID.HEVC }
            (size, VideoEnqueue stream pts dts (bytesFrom data (check - 2) (l + 2)))
          -- PES start code 0x00 0x00 0x01 0x00|0xb3
          else if z > 1 ∧ rd data check = 0x01
              ∧ (rd data (check + 1) = 0 ∨ rd data (check + 1) = 0xB3) then
            let stream :=
              if stream.CodecID = AVCodecID.MPEG2VIDEO then
                VideoNextPacket stream AVCodecID.MPEG2VIDEO
              else { stream with CodecID := AVCodecID.MPEG2VIDEO }
            (size, VideoEnqueue stream pts dts (bytesFrom data (check - 2) (l + 2)))
          -- this happens when vdr sends incomplete packets
          else if stream.CodecID = AVCodecID.NONE then (size, stream)
          else
            -- SKIP PES header
            (size, VideoEnqueue stream pts dts (bytesFrom data (9 + n) (size - 9 - n)))

/-- The codec that `PlayVideo3` detects from the start code behind the PES
header, by the same tests in the same order; `none` when none of the three
patterns is found. -/
def PlayVideo3_detect (data : Bytes) (size : Int) : Option AVCodecID :=
  let n : Nat := rd data 8
  let czl := PlayVideo3_zeros data (size - 9 - n).toNat (9 + n) (size - 9 - n) 0
  let check := czl.1
  let z := czl.2.2
  if rd data 6 &&& 0xC0 = 0x80 ∧ z ≥ 2 ∧ rd data check = 0x01 ∧ rd data (check + 1) = 0x09
      ∧ rd data (check + 3) = 0 ∧ rd data (check + 4) = 0 then some AVCodecID.H264
  else if rd data 6 &&& 0xC0 = 0x80 ∧ z ≥ 2 ∧ rd data check = 0x01
      ∧ rd data (check + 1) = 0x46 then some AVCodecID.HEVC
  else if z > 1 ∧ rd data check = 0x01
      ∧ (rd data (check + 1) = 0 ∨ rd data (check + 1) = 0xB3) then some AVCodecID.MPEG2VIDEO
  else none

/-- The payload that `PlayVideo3` enqueues for a detected codec: the bytes
from two zeros before the start code to the end of the packet. -/
def PlayVideo3_payload (data : Bytes) (size : Int) : List (Fin 256) :=
  let n : Nat := rd data 8
  let czl := PlayVideo3_zeros data (size - 9 - n).toNat (9 + n) (size - 9 - n) 0
  bytesFrom data (czl.1 - 2) (czl.2.1 + 2)

/-- The presentation timestamp `PlayVideo3` takes from the PES header. -/
def PlayVideo3_pts (data : Bytes) : Int :=
  if rd data 7 &&& 0xC0 = 0x80 ∨ rd data 7 &&& 0xC0 = 0xC0 then PesTimestamp data 9
  else AV_NOPTS_VALUE

/-- The decode timestamp `PlayVideo3` takes from the PES header. -/
def PlayVideo3_dts (data : Bytes) : Int :=
  if rd data 7 &&& 0xC0 = 0xC0 then PesTimestamp data 14 else AV_NOPTS_VALUE

/-- The checks at the head of `PlayVideo3` let the packet through to the
codec detection: a decoder is there, the stream is neither skipped nor
freezed nor new, the packet starts with the PES start code, is not a padding
stream, is longer than its header, and the ring is below its hard limit. -/
def PlayVideo3_accepts (stream : VideoStream) (data : Bytes) (size : Int) : Prop :=
  stream.Decoder = true ∧ stream.SkipStream = 0 ∧ stream.Freezed = 0 ∧ stream.NewStream = 0 ∧
    9 ≤ size ∧ rd data 0 = 0 ∧ rd data 1 = 0 ∧ rd data 2 = 0x01 ∧
    rd data 3 ≠ PES_PADDING_STREAM ∧ 9 + (rd data 8 : Int) < size ∧
    stream.PacketsFilled < (VIDEO_PACKET_MAX : Int) - 10

instance (stream : VideoStream) (data : Bytes) (size : Int) :
    Decidable (PlayVideo3_accepts stream data size) := by
  unfold PlayVideo3_accepts; infer_instance

/-- An open video stream with an empty ring. -/
def exVideoStream : VideoStream := VideoStreamOpen VideoStream.zero

/-- A PES video packet of 19 bytes whose payload starts with an H.264 access
unit delimiter (`00 00 00 01 09`) followed by another start code. -/
def exPesH264 : Bytes :=
  bytesOfList [0x00, 0x00, 0x01, 0xE0, 0x00, 0x00, 0x80, 0x00, 0x00,
    0x00, 0x00, 0x00, 0x01, 0x09, 0xF0, 0x00, 0x00, 0x01, 0x65]

/-- A PES video packet of 15 bytes whose payload starts with an MPEG-2
sequence start code (`00 00 01 B3`). -/
def exPesMpeg2 : Bytes :=
  bytesOfList [0x00, 0x00, 0x01, 0xE0, 0x00, 0x00, 0x80, 0x00, 0x00,
    0x00, 0x00, 0x01, 0xB3, 0x12, 0x34]

/-- The open stream after `PlayVideo3` took the H.264 packet: the tracked
codec id is H264 and the write slot holds 9 bytes. -/
def exVideoStreamH264 : VideoStream := (PlayVideo3 exVideoStream exPesH264 19).2

/-! ## Start threshold and audio clock (`audio.c`) -/

/-- Number of bytes per sample (`AudioBytesProSample`). -/
def AudioBytesProSample : Int := 2

/-- Size of the audio ring buffer in bytes (`AudioRingBufferSize`). -/
def AudioRingBufferSize : Nat := 3 * 5 * 7 * 8 * 1000

/-- The values of a C `int` (32 bit). -/
def intRange (x : Int) : Prop := -(2 ^ 31) ≤ x ∧ x < 2 ^ 31

instance (x : Int) : Decidable (intRange x) := by
  unfold intRange
  infer_instance

/-- The computation of `AudioStartThreshold` at the end of `AlsaSetup`, from
the period size in bytes that `snd_pcm_frames_to_bytes` returned, `*freq`,
`*channels` and the globals `AudioBufferTime` and `VideoAudioDelay`.  The
products are computed in `int`, converted to `unsigned` for the division by
`1000U`; `none` stands for a signed overflow in the `int` arithmetic. -/
def AlsaSetup_StartThreshold (period_bytes freq channels AudioBufferTime VideoAudioDelay : Int) :
    Option Nat :=
  let AudioStartThreshold : Nat := toUnsigned period_bytes
  -- buffer time/delay in ms
  let delay : Int :=
    if VideoAudioDelay > 0 then AudioBufferTime + VideoAudioDelay / 90 else AudioBufferTime
  if ¬ intRange delay ∨ ¬ intRange (freq * channels)
      ∨ ¬ intRange (freq * channels * AudioBytesProSample)
      ∨ ¬ intRange (freq * channels * AudioBytesProSample * delay) then none
  else
    let bytes : Nat := toUnsigned (freq * channels * AudioBytesProSample * delay) / 1000
    let AudioStartThreshold := if AudioStartThreshold < bytes then bytes else AudioStartThreshold
    -- no bigger, than 1/3 the buffer
    let AudioStartThreshold :=
      if AudioStartThreshold > AudioRingBufferSize / 3 then AudioRingBufferSize / 3
      else AudioStartThreshold
    some AudioStartThreshold

/-- Get audio delay in time stamps (`AudioGetDelay`).  `AudioRunning` is the
flag of the play thread and `GetDelay` the value that the output module
returns from `AudioUsedModule->GetDelay()`.  The divisor is computed in
`unsigned`; `none` stands for the division by zero. -/
def AudioGetDelay (st : AudioState) (AudioRunning : Int) (GetDelay : Int) : Option Int :=
  if AudioRunning = 0 then some 0                                      -- audio not running
  else if (st.AudioRing st.AudioRingRead).HwSampleRate = 0 then some 0 -- audio not setup
  else if st.AudioRingFilled ≠ 0 then some 0             -- multiple buffers, invalid delay
  else
    let divisor : Nat :=
      ((st.AudioRing st.AudioRingRead).HwSampleRate * (st.AudioRing st.AudioRingRead).HwChannels
        * 2) % 2 ^ 32
    if divisor = 0 then none
    else
      some (GetDelay
        + (((st.AudioRing st.AudioRingRead).RingBuffer * 90 * 1000 / divisor : Nat) : Int))

/-- Get current audio clock (`AudioGetClock`); the `int64_t` difference is
returned as `uint64_t`. -/
def AudioGetClock (st : AudioState) (AudioRunning : Int) (GetDelay : Int) : Option Nat :=
  if (st.AudioRing st.AudioRingRead).PTS ≠ AV_NOPTS_VALUE then
    -- delay zero, if no valid time stamp
    match AudioGetDelay st AudioRunning GetDelay with
    | none => none
    | some delay =>
      if delay ≠ 0 then
        some (((st.AudioRing st.AudioRingRead).PTS + 0 * 90 - delay) % 2 ^ 64).toNat
      else some 0
  else some 0

/-- A state whose read segment has the time stamp 90000, is set up for 48 kHz
stereo and holds 19200 buffered bytes. -/
def exClockState : AudioState :=
  { AudioState.zero with
    AudioRing := fun _ => ⟨0, 0, 0, 48000, 2, 48000, 2, 90000, 19200⟩ }

/-- Parsing states of the PES demuxer. -/
inductive PesState where
  /-- unknown codec -/
  | PES_INIT
  /-- skip packet -/
  | PES_SKIP
  /-- search packet sync byte -/
  | PES_SYNC
  /-- copy header -/
  | PES_HEADER
  /-- pes packet start found -/
  | PES_START
  /-- copy payload -/
  | PES_PAYLOAD
  /-- copy lcpm header -/
  | PES_LPCM_HEADER
  /-- copy lcpm payload -/
  | PES_LPCM_PAYLOAD
  deriving DecidableEq

/-- Size of pes start code with length. -/
def PES_START_CODE_SIZE : Int := 6

/-- Size of pes header. -/
def PES_HEADER_SIZE : Int := 9

/-- Maximal header size. -/
def PES_MAX_HEADER_SIZE : Int := PES_HEADER_SIZE + 256

/-- Max pay load size. -/
def PES_MAX_PAYLOAD : Int := 512 * 1024

/-- Transport stream packet size. -/
def TS_PACKET_SIZE : Int := 188

/-- Transport stream packet sync byte. -/
def TS_PACKET_SYNC : Nat := 0x47

/-- PES demuxer (`PesDemux`).  `Header` and `Buffer` are the contents of the
header array and of the payload buffer. -/
structure PesDemux where
  /-- parsing state -/
  State : PesState
  /-- buffer for pes header -/
  Header : Bytes
  /-- header index -/
  HeaderIndex : Int
  /-- size of pes header -/
  HeaderSize : Int
  /-- payload buffer -/
  Buffer : Bytes
  /-- buffer index -/
  Index : Int
  /-- buffer skip -/
  Skip : Int
  /-- size of payload buffer -/
  Size : Int
  /-- pes packet start code (`uint8_t`) -/
  StartCode : Nat
  /-- presentation time stamp -/
  PTS : Int
  /-- decode time stamp -/
  DTS : Int

/-- The calls that the audio scanners make to the decoder collaborator. -/
inductive AudioCall where
  /-- `CodecAudioClose(MyAudioDecoder)` -/
  | CodecAudioClose
  /-- `CodecAudioOpen(MyAudioDecoder, codec_id)` -/
  | CodecAudioOpen (codec_id : AVCodecID)
  /-- `CodecAudioDecode(MyAudioDecoder, avpkt)` with the fields of `avpkt`;
  `data` holds the `size` bytes that `avpkt->data` points to -/
  | CodecAudioDecode (size : Int) (pts dts : Int) (data : List (Fin 256))
  deriving DecidableEq

/-- The file-scope variables of `softhddev.c` that the audio scanners use:
the current codec id, the time stamps of `AudioAvPkt`, the audio PES demuxer,
the packet counter of the transport stream demuxer, and the calls made to the
decoder so far. -/
structure AudioDemuxState where
  /-- current codec id -/
  AudioCodecID : AVCodecID
  /-- `AudioAvPkt->pts` -/
  AudioAvPkt_pts : Int
  /-- `AudioAvPkt->dts` -/
  AudioAvPkt_dts : Int
  /-- audio demuxer -/
  PesDemuxAudio : PesDemux
  /-- packets between PCR (`tsdx->Packets`) -/
  Packets : Int
  /-- calls to the audio decoder, oldest first -/
  Calls : List AudioCall

/-- The C calls `memcpy(dst + d, src + s, n)` and `memmove(dst + d, src + s, n)`
on the contents of the destination. -/
def memcpy (dst : Bytes) (d : Nat) (src : Bytes) (s : Nat) (n : Nat) : Bytes :=
  fun i => if d ≤ i ∧ i < d + n then src (s + (i - d)) else dst i

/-- The value of a sniffer as an option: nothing when it aborted or indexed
outside a table. -/
def CResult.toOption : CResult → Option Int
  | .ret v => some v
  | .aborted => none
  | .undefined => none

/-- Reset packetized elementary stream demuxer (`PesReset`). -/
def PesReset (pesdx : PesDemux) : PesDemux :=
  { pesdx with
    State := PesState.PES_INIT
    Index := 0
    Skip := 0
    StartCode := 0xFF
    PTS := AV_NOPTS_VALUE
    DTS := AV_NOPTS_VALUE }

/-- Initialize a packetized elementary stream demuxer (`PesInit`), with the
allocation succeeding. -/
def PesInit : PesDemux :=
  PesReset
    { State := PesState.PES_INIT
      Header := fun _ => 0
      HeaderIndex := 0
      HeaderSize := 0
      Buffer := fun _ => 0
      Index := 0
      Skip := 0
      Size := PES_MAX_PAYLOAD
      StartCode := 0
      PTS := 0
      DTS := 0 }

/-- The sniffer cascade in the scan loop of `PesParse` at `q` with `n` bytes:
the values of `r` and `codec_id` behind the four tests; `none` when a sniffer
aborts or indexes outside a table. -/
def PesParse_sniff (q : Bytes) (n : Int) : Option (Int × AVCodecID) :=
  (if FastMpegCheck q then
      (MpegCheck q n).toOption.map fun r => (r, AVCodecID.MP2)
    else some (0, AVCodecID.NONE)).bind fun rc =>
  (if rc.1 = 0 ∧ FastAc3Check q then
      (Ac3Check q n).toOption.map fun r =>
        (r, if r > 0 ∧ rd q 5 > (10 <<< 3) then AVCodecID.EAC3 else AVCodecID.AC3)
    else some rc).bind fun rc =>
  (if rc.1 = 0 ∧ FastLatmCheck q then
      (LatmCheck q n).toOption.map fun r => (r, AVCodecID.AAC_LATM)
    else some rc).bind fun rc =>
  (if rc.1 = 0 ∧ FastAdtsCheck q then
      (AdtsCheck q n).toOption.map fun r => (r, AVCodecID.AAC)
    else some rc)

/-- The block of `PesParse` for a confirmed frame of `r` bytes at offset `q`
of the payload buffer: new codec id, close and open new; decode; clear the
time stamps and advance `Skip`. -/
def PesParse_emit (ctx : AudioDemuxState) (q : Nat) (r : Int) (codec_id : AVCodecID) :
    AudioDemuxState :=
  -- new codec id, close and open new
  let ctx :=
    if ctx.AudioCodecID ≠ codec_id then
      { ctx with
        Calls := ctx.Calls ++ [AudioCall.CodecAudioClose, AudioCall.CodecAudioOpen codec_id]
        AudioCodecID := codec_id }
    else ctx
  let pesdx := ctx.PesDemuxAudio
  { ctx with
    Calls := ctx.Calls ++
      [AudioCall.CodecAudioDecode r pesdx.PTS pesdx.DTS (bytesFrom pesdx.Buffer q r)]
    PesDemuxAudio :=
      { pesdx with PTS := AV_NOPTS_VALUE, DTS := AV_NOPTS_VALUE, Skip := pesdx.Skip + r } }

/-- The loop `while (n >= 5)` of `PesParse` in the state `PES_INIT`, with `q`
as offset into the payload buffer.  Every turn that goes on lowers `n` by
one, so `n` turns are enough: the loop is run with fuel `n`.  `none` when a
sniffer aborts or indexes outside a table. -/
def PesParse_scan : Nat → AudioDemuxState → Nat → Int → Option AudioDemuxState
  | 0, ctx, _, n => if n ≥ 5 then none else some ctx
  | fuel + 1, ctx, q, n =>
    if n ≥ 5 then
      match PesParse_sniff (ptrAdd ctx.PesDemuxAudio.Buffer q) n with
      | none => none
      | some (r, codec_id) =>
        if r < 0 then some ctx                        -- need more bytes
        else if r > 0 then some (PesParse_emit ctx q r codec_id)
        else
          -- try next byte
          PesParse_scan fuel
            { ctx with
              PesDemuxAudio :=
                { ctx.PesDemuxAudio with Skip := ctx.PesDemuxAudio.Skip + 1 } }
            (q + 1) (n - 1)
    else some ctx

/-- The state behind `empty_header:` in `PesParse`. -/
def PesParse_empty_header (pesdx : PesDemux) : PesDemux :=
  let pesdx := { pesdx with State := PesState.PES_INIT }
  if pesdx.StartCode = PES_PRIVATE_STREAM1 then
    -- only private stream 1, has sub streams
    { pesdx with State := PesState.PES_START }
  else pesdx

/-- One turn of the loop `do ... while (size > 0)` of `PesParse`: the
`switch` on the state.  `data` is the argument of the call, `p` the offset of
the read pointer into it.  The result holds the new state, `p`, `size` and
whether the function returned from inside the `switch`; `none` when a sniffer
aborts or indexes outside a table, or a copy has a negative length or leaves
the header array. -/
def PesParse_pass (data : Bytes) (ctx : AudioDemuxState) (p : Nat) (size : Int) :
    Option (AudioDemuxState × Nat × Int × Bool) :=
  let pesdx := ctx.PesDemuxAudio
  match pesdx.State with
  | PesState.PES_SKIP => some (ctx, p, size, true)     -- skip this packet
  | PesState.PES_START | PesState.PES_INIT =>          -- find start of audio packet
    -- fill buffer
    let n := pesdx.Size - pesdx.Index
    let n := if n > size then size else n
    if n < 0 ∨ pesdx.Index < 0 then none
    else
      let pesdx :=
        { pesdx with
          Buffer := memcpy pesdx.Buffer pesdx.Index.toNat data p n.toNat
          Index := pesdx.Index + n }
      let p := p + n.toNat
      let size := size - n
      let ctx := { ctx with PesDemuxAudio := pesdx }
      if pesdx.Skip < 0 then none
      else
        (PesParse_scan (pesdx.Index - pesdx.Skip).toNat ctx pesdx.Skip.toNat
          (pesdx.Index - pesdx.Skip)).map fun ctx => (ctx, p, size, false)
  | PesState.PES_SYNC =>                               -- wait for pes sync
    let n := PES_START_CODE_SIZE - pesdx.HeaderIndex
    let n := if n > size then size else n
    if n < 0 ∨ pesdx.HeaderIndex < 0 ∨ pesdx.HeaderIndex + n > PES_MAX_HEADER_SIZE then none
    else
      let pesdx :=
        { pesdx with
          Header := memcpy pesdx.Header pesdx.HeaderIndex.toNat data p n.toNat
          HeaderIndex := pesdx.HeaderIndex + n }
      let p := p + n.toNat
      let size := size - n
      -- have complete packet start code
      if pesdx.HeaderIndex ≥ PES_START_CODE_SIZE then
        -- bad mpeg pes packet start code prefix 0x00001xx
        if rd pesdx.Header 0 ≠ 0 ∨ rd pesdx.Header 1 ≠ 0 ∨ rd pesdx.Header 2 ≠ 0x01 then
          some ({ ctx with PesDemuxAudio := { pesdx with State := PesState.PES_SKIP } },
            p, size, true)
        else
          let code := rd pesdx.Header 3
          let pesdx := if code ≠ pesdx.StartCode then { pesdx with StartCode := code } else pesdx
          some ({ ctx with
              PesDemuxAudio :=
                { pesdx with State := PesState.PES_HEADER, HeaderSize := PES_HEADER_SIZE } },
            p, size, false)
      else some ({ ctx with PesDemuxAudio := pesdx }, p, size, false)
  | PesState.PES_HEADER =>                             -- parse PES header
    let n := pesdx.HeaderSize - pesdx.HeaderIndex
    let n := if n > size then size else n
    if n < 0 ∨ pesdx.HeaderIndex < 0 ∨ pesdx.HeaderIndex + n > PES_MAX_HEADER_SIZE then none
    else
      let pesdx :=
        { pesdx with
          Header := memcpy pesdx.Header pesdx.HeaderIndex.toNat data p n.toNat
          HeaderIndex := pesdx.HeaderIndex + n }
      let p := p + n.toNat
      let size := size - n
      -- have header upto size bits
      if pesdx.HeaderIndex = PES_HEADER_SIZE then
        if rd pesdx.Header 6 &&& 0xC0 ≠ 0x80 then
          some ({ ctx with PesDemuxAudio := { pesdx with State := PesState.PES_SKIP } },
            p, size, true)
        -- have pes extension
        else if rd pesdx.Header 8 = 0 then
          some ({ ctx with PesDemuxAudio := PesParse_empty_header pesdx }, p, size, false)
        else
          some ({ ctx with
              PesDemuxAudio :=
                { pesdx with HeaderSize := pesdx.HeaderSize + rd pesdx.Header 8 } },
            p, size, false)
      -- have complete header
      else if pesdx.HeaderIndex = pesdx.HeaderSize then
        let pesdx :=
          if rd pesdx.Header 7 &&& 0xC0 = 0x80 then
            { pesdx with PTS := PesTimestamp data 9, DTS := AV_NOPTS_VALUE }
          else if rd pesdx.Header 7 &&& 0xC0 = 0xC0 then
            { pesdx with PTS := PesTimestamp data 9, DTS := PesTimestamp data 14 }
          else pesdx
        some ({ ctx with PesDemuxAudio := PesParse_empty_header pesdx }, p, size, false)
      else some ({ ctx with PesDemuxAudio := pesdx }, p, size, false)
  | _ => some (ctx, p, size, false)

/-- The loop `do ... while (size > 0)` of `PesParse`.  `none` when a turn
gives none, or the fuel is used up. -/
def PesParse_loop (data : Bytes) : Nat → AudioDemuxState → Nat → Int → Option AudioDemuxState
  | 0, _, _, _ => none
  | fuel + 1, ctx, p, size =>
    match PesParse_pass data ctx p size with
    | none => none
    | some (ctx, p, size, returned) =>
      if returned then some ctx
      else if size > 0 then PesParse_loop data fuel ctx p size
      else some ctx

/-- The block "copy remaining bytes down" of `PesParse`:
`Index -= Skip; memmove(Buffer, Buffer + Skip, Index); Skip = 0`; `none` when
the length of the `memmove` or `Skip` is negative. -/
def PesParse_compact (pesdx : PesDemux) : Option PesDemux :=
  if pesdx.Skip < 0 ∨ pesdx.Index - pesdx.Skip < 0 then none
  else
    some { pesdx with
      Index := pesdx.Index - pesdx.Skip
      Buffer := memcpy pesdx.Buffer 0 pesdx.Buffer pesdx.Skip.toNat
        (pesdx.Index - pesdx.Skip).toNat
      Skip := 0 }

/-- Parse packetized elementary stream (`PesParse`) on the audio demuxer.
Every turn of the loop that does not return takes at least one byte of
`data`, unless the state is one in which no turn ever takes a byte; the loop
is run with fuel `size + 1`. -/
def PesParse (ctx : AudioDemuxState) (data : Bytes) (size : Int) (is_start : Int) :
    Option AudioDemuxState :=
  let pesdx := ctx.PesDemuxAudio
  (if is_start ≠ 0 then                                -- start of pes packet
      (if pesdx.Index ≠ 0 ∧ pesdx.Skip ≠ 0 then PesParse_compact pesdx
        else some pesdx).map fun pesdx =>
        { pesdx with
          State := PesState.PES_SYNC
          HeaderIndex := 0
          PTS := AV_NOPTS_VALUE                        -- reset if not yet used
          DTS := AV_NOPTS_VALUE }
    else some pesdx).bind fun pesdx =>
  -- cleanup, if too much cruft
  (if pesdx.Skip > PES_MAX_PAYLOAD / 2 then PesParse_compact pesdx
    else some pesdx).bind fun pesdx =>
  PesParse_loop data (size.toNat + 1) { ctx with PesDemuxAudio := pesdx } 0 size

/-- The loop `while (size >= TS_PACKET_SIZE)` of `TsDemuxer`, with `p` as
offset into `data`; every turn takes one packet, the fuel is the number of
packets.  The result is the value returned and the state. -/
def TsDemuxer_loop (data : Bytes) : Nat → AudioDemuxState → Nat → Int →
    Option (Int × AudioDemuxState)
  | 0, ctx, p, size => if size ≥ TS_PACKET_SIZE then none else some ((p : Int), ctx)
  | fuel + 1, ctx, p, size =>
    if size ≥ TS_PACKET_SIZE then
      if rd data p ≠ TS_PACKET_SYNC then
        some (size, ctx)                               -- transport stream out of sync
      else
        let ctx := { ctx with Packets := ctx.Packets + 1 }
        if rd data (p + 1) &&& 0x80 ≠ 0 then           -- error indicator
          TsDemuxer_loop data fuel ctx (p + 188) (size - TS_PACKET_SIZE)
        -- skip adaptation field
        else if rd data (p + 3) &&& 0x30 = 0x10 then   -- only payload
          match PesParse ctx (ptrAdd data (p + 4)) (TS_PACKET_SIZE - 4)
              ((rd data (p + 1) &&& 0x40 : Nat) : Int) with
          | none => none
          | some ctx => TsDemuxer_loop data fuel ctx (p + 188) (size - TS_PACKET_SIZE)
        else if rd data (p + 3) &&& 0x30 = 0x30 then   -- skip adapation field
          let payload := 5 + rd data (p + 4)
          -- illegal length, ignore packet
          if (payload : Int) ≥ TS_PACKET_SIZE then
            TsDemuxer_loop data fuel ctx (p + 188) (size - TS_PACKET_SIZE)
          else
            match PesParse ctx (ptrAdd data (p + payload)) (TS_PACKET_SIZE - payload)
                ((rd data (p + 1) &&& 0x40 : Nat) : Int) with
            | none => none
            | some ctx => TsDemuxer_loop data fuel ctx (p + 188) (size - TS_PACKET_SIZE)
        else TsDemuxer_loop data fuel ctx (p + 188) (size - TS_PACKET_SIZE)
    else some ((p : Int), ctx)

/-- Transport stream demuxer (`TsDemuxer`): the value returned and the state
behind the call. -/
def TsDemuxer (ctx : AudioDemuxState) (data : Bytes) (size : Int) :
    Option (Int × AudioDemuxState) :=
  TsDemuxer_loop data (size.toNat / 188) ctx 0 size

/-- The sniffer cascade in the scan loop of `PlayAudio` at `p` with `n` bytes
for the PES packet type `id`. -/
def PlayAudio_sniff (p : Bytes) (n : Int) (id : Nat) : Option (Int × AVCodecID) :=
  (if id ≠ 0xBD ∧ FastMpegCheck p then
      (MpegCheck p n).toOption.map fun r => (r, AVCodecID.MP2)
    else some (0, AVCodecID.NONE)).bind fun rc =>
  (if id ≠ 0xBD ∧ rc.1 = 0 ∧ FastLatmCheck p then
      (LatmCheck p n).toOption.map fun r => (r, AVCodecID.AAC_LATM)
    else some rc).bind fun rc =>
  (if (id = 0xBD ∨ id &&& 0xF0 = 0x80) ∧ rc.1 = 0 ∧ FastAc3Check p then
      (Ac3Check p n).toOption.map fun r =>
        (r, if r > 0 ∧ rd p 5 > (10 <<< 3) then AVCodecID.EAC3 else AVCodecID.AC3)
    else some rc).bind fun rc =>
  (if id ≠ 0xBD ∧ rc.1 = 0 ∧ FastAdtsCheck p then
      (AdtsCheck p n).toOption.map fun r => (r, AVCodecID.AAC)
    else some rc)

/-- The block of `PlayAudio` for a confirmed frame of `r` bytes at offset `p`
of the packet buffer `buf`: new codec id, close and open new; decode; clear
the time stamps. -/
def PlayAudio_emit (ctx : AudioDemuxState) (buf : Bytes) (p : Nat) (r : Int)
    (codec_id : AVCodecID) : AudioDemuxState :=
  -- new codec id, close and open new
  let ctx :=
    if ctx.AudioCodecID ≠ codec_id then
      { ctx with
        Calls := ctx.Calls ++ [AudioCall.CodecAudioClose, AudioCall.CodecAudioOpen codec_id]
        AudioCodecID := codec_id }
    else ctx
  { ctx with
    Calls := ctx.Calls ++
      [AudioCall.CodecAudioDecode r ctx.AudioAvPkt_pts ctx.AudioAvPkt_dts (bytesFrom buf p r)]
    AudioAvPkt_pts := AV_NOPTS_VALUE
    AudioAvPkt_dts := AV_NOPTS_VALUE }

/-- The loop `while (n >= 5)` of `PlayAudio` over the packet buffer `buf`
(`AudioAvPkt->data`), with `p` as offset into it; every turn that goes on
lowers `n` by at least one, the loop is run with fuel `n`.  The result holds
the state and the values of `p` and `n` behind the loop. -/
def PlayAudio_scan (buf : Bytes) (id : Nat) : Nat → AudioDemuxState → Nat → Int →
    Option (AudioDemuxState × Nat × Int)
  | 0, ctx, p, n => if n ≥ 5 then none else some (ctx, p, n)
  | fuel + 1, ctx, p, n =>
    if n ≥ 5 then
      match PlayAudio_sniff (ptrAdd buf p) n id with
      | none => none
      | some (r, codec_id) =>
        if r < 0 then some (ctx, p, n)                -- need more bytes
        else if r > 0 then
          PlayAudio_scan buf id fuel (PlayAudio_emit ctx buf p r codec_id) (p + r.toNat) (n - r)
        else PlayAudio_scan buf id fuel ctx (p + 1) (n - 1)
    else some (ctx, p, n)

/-- The state of the audio scanners at start: no codec open, no time stamps,
the PES demuxer initialised, no calls made. -/
def AudioDemuxState.init : AudioDemuxState where
  AudioCodecID := AVCodecID.NONE
  AudioAvPkt_pts := AV_NOPTS_VALUE
  AudioAvPkt_dts := AV_NOPTS_VALUE
  PesDemuxAudio := PesInit
  Packets := 0
  Calls := []

/-- Three transport stream packets without payload (adaptation field only);
the second one starts with 0x00 instead of the sync byte. -/
def exTsOutOfSync : Bytes := fun i =>
  if i % 188 = 0 then (if i / 188 = 1 then 0x00 else 0x47)
  else if i % 188 = 3 then 0x20
  else 0x00

/-- A PES packet of stream 0xC0 with a PTS-only header (PTS 65537) and 16
payload bytes of zeros: 30 bytes. -/
def exPesPts : Bytes :=
  bytesOfList [0x00, 0x00, 0x01, 0xC0, 0x00, 0x00, 0x80, 0x80, 0x05,
    0x21, 0x00, 0x05, 0x00, 0x03]

/-- A chunk of 73 bytes: two LATM frames of 35 bytes each (header 56 E0 20),
back to back, and the header of a third one. -/
def exLatmChunk : Bytes := fun i =>
  if i % 35 = 0 then 0x56 else if i % 35 = 1 then 0xE0 else if i % 35 = 2 then 0x20 else 0x00

/-- A transport stream of in-sync packets, of which the third to the fifth
carry the first bytes of `pes` as audio PES packet: the third (with the
payload-unit-start flag) and the fourth one 184 bytes each, the fifth one,
behind an adaptation field of stuffing, the next `last` bytes
(`last < 183`).  All other packets hold an adaptation field only. -/
def exTsStream (pes : Bytes) (last : Nat) : Bytes := fun i =>
  if i % 188 = 0 then 0x47
  else if i / 188 = 2 ∨ i / 188 = 3 then
    if i % 188 = 1 then (if i / 188 = 2 then 0x40 else 0x00)
    else if i % 188 = 2 then 0x00
    else if i % 188 = 3 then 0x10
    else pes ((i / 188 - 2) * 184 + (i % 188 - 4))
  else if i / 188 = 4 then
    if i % 188 = 1 then 0x00
    else if i % 188 = 2 then 0x00
    else if i % 188 = 3 then 0x30
    else if i % 188 = 4 then Fin.ofNat (183 - last)
    else if i % 188 = 5 then 0x00
    else if i % 188 < 188 - last then 0xFF
    else pes (368 + (i % 188 - (188 - last)))
  else if i % 188 = 3 then 0x20
  else 0x00

/-- A PES packet of private stream 1 with a PTS-only header of 14 bytes
(PTS 65537), followed by the bytes of `frame`. -/
def exPesAc3 (frame : Bytes) : Bytes := fun i =>
  if i < 14 then
    bytesOfList [0x00, 0x00, 0x01, 0xBD, 0x00, 0x00, 0x80, 0x80, 0x05,
      0x21, 0x00, 0x05, 0x00, 0x03] i
  else frame (i - 14)

/-- An AC-3 frame with `fscod = 0` and `frmsizcod = 12` (192 words, 384
bytes) and zeros as content; when `next` is set the sync word of a next frame
follows at offset 384. -/
def exAc3Frame (next : Bool) : Bytes := fun i =>
  if i = 0 then 0x0B
  else if i = 1 then 0x77
  else if i = 4 then 0x0C
  else if i = 5 then 0x40
  else if next ∧ i = 384 then 0x0B
  else if next ∧ i = 385 then 0x77
  else 0x00

/-! ## Decoder calls of the audio scanners, as the specification words them -/

/-- The calls for one confirmed frame of codec `c` with the decode call
`decode`, while `cur` is the current codec id, in the words of the
specification: close, open(c), decode when `cur` differs from `c`, and only
decode otherwise. -/
def specFrameCalls (cur c : AVCodecID) (decode : AudioCall) : List AudioCall :=
  if cur ≠ c then [AudioCall.CodecAudioClose, AudioCall.CodecAudioOpen c, decode] else [decode]

/-- Whether a call is `CodecAudioDecode`. -/
def AudioCall.isDecode : AudioCall → Bool
  | .CodecAudioDecode _ _ _ _ => true
  | _ => false

/-- The invariant of the payload buffer of the PES demuxer:
`0 <= Skip <= Index <= Size`. -/
def PesInv (pesdx : PesDemux) : Prop :=
  0 ≤ pesdx.Skip ∧ pesdx.Skip ≤ pesdx.Index ∧ pesdx.Index ≤ pesdx.Size

instance (pesdx : PesDemux) : Decidable (PesInv pesdx) := by
  unfold PesInv
  infer_instance

/-- A call on the audio PES demuxer: `PesReset(PesDemuxAudio)` or
`PesParse(PesDemuxAudio, data, size, is_start)`. -/
inductive PesOp where
  /-- a call `PesReset(PesDemuxAudio)` -/
  | reset
  /-- a call `PesParse(PesDemuxAudio, data, size, is_start)` -/
  | parse (data : Bytes) (size : Int) (is_start : Int)

/-- The state after one call; `none` when `PesParse` gives none. -/
def PesOp.step (ctx : AudioDemuxState) : PesOp → Option AudioDemuxState
  | .reset => some { ctx with PesDemuxAudio := PesReset ctx.PesDemuxAudio }
  | .parse data size is_start => PesParse ctx data size is_start

/-- The state after a sequence of calls. -/
def PesOp.run (ctx : AudioDemuxState) : List PesOp → Option AudioDemuxState
  | [] => some ctx
  | op :: ops =>
    match PesOp.step ctx op with
    | none => none
    | some ctx1 => PesOp.run ctx1 ops

/-- Three calls of `PesParse`: the start of a PES packet of private stream 1
whose payload is an AC-3 frame of 384 bytes, in chunks of 184 bytes. -/
def pesExampleParses : List PesOp :=
  [.parse (exPesAc3 (exAc3Frame true)) 184 1,
    .parse (ptrAdd (exPesAc3 (exAc3Frame true)) 184) 184 0,
    .parse (ptrAdd (exPesAc3 (exAc3Frame true)) 368) 184 0]

/-- A reset and the calls of `pesExampleParses`. -/
def pesExampleOps : List PesOp := PesOp.reset :: pesExampleParses

/-- The state after `pesExampleOps`, from the state at start. -/
def pesExampleState : AudioDemuxState :=
  (PesOp.run AudioDemuxState.init pesExampleOps).getD AudioDemuxState.init

/-- The header fields of the PES demuxer fit its state: in the state
`PES_SYNC` less than the 6 bytes of the start code are there, in the state
`PES_HEADER` the header is not yet complete, its size is 9 until 9 bytes are
there and at most 9 + 255 after that.  The states of the disabled LPCM code
are left out. -/
def PesHeaderOk (pesdx : PesDemux) : Prop :=
  match pesdx.State with
  | PesState.PES_INIT => True
  | PesState.PES_START => True
  | PesState.PES_SKIP => True
  | PesState.PES_SYNC => 0 ≤ pesdx.HeaderIndex ∧ pesdx.HeaderIndex < PES_START_CODE_SIZE
  | PesState.PES_HEADER =>
    PES_START_CODE_SIZE ≤ pesdx.HeaderIndex ∧ pesdx.HeaderIndex < pesdx.HeaderSize ∧
      PES_HEADER_SIZE ≤ pesdx.HeaderSize ∧ pesdx.HeaderSize ≤ PES_HEADER_SIZE + 255 ∧
      (pesdx.HeaderIndex < PES_HEADER_SIZE → pesdx.HeaderSize = PES_HEADER_SIZE)
  | _ => False

/-! ## Sample filters and channel remixer (`audio.c`) -/

/-- Memory seen through an `int16_t *`: the sample at each index. -/
abbrev Samples := Nat → Int

/-- The limit `INT16_MAX`. -/
def INT16_MAX : Int := 32767

/-- The limit `INT16_MIN`. -/
def INT16_MIN : Int := -32768

/-- The loop of `AudioCompressor` that finds the loudest sample, over the
`count / AudioBytesProSample` samples of the buffer, with the running value
of `max_sample`. -/
def AudioCompressor_max : List Int → Int → Int
  | [], max_sample => max_sample
  | s :: samples, max_sample =>
    let t := |s|
    AudioCompressor_max samples (if t > max_sample then t else max_sample)

/-- The body of the loop of `AudioCompressor` that applies the compression
factor to a sample; the C division truncates. -/
def AudioCompressor_apply (factor : Int) (s : Int) : Int :=
  let t := (s * factor).tdiv 1000
  if t < INT16_MIN then INT16_MIN
  else if t > INT16_MAX then INT16_MAX
  else t

/-- Audio compression (`AudioCompressor`) on the samples of the buffer: the
new value of `AudioCompressionFactor` and the samples behind the call; `none`
stands for a signed overflow in the `int` arithmetic. -/
def AudioCompressor (AudioCompressionFactor AudioMaxCompression : Int) (samples : List Int) :
    Option (Int × List Int) :=
  -- find loudest sample
  let max_sample := AudioCompressor_max samples 0
  -- calculate compression factor
  if max_sample > 0 then
    let factor := (INT16_MAX * 1000).tdiv max_sample
    -- smooth compression
    if ¬ intRange (AudioCompressionFactor * 950) ∨ ¬ intRange (factor * 50)
        ∨ ¬ intRange (AudioCompressionFactor * 950 + factor * 50) then none
    else
      let f := (AudioCompressionFactor * 950 + factor * 50).tdiv 1000
      let f := if f > factor then factor else f      -- no clipping
      let f := if f > AudioMaxCompression then AudioMaxCompression else f
      -- apply compression factor
      if samples.all (fun s => decide (intRange (s * f))) then
        some (f, samples.map (AudioCompressor_apply f))
      else none
  else some (AudioCompressionFactor, samples)      -- silent nothing todo

/-- Upmix mono to stereo (`AudioMono2Stereo`): the loop
`for (i = 0; i < frames; ++i)` from index `i` on, with `k` turns left. -/
def AudioMono2Stereo_loop (inp : Samples) : Nat → Nat → Samples → Samples
  | 0, _, out => out
  | k + 1, i, out =>
    let t := inp i
    AudioMono2Stereo_loop inp k (i + 1)
      (Function.update (Function.update out (i * 2 + 0) t) (i * 2 + 1) t)

/-- Upmix mono to stereo (`AudioMono2Stereo`): the output buffer behind the
call. -/
def AudioMono2Stereo (inp : Samples) (frames : Int) (out : Samples) : Samples :=
  AudioMono2Stereo_loop inp frames.toNat 0 out

/-- Downmix stereo to mono (`AudioStereo2Mono`): the loop
`for (i = 0; i < frames; i += 2)` from index `i` on; the first argument
bounds the number of turns (`frames` turns are never exceeded). -/
def AudioStereo2Mono_loop (inp : Samples) (frames : Int) : Nat → Nat → Samples → Samples
  | 0, _, out => out
  | k + 1, i, out =>
    if (i : Int) < frames then
      AudioStereo2Mono_loop inp frames k (i + 2)
        (Function.update out (i / 2) ((inp (i + 0) + inp (i + 1)).tdiv 2))
    else out

/-- Downmix stereo to mono (`AudioStereo2Mono`): the output buffer behind the
call. -/
def AudioStereo2Mono (inp : Samples) (frames : Int) (out : Samples) : Samples :=
  AudioStereo2Mono_loop inp frames frames.toNat 0 out

/-- The `switch (in_chan)` of `AudioSurround2Stereo` on the frame at offset
`i`: the values of `l` and `r`; `none` is the `abort()` of the default
case. -/
def AudioSurround2Stereo_mix (inp : Samples) (i : Nat) (in_chan : Int) : Option (Int × Int) :=
  if in_chan = 3 then                    -- stereo or surround? =>stereo
    some (inp (i + 0) * 600 + inp (i + 2) * 400, inp (i + 1) * 600 + inp (i + 2) * 400)
  else if in_chan = 4 then               -- quad or surround? =>quad
    some (inp (i + 0) * 600 + inp (i + 2) * 400, inp (i + 1) * 600 + inp (i + 3) * 400)
  else if in_chan = 5 then               -- 5.0
    some (inp (i + 0) * 500 + inp (i + 2) * 200 + inp (i + 4) * 300,
      inp (i + 1) * 500 + inp (i + 3) * 200 + inp (i + 4) * 300)
  else if in_chan = 6 then               -- 5.1
    some (inp (i + 0) * 400 + inp (i + 2) * 200 + inp (i + 4) * 300 + inp (i + 5) * 100,
      inp (i + 1) * 400 + inp (i + 3) * 200 + inp (i + 4) * 300 + inp (i + 5) * 100)
  else if in_chan = 7 then               -- 7.0
    some (inp (i + 0) * 400 + inp (i + 2) * 200 + inp (i + 4) * 300 + inp (i + 5) * 100,
      inp (i + 1) * 400 + inp (i + 3) * 200 + inp (i + 4) * 300 + inp (i + 6) * 100)
  else if in_chan = 8 then               -- 7.1
    some (inp (i + 0) * 400 + inp (i + 2) * 150 + inp (i + 4) * 250 + inp (i + 5) * 100
        + inp (i + 6) * 100,
      inp (i + 1) * 400 + inp (i + 3) * 150 + inp (i + 4) * 250 + inp (i + 5) * 100
        + inp (i + 7) * 100)
  else none

/-- Downmix surround to stereo (`AudioSurround2Stereo`): the loop
`while (frames--)`, with `i` and `j` as offsets of `in` and `out`. -/
def AudioSurround2Stereo_loop (inp : Samples) (in_chan : Int) :
    Nat → Nat → Nat → Samples → Option Samples
  | 0, _, _, out => some out
  | frames + 1, i, j, out =>
    match AudioSurround2Stereo_mix inp i in_chan with
    | none => none
    | some (l, r) =>
      AudioSurround2Stereo_loop inp in_chan frames (i + in_chan.toNat) (j + 2)
        (Function.update (Function.update out (j + 0) (l.tdiv 1000)) (j + 1) (r.tdiv 1000))

/-- Downmix surround to stereo (`AudioSurround2Stereo`); `none` when the
function aborts or `frames` is negative. -/
def AudioSurround2Stereo (inp : Samples) (in_chan : Int) (frames : Int) (out : Samples) :
    Option Samples :=
  if frames < 0 then none else AudioSurround2Stereo_loop inp in_chan frames.toNat 0 0 out

/-- Upmix `in_chan` channels to `out_chan` (`AudioUpmix`): the loop
`while (frames--)`, with `i` and `j` as offsets of `in` and `out`.  A turn
copies the existing channels and silences the missing ones. -/
def AudioUpmix_loop (inp : Samples) (in_chan out_chan : Nat) : Nat → Nat → Nat → Samples → Samples
  | 0, _, _, out => out
  | frames + 1, i, j, out =>
    AudioUpmix_loop inp in_chan out_chan frames (i + in_chan) (j + max in_chan out_chan)
      (fun k =>
        if j ≤ k ∧ k < j + in_chan then inp (i + (k - j))            -- copy existing channels
        else if j + in_chan ≤ k ∧ k < j + out_chan then 0            -- silents missing channels
        else out k)

/-- Upmix `in_chan` channels to `out_chan` (`AudioUpmix`); `none` when
`frames` is negative. -/
def AudioUpmix (inp : Samples) (in_chan : Int) (frames : Int) (out : Samples) (out_chan : Int) :
    Option Samples :=
  if frames < 0 then none
  else some (AudioUpmix_loop inp in_chan.toNat out_chan.toNat frames.toNat 0 0 out)

/-- The branches of the `switch (in_chan * 8 + out_chan)` of
`AudioResample`. -/
inductive ResampleCase where
  /-- input = output channels -/
  | copy
  /-- the call of `AudioStereo2Mono` -/
  | stereo2mono
  /-- the call of `AudioMono2Stereo` -/
  | mono2stereo
  /-- the call of `AudioSurround2Stereo` -/
  | surround2stereo
  /-- the call of `AudioUpmix` -/
  | upmix
  /-- the default case: an error message and silence -/
  | unsupported
  deriving DecidableEq

/-- The case labels of the `switch (in_chan * 8 + out_chan)` of
`AudioResample`. -/
def AudioResample_case (in_chan out_chan : Int) : ResampleCase :=
  let c := in_chan * 8 + out_chan
  if c = 1 * 8 + 1 ∨ c = 2 * 8 + 2 ∨ c = 3 * 8 + 3 ∨ c = 4 * 8 + 4 ∨ c = 5 * 8 + 5
      ∨ c = 6 * 8 + 6 ∨ c = 7 * 8 + 7 ∨ c = 8 * 8 + 8 then .copy
  else if c = 2 * 8 + 1 then .stereo2mono
  else if c = 1 * 8 + 2 then .mono2stereo
  else if c = 3 * 8 + 2 ∨ c = 4 * 8 + 2 ∨ c = 5 * 8 + 2 ∨ c = 6 * 8 + 2 ∨ c = 7 * 8 + 2
      ∨ c = 8 * 8 + 2 then .surround2stereo
  else if c = 5 * 8 + 6 ∨ c = 3 * 8 + 8 ∨ c = 5 * 8 + 8 ∨ c = 6 * 8 + 8 then .upmix
  else .unsupported

/-- Resample ffmpeg sample format to hardware format (`AudioResample`): the
output buffer behind the call; `none` when a callee aborts or a length is
negative. -/
def AudioResample (inp : Samples) (in_chan : Int) (frames : Int) (out : Samples)
    (out_chan : Int) : Option Samples :=
  match AudioResample_case in_chan out_chan with
  | .copy =>
    -- memcpy(out, in, frames * in_chan * AudioBytesProSample)
    if frames * in_chan < 0 then none
    else some (fun k => if k < (frames * in_chan).toNat then inp k else out k)
  | .stereo2mono => some (AudioStereo2Mono inp frames out)
  | .mono2stereo => some (AudioMono2Stereo inp frames out)
  | .surround2stereo => AudioSurround2Stereo inp in_chan frames out
  | .upmix => AudioUpmix inp in_chan frames out out_chan
  | .unsupported =>
    -- play silence: memset(out, 0, frames * out_chan * AudioBytesProSample)
    if frames * out_chan < 0 then none
    else some (fun k => if k < (frames * out_chan).toNat then 0 else out k)

/-- Two mono samples, 10 and 30. -/
def exMono : Samples := fun i => if i = 0 then 10 else if i = 1 then 30 else 0

/-- An output buffer that holds the value 77 everywhere. -/
def exStale : Samples := fun _ => 77

/-- One frame of three channels with the samples 1000, 2000 and 3000. -/
def exThreeChannels : Samples := fun i =>
  if i = 0 then 1000 else if i = 1 then 2000 else if i = 2 then 3000 else 0

/-! ## Example windows for the sample rate and the window of the sniffers -/

/-- Two MPEG-2.5 Layer III frames (version bits 00, 32 kbit/s, sample-rate
index 0, no padding): a header at offset 0 and the next header at offset
208. -/
def exMpeg25Pair : Bytes := twoFrames [0xFF, 0xE3, 0x40, 0x00] 208 [0xFF, 0xE3, 0x40, 0x00]

/-- A window of five bytes that start an AC-3 frame (sync word, `fscod = 0`,
`frmsizcod = 0`); the memory behind the window holds zeros. -/
def exAc3Five : Bytes := bytesOfList [0x0B, 0x77, 0x00, 0x00, 0x00]

/-- The same window of five bytes; the memory behind the window holds
0xFF. -/
def exAc3FiveFF : Bytes := bytesOfList [0x0B, 0x77, 0x00, 0x00, 0x00, 0xFF]

/-! ## Steps on the video packet ring -/

/-- Poll PES packet ringbuffer (`VideoPollInput`): the return value (1
something todo, -1 empty stream) and the stream after the call. -/
def VideoPollInput (stream : VideoStream) : Int × VideoStream :=
  if !stream.Decoder then (-1, stream)              -- closing
  else if stream.Close ≠ 0 then                     -- close stream request
    (1, { (VideoStreamClose stream 1) with Close := 0 })
  else if stream.ClearBuffers ≠ 0 then              -- clear buffer request
    let stream := { stream with PacketsFilled := 0, PacketRead := stream.PacketWrite }
    let stream :=
      if stream.Decoder then
        { stream with Calls := stream.Calls ++ [VideoCall.CodecVideoFlushBuffers] }
      else stream
    (1, { stream with ClearBuffers := 0 })
  else if stream.PacketsFilled = 0 then (-1, stream)
  else (1, stream)

/-- One step on the video packet ring, by the producer, by the decoder
thread, or a request to the decoder thread. -/
inductive VideoOp where
  /-- a call `VideoNextPacket(stream, codec_id)` -/
  | nextPacket (codec_id : AVCodecID)
  /-- a call `VideoDecodeInput(stream)` -/
  | decodeInput
  /-- a call `VideoPollInput(stream)` -/
  | pollInput
  /-- the store `stream->ClearBuffers = 1` of `Clear` -/
  | requestClear
  /-- the store `stream->Close = 1` of `PipStop` -/
  | requestClose
  deriving DecidableEq

/-- The stream after one step. -/
def VideoOp.step (stream : VideoStream) : VideoOp → VideoStream
  | .nextPacket codec_id => VideoNextPacket stream codec_id
  | .decodeInput => (VideoDecodeInput stream).2
  | .pollInput => (VideoPollInput stream).2
  | .requestClear => { stream with ClearBuffers := 1 }
  | .requestClose => { stream with Close := 1 }

/-- The stream after a sequence of steps. -/
def VideoOp.run (stream : VideoStream) : List VideoOp → VideoStream
  | [] => stream
  | op :: ops => VideoOp.run (VideoOp.step stream op) ops

/-- The bookkeeping invariant of the video packet ring: both indices are
inside the ring, the fill counter is between 0 and `VIDEO_PACKET_MAX - 1`,
and it is the distance from the read to the write index modulo
`VIDEO_PACKET_MAX`. -/
def VideoRingInv (stream : VideoStream) : Prop :=
  stream.PacketWrite < VIDEO_PACKET_MAX ∧ stream.PacketRead < VIDEO_PACKET_MAX ∧
    0 ≤ stream.PacketsFilled ∧ stream.PacketsFilled ≤ (VIDEO_PACKET_MAX : Int) - 1 ∧
    stream.PacketsFilled
      = ((stream.PacketWrite : Int) - stream.PacketRead) % (VIDEO_PACKET_MAX : Int)

instance (stream : VideoStream) : Decidable (VideoRingInv stream) := by
  unfold VideoRingInv
  infer_instance

/-- Steps of producer and decoder thread with a clear request in between. -/
def videoRingExampleOps : List VideoOp :=
  [.nextPacket AVCodecID.NONE, .nextPacket AVCodecID.NONE, .decodeInput, .pollInput,
    .requestClear, .nextPacket AVCodecID.NONE, .decodeInput, .nextPacket AVCodecID.NONE]

/-- A PES video packet of 13 bytes whose payload is the start of an H.264
access unit delimiter (`00 00 01 09`); the memory behind the packet holds
zeros. -/
def exPesShortAud : Bytes :=
  bytesOfList [0x00, 0x00, 0x01, 0xE0, 0x00, 0x00, 0x80, 0x00, 0x00,
    0x00, 0x00, 0x01, 0x09]

/-- The same packet of 13 bytes; the memory behind the packet holds 0xFF at
the offsets 13 to 15. -/
def exPesShortAudFF : Bytes :=
  bytesOfList [0x00, 0x00, 0x01, 0xE0, 0x00, 0x00, 0x80, 0x00, 0x00,
    0x00, 0x00, 0x01, 0x09, 0xFF, 0xFF, 0xFF]

/-! # Theorems -/

/-! ## Arithmetic of bytes -/

theorem or_eq_add_of_lt (a b i : Nat) (hb : b < 2 ^ i) : (a * 2 ^ i) ||| b = a * 2 ^ i + b := by
  rw [Nat.mul_comm a (2 ^ i)]
  exact (Nat.mul_add_lt_is_or hb a).symm

set_option maxRecDepth 100000 in
theorem byte_and_0E : ∀ x : Fin 256, x.val &&& 0x0E = x.val / 2 % 8 * 2 := by decide

set_option maxRecDepth 100000 in
theorem byte_and_FE : ∀ x : Fin 256, x.val &&& 0xFE = x.val / 2 * 2 := by decide

set_option maxRecDepth 100000 in
theorem byte_sr_index : ∀ x : Fin 256, x.val &&& 0x0C ≠ 0x0C →
    (x.val >>> 2) &&& 0x03 = x.val / 4 % 4 ∧ x.val / 4 % 4 < 3 := by decide

set_option maxRecDepth 100000 in
theorem byte_fields2 : ∀ x : Fin 256,
    (x.val >>> 4) &&& 0x0F = x.val / 16 ∧ (x.val >>> 2) &&& 0x03 = x.val / 4 % 4
      ∧ (x.val >>> 1) &&& 0x01 = x.val / 2 % 2 := by decide

set_option maxRecDepth 100000 in
theorem byte_fields1 : ∀ x : Fin 256,
    (x.val >>> 1) &&& 0x03 = x.val / 2 % 4
      ∧ ((x.val &&& 0x08 = 0 ∧ x.val &&& 0x10 ≠ 0) ↔ x.val / 8 % 4 = 2)
      ∧ ((x.val &&& 0x08 = 0 ∧ x.val &&& 0x10 = 0) ↔ x.val / 8 % 4 = 0)
      ∧ (x.val &&& 0x06 = 0 ↔ x.val / 2 % 4 = 0)
      ∧ (x.val &&& 0x18 = 0x08 ↔ x.val / 8 % 4 = 1) := by decide

set_option maxRecDepth 100000 in
theorem byte_reserved : ∀ x : Fin 256,
    (x.val &&& 0xF0 = 0xF0 ↔ x.val / 16 = 15) ∧ (x.val &&& 0x0C = 0x0C ↔ x.val / 4 % 4 = 3) := by
  decide

set_option maxRecDepth 100000 in
theorem byte_fscod : ∀ x : Fin 256, x.val >>> 6 < 4 := by decide

theorem neg_sub_eq (n : Nat) (k : Int) : -(n : Int) - k = -((n : Int) + k) := by omega

/-! ## PES timestamps -/

theorem rd_pesPutTimestamp (hdr : Bytes) (o : Nat) (pre : Fin 16) (m0 m1 m2 : Fin 2)
    (v k : Nat) (hk : k < 5) :
    rd (pesPutTimestamp hdr o pre m0 m1 m2 v) (o + k) = pesPackByte pre m0 m1 m2 v k := by
  have h1 : o ≤ o + k ∧ o + k < o + 5 := ⟨by omega, by omega⟩
  have h2 : o + k - o = k := by omega
  have hlt : pesPackByte pre m0 m1 m2 v k < 256 := by
    have := pre.isLt; have := m0.isLt; have := m1.isLt; have := m2.isLt
    unfold pesPackByte
    split <;> omega
  simp only [rd, pesPutTimestamp, h1, and_self, if_true, h2, Fin.ofNat, Fin.val_mk]
  omega

/-- The timestamp expression in arithmetic form: the five fields of the
layout, weighted by their positions. -/
theorem PesTimestamp_eq (data : Bytes) (o : Nat) :
    PesTimestamp data o =
      (rd data o / 2 % 8) * 2 ^ 30 + rd data (o + 1) * 2 ^ 22 + (rd data (o + 2) / 2) * 2 ^ 15
        + rd data (o + 3) * 2 ^ 7 + rd data (o + 4) / 2 := by
  unfold PesTimestamp
  have l0 := (data o).isLt
  have l1 := (data (o + 1)).isLt
  have l2 := (data (o + 2)).isLt
  have l3 := (data (o + 3)).isLt
  have l4 := (data (o + 4)).isLt
  have hA : (rd data o &&& 0x0E) <<< 29 = (rd data o / 2 % 8) * 2 ^ 30 := by
    rw [rd, byte_and_0E, Nat.shiftLeft_eq]; omega
  have hB : rd data (o + 1) <<< 22 = rd data (o + 1) * 2 ^ 22 := Nat.shiftLeft_eq _ _
  have hC : (rd data (o + 2) &&& 0xFE) <<< 14 = (rd data (o + 2) / 2) * 2 ^ 15 := by
    rw [rd, byte_and_FE, Nat.shiftLeft_eq]; omega
  have hD : rd data (o + 3) <<< 7 = rd data (o + 3) * 2 ^ 7 := Nat.shiftLeft_eq _ _
  have hE : (rd data (o + 4) &&& 0xFE) >>> 1 = rd data (o + 4) / 2 := by
    rw [rd, byte_and_FE, Nat.shiftRight_eq_div_pow]; omega
  rw [hA, hB, hC, hD, hE]
  simp only [rd] at *
  rw [or_eq_add_of_lt _ _ 30 (by omega)]
  have s1 : (data o).val / 2 % 8 * 2 ^ 30 + (data (o + 1)).val * 2 ^ 22
      = ((data o).val / 2 % 8 * 2 ^ 8 + (data (o + 1)).val) * 2 ^ 22 := by omega
  rw [s1, or_eq_add_of_lt _ _ 22 (by omega)]
  have s2 : ((data o).val / 2 % 8 * 2 ^ 8 + (data (o + 1)).val) * 2 ^ 22
      + (data (o + 2)).val / 2 * 2 ^ 15
      = (((data o).val / 2 % 8 * 2 ^ 8 + (data (o + 1)).val) * 2 ^ 7
          + (data (o + 2)).val / 2) * 2 ^ 15 := by omega
  rw [s2, or_eq_add_of_lt _ _ 15 (by omega)]
  have s3 : (((data o).val / 2 % 8 * 2 ^ 8 + (data (o + 1)).val) * 2 ^ 7
          + (data (o + 2)).val / 2) * 2 ^ 15 + (data (o + 3)).val * 2 ^ 7
      = ((((data o).val / 2 % 8 * 2 ^ 8 + (data (o + 1)).val) * 2 ^ 7
          + (data (o + 2)).val / 2) * 2 ^ 8 + (data (o + 3)).val) * 2 ^ 7 := by omega
  rw [s3, or_eq_add_of_lt _ _ 7 (by omega)]

/-- C1.  PES timestamp round trip: for every value `v` below `2^33`, every
4-bit prefix and every choice of the three marker bits, storing the packed
5-byte layout of `v` at bytes 9..13 of any header and decoding these bytes
with the expression of `PlayVideo3` and `PlayAudio` gives back `v`. -/
theorem PesTimestamp_roundtrip (hdr : Bytes) (pre : Fin 16) (m0 m1 m2 : Fin 2) (v : Nat)
    (hv : v < 2 ^ 33) :
    PesTimestamp (pesPutTimestamp hdr 9 pre m0 m1 m2 v) 9 = v := by
  have e0 := rd_pesPutTimestamp hdr 9 pre m0 m1 m2 v 0 (by omega)
  have e1 := rd_pesPutTimestamp hdr 9 pre m0 m1 m2 v 1 (by omega)
  have e2 := rd_pesPutTimestamp hdr 9 pre m0 m1 m2 v 2 (by omega)
  have e3 := rd_pesPutTimestamp hdr 9 pre m0 m1 m2 v 3 (by omega)
  have e4 := rd_pesPutTimestamp hdr 9 pre m0 m1 m2 v 4 (by omega)
  have := pre.isLt; have := m0.isLt; have := m1.isLt; have := m2.isLt
  rw [PesTimestamp_eq, e1, e2, e3, e4]
  rw [Nat.add_zero] at e0
  rw [e0]
  simp only [pesPackByte]
  omega

/-- Witness of C1: the value 5000000000 (above `2^32`) with prefix `0010`
and all marker bits set. -/
theorem PesTimestamp_roundtrip_witness :
    (5000000000 : Nat) < 2 ^ 33 ∧
      PesTimestamp (pesPutTimestamp (fun _ => 0) 9 2 1 1 1 5000000000) 9 = 5000000000 :=
  ⟨by decide, PesTimestamp_roundtrip (fun _ => 0) 2 1 1 1 5000000000 (by decide)⟩

/-! ## Frame sniffers: shape of the results -/

theorem FastMpegCheck_iff (p : Bytes) :
    FastMpegCheck p = true ↔
      rd p 0 = 0xFF ∧ rd p 1 &&& 0xE0 = 0xE0 ∧ rd p 1 &&& 0x18 ≠ 0x08 ∧ rd p 1 &&& 0x06 ≠ 0
        ∧ rd p 2 &&& 0xF0 ≠ 0xF0 ∧ rd p 2 &&& 0x0C ≠ 0x0C := by
  unfold FastMpegCheck
  split_ifs <;> simp_all

theorem BitRateTable_at_some (v l i : Nat) (hv : v < 2) (hl : l < 4) (hi : i < 16) :
    ∃ b, BitRateTable_at v l i = some b := by
  interval_cases v <;> interval_cases l <;> interval_cases i <;> exact ⟨_, rfl⟩

theorem BitRateTable_at_reserved (v l i : Nat) (hv : v < 2) (hl : 1 ≤ l ∧ l ≤ 3)
    (hi : i = 15 ∨ i = 0) : BitRateTable_at v l i = some 0 := by
  obtain ⟨h1, h3⟩ := hl
  interval_cases v <;> interval_cases l <;> rcases hi with rfl | rfl <;> rfl

theorem Ac3FrameSizeTable_at_some (c f : Nat) (hc : c ≤ 37) (hf : f < 3) :
    ∃ e, Ac3FrameSizeTable_at c f = some e := by
  interval_cases c <;> interval_cases f <;> exact ⟨_, rfl⟩

theorem SampleRateTable_some (data : Bytes) (hsr : rd data 2 &&& 0x0C ≠ 0x0C) :
    ∃ sr0, SampleRateTable[(rd data 2 >>> 2) &&& 0x03]? = some sr0 ∧ sr0 ≠ 0 := by
  obtain ⟨hidx, hsr3⟩ := byte_sr_index (data 2) hsr
  simp only [rd, hidx]
  generalize (data 2).val / 4 % 4 = k at hsr3
  interval_cases k <;> exact ⟨_, rfl, by decide⟩

/-- With a usable sample rate and a bit-rate entry that is not zero,
`MpegCheck` is the three-way decision on its frame size. -/
theorem MpegCheck_eq (data : Bytes) (size : Int) (sr0 br0 : Nat)
    (hsr : SampleRateTable[(rd data 2 >>> 2) &&& 0x03]? = some sr0) (hsr0 : sr0 ≠ 0)
    (hbr : MpegCheck_bit_rate data = some br0) (hbr0 : br0 ≠ 0) :
    MpegCheck data size =
      if (MpegCheck_frame_size data : Int) + 4 > size then
        .ret (-(MpegCheck_frame_size data : Int) - 4)
      else if FastMpegCheck (ptrAdd data (MpegCheck_frame_size data)) then
        .ret (MpegCheck_frame_size data)
      else .ret 0 := by
  unfold MpegCheck_bit_rate at hbr
  simp only at hbr
  unfold MpegCheck MpegCheck_frame_size
  simp only [hsr, hbr, hsr0, hbr0, if_false, List.getD_eq_getElem?_getD, Option.getD_some]

theorem MpegCheck_eq_of_valid (data : Bytes) (size : Int) (hv : MpegHeaderValid data) :
    MpegCheck data size =
      if (MpegCheck_frame_size data : Int) + 4 > size then
        .ret (-(MpegCheck_frame_size data : Int) - 4)
      else if FastMpegCheck (ptrAdd data (MpegCheck_frame_size data)) then
        .ret (MpegCheck_frame_size data)
      else .ret 0 := by
  obtain ⟨hfast, hb0⟩ := hv
  obtain ⟨-, -, -, -, -, hsr⟩ := (FastMpegCheck_iff data).1 hfast
  obtain ⟨sr0, hsr0, hsrne⟩ := SampleRateTable_some data hsr
  cases hb : MpegCheck_bit_rate data with
  | none => rw [hb] at hb0; exact absurd rfl hb0
  | some b =>
    rw [hb] at hb0
    exact MpegCheck_eq data size sr0 b hsr0 hsrne hb hb0

theorem Ac3Check_eq (data : Bytes) (size : Int) (hv : Ac3HeaderValid data size) :
    Ac3Check data size =
      if (Ac3Check_frame_size data : Int) + 5 > size then
        .ret (-(Ac3Check_frame_size data : Int) - 5)
      else if FastAc3Check (ptrAdd data (Ac3Check_frame_size data)) then
        .ret (Ac3Check_frame_size data)
      else .ret 0 := by
  obtain ⟨h5, -, hcod⟩ := hv
  unfold Ac3Check Ac3Check_frame_size Ac3Check_eac3_frame_size Ac3Check_ac3_frame_size
  rw [if_neg (by omega)]
  by_cases hb : rd data 5 > (10 <<< 3)
  · rw [if_pos hb] at hcod
    simp only [if_pos hb, if_neg hcod]
  · rw [if_neg hb] at hcod
    obtain ⟨hf, hc⟩ := hcod
    have hf3 : rd data 4 >>> 6 < 3 := by
      have := byte_fscod (data 4)
      simp only [rd] at hf ⊢
      omega
    obtain ⟨e, he⟩ := Ac3FrameSizeTable_at_some _ _ hc hf3
    simp only [if_neg hb, if_neg hf, if_neg (Nat.not_lt.2 hc), he, Option.getD_some]

theorem LatmCheck_eq (data : Bytes) (size : Int) :
    LatmCheck data size =
      if (LatmCheck_frame_size data : Int) + 2 > size then
        .ret (-(LatmCheck_frame_size data : Int) - 2)
      else if FastLatmCheck (ptrAdd data (LatmCheck_frame_size data)) then
        .ret (LatmCheck_frame_size data)
      else .ret 0 := by
  unfold LatmCheck LatmCheck_frame_size
  rfl

theorem AdtsCheck_eq (data : Bytes) (size : Int) (h6 : 6 ≤ size) :
    AdtsCheck data size =
      if (AdtsCheck_frame_size data : Int) + 3 > size then
        .ret (-(AdtsCheck_frame_size data : Int) - 3)
      else if FastAdtsCheck (ptrAdd data (AdtsCheck_frame_size data)) then
        .ret (AdtsCheck_frame_size data)
      else .ret 0 := by
  unfold AdtsCheck AdtsCheck_frame_size
  rw [if_neg (by omega)]

theorem ret_neg_not_pos (n : Nat) (k r : Int) (hk : 0 ≤ k) (h : -(n : Int) - k = r) :
    ¬ 0 < r := by omega

theorem ret_pos_ok (fast : Bytes → Bool) (data : Bytes) (n : Nat) (k size r : Int)
    (h : (n : Int) = r) (hs : ¬ ((n : Int) + k > size)) (hf : fast (ptrAdd data n) = true) :
    r + k ≤ size ∧ fast (ptrAdd data r.toNat) = true := by
  subst h
  exact ⟨by omega, by simpa using hf⟩

theorem ret_neg_case (n : Nat) (k size r : Int) (h : -(n : Int) - k = r)
    (hs : (n : Int) + k > size) : size < -r := by omega

theorem ret_nonneg_case (n : Nat) (r : Int) (h : (n : Int) = r) (hneg : r < 0) : False := by
  omega

theorem tail_neg (check : CResult) (fast : Bool) (n : Nat) (k size r : Int)
    (h : check = if (n : Int) + k > size then .ret (-(n : Int) - k)
      else if fast then .ret n else .ret 0)
    (hr : check = .ret r) (hneg : r < 0) : size < -r := by
  rw [h] at hr
  split at hr
  · injection hr with hr; omega
  · split at hr
    · injection hr with hr; omega
    · injection hr with hr; omega

set_option linter.unusedTactic false in
set_option linter.unreachableTactic false in
theorem MpegCheck_pos (data : Bytes) (size r : Int) (hr : 0 < r)
    (h : MpegCheck data size = .ret r) :
    r + 4 ≤ size ∧ FastMpegCheck (ptrAdd data r.toNat) = true := by
  unfold MpegCheck at h
  simp only at h
  repeat' split at h
  all_goals first
    | (injection h with h; omega)
    | (injection h with h; exact absurd hr (ret_neg_not_pos _ _ _ (by decide) h))
    | (injection h with h; exact ret_pos_ok _ _ _ _ _ _ h (by assumption) (by assumption))
    | (injection h)

set_option linter.unusedTactic false in
set_option linter.unreachableTactic false in
theorem Ac3Check_pos (data : Bytes) (size r : Int) (hr : 0 < r)
    (h : Ac3Check data size = .ret r) :
    r + 5 ≤ size ∧ FastAc3Check (ptrAdd data r.toNat) = true := by
  unfold Ac3Check at h
  simp only at h
  repeat' split at h
  all_goals first
    | (injection h with h; omega)
    | (injection h with h; exact ret_pos_ok _ _ _ _ _ _ h (by assumption) (by assumption))
    | (injection h)

set_option linter.unusedTactic false in
set_option linter.unreachableTactic false in
theorem LatmCheck_pos (data : Bytes) (size r : Int) (hr : 0 < r)
    (h : LatmCheck data size = .ret r) :
    r + 2 ≤ size ∧ FastLatmCheck (ptrAdd data r.toNat) = true := by
  unfold LatmCheck at h
  simp only at h
  repeat' split at h
  all_goals first
    | (injection h with h; omega)
    | (injection h with h; exact ret_pos_ok _ _ _ _ _ _ h (by assumption) (by assumption))

set_option linter.unusedTactic false in
set_option linter.unreachableTactic false in
theorem AdtsCheck_pos (data : Bytes) (size r : Int) (hr : 0 < r)
    (h : AdtsCheck data size = .ret r) :
    r + 3 ≤ size ∧ FastAdtsCheck (ptrAdd data r.toNat) = true := by
  unfold AdtsCheck at h
  simp only at h
  repeat' split at h
  all_goals first
    | (injection h with h; omega)
    | (injection h with h; exact ret_pos_ok _ _ _ _ _ _ h (by assumption) (by assumption))

set_option linter.unusedTactic false in
set_option linter.unreachableTactic false in
theorem MpegCheck_neg (data : Bytes) (size r : Int) (hneg : r < 0)
    (h : MpegCheck data size = .ret r) : size < -r := by
  unfold MpegCheck at h
  simp only at h
  repeat' split at h
  all_goals first
    | (injection h with h; omega)
    | (injection h with h; exact ret_neg_case _ _ _ _ h (by assumption))
    | (injection h with h; exact (ret_nonneg_case _ _ h hneg).elim)
    | (injection h)

set_option linter.unusedTactic false in
set_option linter.unreachableTactic false in
theorem Ac3Check_neg (data : Bytes) (size r : Int) (hneg : r < 0)
    (h : Ac3Check data size = .ret r) : size < -r := by
  unfold Ac3Check at h
  simp only at h
  repeat' split at h
  all_goals first
    | (injection h with h; omega)
    | (injection h with h; exact ret_neg_case _ _ _ _ h (by assumption))
    | (injection h with h; exact (ret_nonneg_case _ _ h hneg).elim)
    | (injection h)

/-- For an MPEG-1 or MPEG-2 header that passes the fast check, the frame
size and the bit rate that `MpegCheck` computes with masks and shifts are the
ones the specification gives by the header fields. -/
theorem MpegCheck_fields_spec (data : Bytes) (hfast : FastMpegCheck data = true)
    (hver : mpegVersionBits data = 3 ∨ mpegVersionBits data = 2) :
    MpegCheck_frame_size data = specMpegFrameLength data
      ∧ ∃ b, MpegCheck_bit_rate data = some b ∧ specMpegBitrate data = b * 1000 := by
  obtain ⟨-, -, -, hl, hb15, hsr⟩ := (FastMpegCheck_iff data).1 hfast
  obtain ⟨e1, e2, e3, e4, -⟩ := byte_fields1 (data 1)
  obtain ⟨f1, f2, f3⟩ := byte_fields2 (data 2)
  obtain ⟨-, hsr3⟩ := byte_sr_index (data 2) hsr
  have hlay : (data 1).val / 2 % 4 ≠ 0 := fun h => hl (e4.2 h)
  have hb16 : (data 2).val / 16 < 16 := by have := (data 2).isLt; omega
  unfold MpegCheck_frame_size MpegCheck_bit_rate specMpegFrameLength specMpegBitrate
    specMpegSamplerate mpegLayer mpegVersionBits mpegBitrateIndex mpegSamplerateIndex at *
  simp only [rd] at *
  simp only [e1, e2, e3, f1, f2, f3]
  have hsrt : ∀ k, k < 3 → SampleRateTable.getD k 0 = [44100, 48000, 32000].getD k 0 := by
    intro k hk; interval_cases k <;> rfl
  rw [hsrt _ hsr3]
  rcases hver with hv | hv
  · simp only [hv]
    obtain ⟨b, hb⟩ := BitRateTable_at_some 0 (4 - (data 1).val / 2 % 4) ((data 2).val / 16)
      (by omega) (by omega) hb16
    simp [hb]
  · simp only [hv]
    obtain ⟨b, hb⟩ := BitRateTable_at_some 1 (4 - (data 1).val / 2 % 4) ((data 2).val / 16)
      (by omega) (by omega) hb16
    simp [hb, Nat.shiftRight_eq_div_pow]

/-! ## Frame sniffers: the claims -/

/-- C2.  Two MPEG audio frames back-to-back: for a window that starts with an
MPEG-1 or MPEG-2 header passing `FastMpegCheck` whose bit-rate table entry is
not zero, with `L` the frame length of the specification,
`(12*bitrate/samplerate + padding)*4` for Layer I and
`144*bitrate/samplerate + padding` for Layer II/III, if the window has at
least `L + 4` bytes and the bytes at offset `L` pass `FastMpegCheck`, then
`MpegCheck` returns exactly `L`. -/
theorem MpegCheck_two_frames (data : Bytes) (size : Int)
    (hfast : FastMpegCheck data = true)
    (hver : mpegVersionBits data = 3 ∨ mpegVersionBits data = 2)
    (hbr : specMpegBitrate data ≠ 0)
    (hsize : (specMpegFrameLength data : Int) + 4 ≤ size)
    (hnext : FastMpegCheck (ptrAdd data (specMpegFrameLength data)) = true) :
    MpegCheck data size = .ret (specMpegFrameLength data) := by
  obtain ⟨hfs, b, hb, hspec⟩ := MpegCheck_fields_spec data hfast hver
  obtain ⟨-, -, -, -, -, hsr⟩ := (FastMpegCheck_iff data).1 hfast
  have hb0 : b ≠ 0 := by rintro rfl; exact hbr (by simpa using hspec)
  obtain ⟨sr0, hsr0, hsrne⟩ := SampleRateTable_some data hsr
  rw [MpegCheck_eq data size sr0 b hsr0 hsrne hb hb0, hfs]
  rw [if_neg (by omega), if_pos hnext]

/-- Witness of C2: two MPEG-1 Layer III frames of 417 bytes in a window of
421 bytes. -/
theorem MpegCheck_two_frames_witness :
    FastMpegCheck exMpegPair = true ∧
    (mpegVersionBits exMpegPair = 3 ∨ mpegVersionBits exMpegPair = 2) ∧
    specMpegBitrate exMpegPair ≠ 0 ∧
    (specMpegFrameLength exMpegPair : Int) + 4 ≤ 421 ∧
    FastMpegCheck (ptrAdd exMpegPair (specMpegFrameLength exMpegPair)) = true ∧
    specMpegFrameLength exMpegPair = 417 ∧
    MpegCheck exMpegPair 421 = .ret (specMpegFrameLength exMpegPair) :=
  ⟨by decide, by decide, by decide, by decide, by decide, by decide,
    MpegCheck_two_frames exMpegPair 421 (by decide) (by decide) (by decide) (by decide)
      (by decide)⟩

/-- C3.  Double-sync soundness: whenever `MpegCheck`, `Ac3Check`, `LatmCheck`
or `AdtsCheck` returns a positive `r` on a window `(data, size)`, the frame
and the lookahead at the next frame lie inside the window (`r + 4`, `r + 5`,
`r + 2`, `r + 3` is at most `size`) and the fast check of the same family
succeeds on the bytes at offset `r`. -/
theorem double_sync_sound (data : Bytes) (size r : Int) (hr : 0 < r) :
    (MpegCheck data size = .ret r →
      r + 4 ≤ size ∧ FastMpegCheck (ptrAdd data r.toNat) = true) ∧
    (Ac3Check data size = .ret r →
      r + 5 ≤ size ∧ FastAc3Check (ptrAdd data r.toNat) = true) ∧
    (LatmCheck data size = .ret r →
      r + 2 ≤ size ∧ FastLatmCheck (ptrAdd data r.toNat) = true) ∧
    (AdtsCheck data size = .ret r →
      r + 3 ≤ size ∧ FastAdtsCheck (ptrAdd data r.toNat) = true) :=
  ⟨MpegCheck_pos data size r hr, Ac3Check_pos data size r hr, LatmCheck_pos data size r hr,
    AdtsCheck_pos data size r hr⟩

/-- Witness of C3: a confirmed frame of each family. -/
theorem double_sync_sound_witness :
    ((0 : Int) < 417 ∧ MpegCheck exMpegPair 421 = .ret 417 ∧
      ((417 : Int) + 4 ≤ 421 ∧ FastMpegCheck (ptrAdd exMpegPair (417 : Int).toNat) = true)) ∧
    ((0 : Int) < 256 ∧ Ac3Check exAc3Pair 261 = .ret 256 ∧
      ((256 : Int) + 5 ≤ 261 ∧ FastAc3Check (ptrAdd exAc3Pair (256 : Int).toNat) = true)) ∧
    ((0 : Int) < 35 ∧ LatmCheck exLatmPair 37 = .ret 35 ∧
      ((35 : Int) + 2 ≤ 37 ∧ FastLatmCheck (ptrAdd exLatmPair (35 : Int).toNat) = true)) ∧
    ((0 : Int) < 64 ∧ AdtsCheck exAdtsPair 67 = .ret 64 ∧
      ((64 : Int) + 3 ≤ 67 ∧ FastAdtsCheck (ptrAdd exAdtsPair (64 : Int).toNat) = true)) :=
  ⟨⟨by decide, by decide, (double_sync_sound exMpegPair 421 417 (by decide)).1 (by decide)⟩,
   ⟨by decide, by decide, (double_sync_sound exAc3Pair 261 256 (by decide)).2.1 (by decide)⟩,
   ⟨by decide, by decide, (double_sync_sound exLatmPair 37 35 (by decide)).2.2.1 (by decide)⟩,
   ⟨by decide, by decide, (double_sync_sound exAdtsPair 67 64 (by decide)).2.2.2 (by decide)⟩⟩

/-- C4.  Need-more-data result: for a window that starts with a valid header
of the family but is shorter than the frame length plus the lookahead at the
next sync (4, 5, 2, 3 bytes for `MpegCheck`, `Ac3Check`, `LatmCheck`,
`AdtsCheck`), the result is negative and equals minus that needed length,
which is greater than the available length; conversely a negative result `r`
of any of the four checks always satisfies `-r > size`. -/
theorem need_more_data (data : Bytes) (size : Int) :
    (MpegHeaderValid data → size < (MpegCheck_frame_size data : Int) + 4 →
      MpegCheck data size = .ret (-((MpegCheck_frame_size data : Int) + 4))
        ∧ -((MpegCheck_frame_size data : Int) + 4) < 0) ∧
    (Ac3HeaderValid data size → size < (Ac3Check_frame_size data : Int) + 5 →
      Ac3Check data size = .ret (-((Ac3Check_frame_size data : Int) + 5))
        ∧ -((Ac3Check_frame_size data : Int) + 5) < 0) ∧
    (LatmHeaderValid data → size < (LatmCheck_frame_size data : Int) + 2 →
      LatmCheck data size = .ret (-((LatmCheck_frame_size data : Int) + 2))
        ∧ -((LatmCheck_frame_size data : Int) + 2) < 0) ∧
    (AdtsHeaderValid data size → size < (AdtsCheck_frame_size data : Int) + 3 →
      AdtsCheck data size = .ret (-((AdtsCheck_frame_size data : Int) + 3))
        ∧ -((AdtsCheck_frame_size data : Int) + 3) < 0) ∧
    (∀ r : Int, r < 0 →
      (MpegCheck data size = .ret r ∨ Ac3Check data size = .ret r
        ∨ LatmCheck data size = .ret r ∨ AdtsCheck data size = .ret r) → size < -r) := by
  refine ⟨?_, ?_, ?_, ?_, ?_⟩
  · intro hv hs
    rw [MpegCheck_eq_of_valid data size hv, if_pos (by omega), neg_sub_eq]
    exact ⟨rfl, by omega⟩
  · intro hv hs
    rw [Ac3Check_eq data size hv, if_pos (by omega), neg_sub_eq]
    exact ⟨rfl, by omega⟩
  · intro _ hs
    rw [LatmCheck_eq data size, if_pos (by omega), neg_sub_eq]
    exact ⟨rfl, by omega⟩
  · intro hv hs
    rw [AdtsCheck_eq data size hv.1, if_pos (by omega), neg_sub_eq]
    exact ⟨rfl, by omega⟩
  · intro r hneg h
    rcases h with h | h | h | h
    · exact MpegCheck_neg data size r hneg h
    · exact Ac3Check_neg data size r hneg h
    · exact tail_neg _ _ _ 2 size r (LatmCheck_eq data size) h hneg
    · by_cases h6 : 6 ≤ size
      · exact tail_neg _ _ _ 3 size r (AdtsCheck_eq data size h6) h hneg
      · unfold AdtsCheck at h
        rw [if_pos (by omega)] at h
        injection h with h; omega

/-- Witness of C4: each family on a window one byte short of the frame plus
the lookahead, and the converse on the MPEG window. -/
theorem need_more_data_witness :
    (MpegHeaderValid exMpegPair ∧ (420 : Int) < (MpegCheck_frame_size exMpegPair : Int) + 4 ∧
      MpegCheck exMpegPair 420 = .ret (-421)) ∧
    (Ac3HeaderValid exAc3Pair 260 ∧ (260 : Int) < (Ac3Check_frame_size exAc3Pair : Int) + 5 ∧
      Ac3Check exAc3Pair 260 = .ret (-261)) ∧
    (LatmHeaderValid exLatmPair ∧ (36 : Int) < (LatmCheck_frame_size exLatmPair : Int) + 2 ∧
      LatmCheck exLatmPair 36 = .ret (-37)) ∧
    (AdtsHeaderValid exAdtsPair 66 ∧ (66 : Int) < (AdtsCheck_frame_size exAdtsPair : Int) + 3 ∧
      AdtsCheck exAdtsPair 66 = .ret (-67)) ∧
    ((420 : Int) < -(-421)) :=
  ⟨⟨by decide, by decide, ((need_more_data exMpegPair 420).1 (by decide) (by decide)).1⟩,
   ⟨by decide, by decide, ((need_more_data exAc3Pair 260).2.1 (by decide) (by decide)).1⟩,
   ⟨by decide, by decide, ((need_more_data exLatmPair 36).2.2.1 (by decide) (by decide)).1⟩,
   ⟨by decide, by decide, ((need_more_data exAdtsPair 66).2.2.2.1 (by decide) (by decide)).1⟩,
   (need_more_data exMpegPair 420).2.2.2.2 (-421) (by decide) (Or.inl (by decide))⟩

/-- C5 as stated fails: on an MPEG audio header (first byte `0xFF`, top three
bits of the second byte set) with the reserved sample-rate index 3,
`MpegCheck` does not return 0 but calls `abort()`; and on a header with the
reserved layer code 00 it indexes `BitRateTable` outside the layer
dimension. -/
theorem MpegCheck_reserved_counterexample :
    (rd exMpegReservedRate 0 = 0xFF ∧ rd exMpegReservedRate 1 &&& 0xE0 = 0xE0 ∧
      mpegSamplerateIndex exMpegReservedRate = 3 ∧
      MpegCheck exMpegReservedRate 100 = .aborted ∧
      MpegCheck exMpegReservedRate 100 ≠ .ret 0) ∧
    (rd exMpegReservedLayer 0 = 0xFF ∧ rd exMpegReservedLayer 1 &&& 0xE0 = 0xE0 ∧
      mpegBitrateIndex exMpegReservedLayer = 15 ∧
      MpegCheck exMpegReservedLayer 100 = .undefined ∧
      MpegCheck exMpegReservedLayer 100 ≠ .ret 0) := by
  decide

/-- C5, amended.  For every header whose layer code is not the reserved 00
and whose sample-rate index is not 3, a bit-rate index of 15 or 0 makes
`MpegCheck` return 0 for every window length.  For the reserved sample-rate
index 3 `MpegCheck` calls `abort()` for every window length; `FastMpegCheck`
returns 0 on such a header, so the callers, which ask the fast check first,
advance one byte without entering `MpegCheck`. -/
theorem MpegCheck_reserved (data : Bytes) (size : Int) :
    (mpegLayer data ≠ 4 → mpegSamplerateIndex data ≠ 3 →
      (mpegBitrateIndex data = 15 ∨ mpegBitrateIndex data = 0) →
      MpegCheck data size = .ret 0) ∧
    (mpegSamplerateIndex data = 3 →
      MpegCheck data size = .aborted ∧ FastMpegCheck data = false) := by
  obtain ⟨e1, -, -, -, -⟩ := byte_fields1 (data 1)
  obtain ⟨f1, f2, -⟩ := byte_fields2 (data 2)
  obtain ⟨-, g2⟩ := byte_reserved (data 2)
  unfold mpegLayer mpegSamplerateIndex mpegBitrateIndex
  constructor
  · intro hl hsr hbi
    have hsrne : rd data 2 &&& 0x0C ≠ 0x0C := fun h => hsr (g2.1 h)
    obtain ⟨sr0, hsr0, hsrne0⟩ := SampleRateTable_some data hsrne
    have hbr : ∀ v, v < 2 →
        BitRateTable_at v (4 - ((rd data 1 >>> 1) &&& 0x03)) ((rd data 2 >>> 4) &&& 0x0F)
          = some 0 := by
      intro v hv
      simp only [rd] at hl hbi ⊢
      rw [e1, f1]
      exact BitRateTable_at_reserved v _ _ hv ⟨by omega, by omega⟩ hbi
    unfold MpegCheck
    simp only [hsr0, hsrne0, if_false]
    split_ifs <;> simp [hbr]
  · intro hsr
    have h3 : (rd data 2 >>> 2) &&& 0x03 = 3 := by
      simp only [rd] at hsr ⊢
      rw [f2]; exact hsr
    constructor
    · unfold MpegCheck
      simp only [h3]
      rfl
    · have hm : rd data 2 &&& 0x0C = 0x0C := g2.2 hsr
      unfold FastMpegCheck
      simp [hm]

/-- Witness of C5, amended: an MPEG-1 Layer III header with bit-rate index
15, and the header with sample-rate index 3. -/
theorem MpegCheck_reserved_witness :
    (mpegLayer exMpegReservedBitrate ≠ 4 ∧ mpegSamplerateIndex exMpegReservedBitrate ≠ 3 ∧
      mpegBitrateIndex exMpegReservedBitrate = 15 ∧
      MpegCheck exMpegReservedBitrate 100 = .ret 0) ∧
    (mpegSamplerateIndex exMpegReservedRate = 3 ∧
      MpegCheck exMpegReservedRate 100 = .aborted ∧ FastMpegCheck exMpegReservedRate = false) :=
  ⟨⟨by decide, by decide, by decide,
      (MpegCheck_reserved exMpegReservedBitrate 100).1 (by decide) (by decide)
        (Or.inl (by decide))⟩,
   ⟨by decide, (MpegCheck_reserved exMpegReservedRate 100).2 (by decide)⟩⟩

/-- C6.  AC-3 frame size: for a window of at least 5 bytes that takes the
AC-3 branch (byte 5 at most 80), with `fscod = byte4 >> 6` different from 3
and `frmsizcod = byte4 & 0x3F` at most 37, the frame length `Ac3Check` uses
is `L = 2 * Ac3FrameSizeTable[frmsizcod][fscod]`: with at least `L + 5` bytes
and `0x0B 0x77` at offset `L` it returns `L`, with fewer bytes it returns
`-(L + 5)`; for `fscod = 3` or `frmsizcod > 37` it returns 0. -/
theorem Ac3Check_ac3_table (data : Bytes) (size : Int) (h5 : 5 ≤ size)
    (hb : rd data 5 ≤ 80) :
    (rd data 4 >>> 6 ≠ 3 → rd data 4 &&& 0x3F ≤ 37 →
      ∃ entry, Ac3FrameSizeTable_at (rd data 4 &&& 0x3F) (rd data 4 >>> 6) = some entry ∧
        ((2 * entry : Nat) + 5 ≤ size → rd data (2 * entry) = 0x0B →
          rd data (2 * entry + 1) = 0x77 →
          Ac3Check data size = .ret ((2 * entry : Nat) : Int)) ∧
        (size < (2 * entry : Nat) + 5 →
          Ac3Check data size = .ret (-(((2 * entry : Nat) : Int) + 5)))) ∧
    ((rd data 4 >>> 6 = 3 ∨ rd data 4 &&& 0x3F > 37) → Ac3Check data size = .ret 0) := by
  have hb' : ¬ rd data 5 > (10 <<< 3) := by
    have : (10 <<< 3 : Nat) = 80 := by decide
    omega
  constructor
  · intro hf hc
    have hf3 : rd data 4 >>> 6 < 3 := by
      have := byte_fscod (data 4)
      simp only [rd] at hf ⊢
      omega
    obtain ⟨e, he⟩ := Ac3FrameSizeTable_at_some _ _ hc hf3
    have heq : Ac3Check data size =
        if ((2 * e : Nat) : Int) + 5 > size then .ret (-((2 * e : Nat) : Int) - 5)
        else if FastAc3Check (ptrAdd data (2 * e)) then .ret ((2 * e : Nat) : Int)
        else .ret 0 := by
      unfold Ac3Check
      simp only [if_neg (not_lt.2 h5), if_neg hb', if_neg hf, if_neg (Nat.not_lt.2 hc), he]
      rw [Nat.mul_comm e 2]
    refine ⟨e, he, ?_, ?_⟩
    · intro hs h0 h1
      have hfast : FastAc3Check (ptrAdd data (2 * e)) = true := by
        unfold FastAc3Check ptrAdd rd
        simp only [rd, Nat.add_zero] at h0 h1 ⊢
        simp [h0, h1]
      rw [heq, if_neg (by omega), if_pos hfast]
    · intro hs
      rw [heq, if_pos (by omega), neg_sub_eq]
  · intro h
    unfold Ac3Check
    simp only [if_neg (not_lt.2 h5), if_neg hb']
    rcases h with h | h
    · simp only [h, if_true]
    · split_ifs <;> rfl

/-- Witness of C6: the AC-3 pair (fscod 0, frmsizcod 8, table entry 128) in
a window of 261 bytes. -/
theorem Ac3Check_ac3_table_witness :
    (5 : Int) ≤ 261 ∧ rd exAc3Pair 5 ≤ 80 ∧
      Ac3FrameSizeTable_at (rd exAc3Pair 4 &&& 0x3F) (rd exAc3Pair 4 >>> 6) = some 128 ∧
      Ac3Check exAc3Pair 261 = .ret 256 := by
  obtain ⟨e, he, h1, -⟩ :=
    (Ac3Check_ac3_table exAc3Pair 261 (by decide) (by decide)).1 (by decide) (by decide)
  have h128 : Ac3FrameSizeTable_at (rd exAc3Pair 4 &&& 0x3F) (rd exAc3Pair 4 >>> 6)
      = some 128 := by decide
  have hE : e = 128 := by
    rw [h128] at he
    injection he with he
    exact he.symm
  subst hE
  exact ⟨by decide, by decide, h128, h1 (by decide) (by decide) (by decide)⟩

/-- C7 as stated fails: on a window that `Ac3Check` classifies as E-AC-3 whose
frame-size field has all bits set, the frame length is 4096 bytes, which is
more than 2048 and is not `2 * (v + 1)` for any `v` below 1024. -/
theorem Ac3Check_eac3_counterexample :
    rd exEac3Max 5 > 80 ∧ rd exEac3Max 4 &&& 0xF0 ≠ 0xF0 ∧
      Ac3Check exEac3Max 4101 = .ret 4096 ∧ Ac3Check exEac3Max 4100 = .ret (-(4096 + 5)) ∧
      ¬ (4096 ≤ 2048) ∧ ¬ ∃ v : Nat, v < 1024 ∧ 4096 = 2 * (v + 1) := by
  refine ⟨by decide, by decide, by decide, by decide, by decide, ?_⟩
  rintro ⟨v, hv, h⟩
  omega

/-- C7, amended.  For every window that `Ac3Check` classifies as E-AC-3 (at
least 5 bytes, byte 5 above 80, fscod/fscod2 not invalid), the frame length
it uses comes from the 11-bit field of the low three bits of byte 2 and
byte 3: it is `2 * (v + 1)` for `v = (byte2 mod 8) * 256 + byte3 < 2048`,
hence at most 4096 bytes. -/
theorem Ac3Check_eac3_frame (data : Bytes) (size : Int) (h5 : 5 ≤ size)
    (hb : rd data 5 > 80) (hf : rd data 4 &&& 0xF0 ≠ 0xF0) :
    ∃ v : Nat, v < 2048 ∧ v = (rd data 2 % 8) * 256 + rd data 3 ∧ 2 * (v + 1) ≤ 4096 ∧
      Ac3Check data size =
        if ((2 * (v + 1) : Nat) : Int) + 5 > size then
          .ret (-(((2 * (v + 1) : Nat) : Int) + 5))
        else if FastAc3Check (ptrAdd data (2 * (v + 1))) then .ret ((2 * (v + 1) : Nat) : Int)
        else .ret 0 := by
  have hb' : rd data 5 > (10 <<< 3) := by
    have : (10 <<< 3 : Nat) = 80 := by decide
    omega
  have h3 := (data 3).isLt
  have e2 : (rd data 2 &&& 0x07) <<< 8 = (rd data 2 % 8) * 256 := by
    rw [Nat.shiftLeft_eq]
    have : rd data 2 &&& 0x07 = rd data 2 % 8 := Nat.and_pow_two_sub_one_eq_mod _ 3
    rw [this]
  refine ⟨(rd data 2 % 8) * 256 + rd data 3, ?_, rfl, ?_, ?_⟩
  · simp only [rd]; omega
  · simp only [rd]; omega
  · unfold Ac3Check
    simp only [if_neg (not_lt.2 h5), if_pos hb', if_neg hf, e2]
    rw [Nat.mul_comm _ 2, neg_sub_eq]

/-- Witness of C7, amended: the E-AC-3 window with all eleven bits of the
field set. -/
theorem Ac3Check_eac3_frame_witness :
    (5 : Int) ≤ 4101 ∧ rd exEac3Max 5 > 80 ∧ rd exEac3Max 4 &&& 0xF0 ≠ 0xF0 ∧
      ∃ v : Nat, v < 2048 ∧ v = (rd exEac3Max 2 % 8) * 256 + rd exEac3Max 3 ∧
        2 * (v + 1) ≤ 4096 ∧
        Ac3Check exEac3Max 4101 =
          if ((2 * (v + 1) : Nat) : Int) + 5 > 4101 then
            .ret (-(((2 * (v + 1) : Nat) : Int) + 5))
          else if FastAc3Check (ptrAdd exEac3Max (2 * (v + 1))) then
            .ret ((2 * (v + 1) : Nat) : Int)
          else .ret 0 :=
  ⟨by decide, by decide, by decide,
    Ac3Check_eac3_frame exEac3Max 4101 (by decide) (by decide) (by decide)⟩

/-! ## Audio ring -/

theorem AudioRatesSearch_mem (sample_rate : Nat) (hr : sample_rate ∈ AudioRatesTable) :
    ∃ u, u < AudioRatesMax ∧ AudioRatesSearch sample_rate AudioRatesTable 0 = some u := by
  simp only [AudioRatesTable, List.mem_cons, List.mem_singleton, List.not_mem_nil, or_false] at hr
  rcases hr with rfl | rfl | rfl
  · exact ⟨0, by decide, by decide⟩
  · exact ⟨1, by decide, by decide⟩
  · exact ⟨2, by decide, by decide⟩

theorem AudioRatesSearch_not_mem (sample_rate : Nat) (hr : sample_rate ∉ AudioRatesTable) :
    AudioRatesSearch sample_rate AudioRatesTable 0 = none := by
  simp only [AudioRatesTable, List.mem_cons, List.mem_singleton, List.not_mem_nil, or_false,
    not_or] at hr
  obtain ⟨h1, h2, h3⟩ := hr
  simp only [AudioRatesSearch, AudioRatesTable]
  split_ifs <;> first | rfl | omega

theorem AudioInit_matrix_at (st0 : AudioState) (u : Nat) (hu : u < AudioRatesMax) (c : Int)
    (hc : 1 ≤ c ∧ c ≤ 8) :
    AudioChannelMatrix_at (AudioInit st0).AudioChannelMatrix u c
      = some (if c ≤ 2 then 2 else if c ≤ 4 then 4 else if c ≤ 6 then 6 else 8) := by
  obtain ⟨h1, h8⟩ := hc
  unfold AudioChannelMatrix_at AudioInit AudioInit_matrix
  simp only [hu, if_true]
  interval_cases c <;> simp

/-- C8.  After `AudioInit` has populated the channel matrix, for every sample
rate of the rate table and every channel count `c` in 1..8, when fewer than 4
segments are filled `AudioRingAdd` returns 0, advances the write index by one
modulo 4, increments the fill counter by one, and the new write segment holds
the hardware channel count 2, 4, 6 or 8 (2 for `c` in 1..2, 4 for 3..4, 6 for
5..6, 8 for 7..8), the input rate as hardware rate and `AV_NOPTS_VALUE` as
PTS. -/
theorem AudioRingAdd_supported (st0 st : AudioState)
    (hm : st.AudioChannelMatrix = (AudioInit st0).AudioChannelMatrix)
    (sample_rate : Nat) (hr : sample_rate ∈ AudioRatesTable)
    (c : Int) (hc : 1 ≤ c ∧ c ≤ 8) (passthrough : Int)
    (hfill : st.AudioRingFilled < 4) :
    ∃ st1, AudioRingAdd st sample_rate c passthrough = some (0, st1) ∧
      st1.AudioRingWrite = (st.AudioRingWrite + 1) % 4 ∧
      st1.AudioRingFilled = st.AudioRingFilled + 1 ∧
      (st1.AudioRing st1.AudioRingWrite).HwChannels
        = (if c ≤ 2 then 2 else if c ≤ 4 then 4 else if c ≤ 6 then 6 else 8) ∧
      (st1.AudioRing st1.AudioRingWrite).HwChannels ∈ [2, 4, 6, 8] ∧
      (st1.AudioRing st1.AudioRingWrite).HwSampleRate = sample_rate ∧
      (st1.AudioRing st1.AudioRingWrite).PTS = AV_NOPTS_VALUE := by
  obtain ⟨u, hu, hsearch⟩ := AudioRatesSearch_mem sample_rate hr
  have hmat := AudioInit_matrix_at st0 u hu c hc
  rw [← hm] at hmat
  have hne : st.AudioRingFilled ≠ (AUDIO_RING_MAX : Nat) := by
    unfold AUDIO_RING_MAX; push_cast; omega
  have hhw : (if c ≤ 2 then (2 : Int) else if c ≤ 4 then 4 else if c ≤ 6 then 6 else 8) ≠ 0 := by
    split_ifs <;> decide
  have hun : toUnsigned (if c ≤ 2 then (2 : Int) else if c ≤ 4 then 4 else if c ≤ 6 then 6 else 8)
      = (if c ≤ 2 then 2 else if c ≤ 4 then 4 else if c ≤ 6 then 6 else 8) := by
    split_ifs <;> decide
  unfold AudioRingAdd
  simp only [hsearch, hmat, if_neg hhw, if_neg hne]
  refine ⟨_, rfl, rfl, rfl, ?_, ?_, ?_, ?_⟩
  · simp only [Function.update_same, hun]
  · simp only [Function.update_same, hun]
    split_ifs <;> decide
  · simp only [Function.update_same]
  · simp only [Function.update_same]

/-- Witness of C8: 6 channels at 48000 Hz on the empty ring that `AudioInit`
leaves. -/
theorem AudioRingAdd_supported_witness :
    (AudioInit AudioState.zero).AudioChannelMatrix
        = (AudioInit AudioState.zero).AudioChannelMatrix ∧
      48000 ∈ AudioRatesTable ∧ ((1 : Int) ≤ 6 ∧ (6 : Int) ≤ 8) ∧
      (AudioInit AudioState.zero).AudioRingFilled < 4 ∧
      ∃ st1, AudioRingAdd (AudioInit AudioState.zero) 48000 6 0 = some (0, st1) ∧
        st1.AudioRingWrite = ((AudioInit AudioState.zero).AudioRingWrite + 1) % 4 ∧
        st1.AudioRingFilled = (AudioInit AudioState.zero).AudioRingFilled + 1 ∧
        (st1.AudioRing st1.AudioRingWrite).HwChannels
          = (if (6 : Int) ≤ 2 then 2 else if (6 : Int) ≤ 4 then 4
              else if (6 : Int) ≤ 6 then 6 else 8) ∧
        (st1.AudioRing st1.AudioRingWrite).HwChannels ∈ [2, 4, 6, 8] ∧
        (st1.AudioRing st1.AudioRingWrite).HwSampleRate = 48000 ∧
        (st1.AudioRing st1.AudioRingWrite).PTS = AV_NOPTS_VALUE :=
  ⟨rfl, by decide, by decide, by decide,
    AudioRingAdd_supported AudioState.zero (AudioInit AudioState.zero) rfl 48000 (by decide) 6
      (by decide) 0 (by decide)⟩

/-- The rejections of `AudioRingAdd` that hold: a sample rate outside the
rate table, and a channel count inside the row `0..8` whose matrix entry is
zero, give -1 and leave the whole state as it was. -/
theorem AudioRingAdd_rejects (st : AudioState) (sample_rate : Nat) (c passthrough : Int) :
    (sample_rate ∉ AudioRatesTable →
      AudioRingAdd st sample_rate c passthrough = some (-1, st)) ∧
    (∀ u, AudioRatesSearch sample_rate AudioRatesTable 0 = some u → 0 ≤ c → c < 9 →
      st.AudioChannelMatrix u c.toNat = 0 →
      AudioRingAdd st sample_rate c passthrough = some (-1, st)) := by
  constructor
  · intro hr
    unfold AudioRingAdd
    rw [AudioRatesSearch_not_mem sample_rate hr]
  · intro u hu h0 h9 hz
    unfold AudioRingAdd AudioChannelMatrix_at
    simp only [hu, h0, h9, and_self, if_true, hz]

/-- C9, the failing input: after `AudioInit`, `AudioRingAdd(44100, 10, 0)`
finds the rate at row 0 and then reads `AudioChannelMatrix[0][10]`, outside
the 9 entries of the row, instead of returning -1. -/
theorem AudioRingAdd_channels_above_8 :
    AudioRatesSearch 44100 AudioRatesTable 0 = some 0 ∧
      AudioChannelMatrix_at (AudioInit AudioState.zero).AudioChannelMatrix 0 10 = none ∧
      AudioRingAdd (AudioInit AudioState.zero) 44100 10 0 = none ∧
      AudioRingAdd (AudioInit AudioState.zero) 44100 10 0
        ≠ some (-1, AudioInit AudioState.zero) :=
  ⟨rfl, rfl, rfl, by
    have h : AudioRingAdd (AudioInit AudioState.zero) 44100 10 0 = none := rfl
    rw [h]
    exact fun h2 => Option.noConfusion h2⟩

theorem AudioFlushScan_loop_spec (filled : Int) (n : Nat) :
    ∀ (read : Nat) (flush : Int) (st : AudioState),
      (AudioFlushScan_loop filled n read flush st).2.AudioRingWrite = st.AudioRingWrite ∧
      (AudioFlushScan_loop filled n read flush st).2.AudioRingFilled = st.AudioRingFilled ∧
      (((AudioFlushScan_loop filled n read flush st).1 = flush ∧
          (AudioFlushScan_loop filled n read flush st).2.AudioRingRead = st.AudioRingRead) ∨
        ∃ k : Nat, 1 ≤ k ∧ k ≤ n ∧
          (AudioFlushScan_loop filled n read flush st).1 = filled - ((n : Int) - k) ∧
          (AudioFlushScan_loop filled n read flush st).2.AudioRingRead
            = (read + k) % AUDIO_RING_MAX) := by
  induction n with
  | zero =>
    intro read flush st
    simp [AudioFlushScan_loop]
  | succ n ih =>
    intro read flush st
    unfold AudioFlushScan_loop
    simp only
    split
    · obtain ⟨hw, hf, h⟩ := ih ((read + 1) % AUDIO_RING_MAX) (filled - n)
        { st with
          AudioRing := Function.update st.AudioRing ((read + 1) % AUDIO_RING_MAX)
            { st.AudioRing ((read + 1) % AUDIO_RING_MAX) with FlushBuffers := 0 }
          AudioRingRead := (read + 1) % AUDIO_RING_MAX }
      refine ⟨hw, hf, Or.inr ?_⟩
      rcases h with ⟨h1, h2⟩ | ⟨k, hk1, hk2, h1, h2⟩
      · refine ⟨1, le_refl 1, by omega, ?_, ?_⟩
        · rw [h1]; push_cast; omega
        · rw [h2]
      · refine ⟨k + 1, by omega, by omega, ?_, ?_⟩
        · rw [h1]; push_cast; omega
        · rw [h2]; unfold AUDIO_RING_MAX; omega
    · obtain ⟨hw, hf, h⟩ := ih ((read + 1) % AUDIO_RING_MAX) flush st
      refine ⟨hw, hf, ?_⟩
      rcases h with ⟨h1, h2⟩ | ⟨k, hk1, hk2, h1, h2⟩
      · exact Or.inl ⟨h1, h2⟩
      · refine Or.inr ⟨k + 1, by omega, by omega, ?_, ?_⟩
        · rw [h1]; push_cast; omega
        · rw [h2]; unfold AUDIO_RING_MAX; omega

theorem AudioRingInv_init (st0 : AudioState)
    (h0 : st0.AudioRingWrite = 0 ∧ st0.AudioRingRead = 0) : AudioRingInv (AudioInit st0) := by
  unfold AudioRingInv AudioInit AudioRingInit AUDIO_RING_MAX
  simp [h0.1, h0.2]

set_option linter.unusedTactic false in
set_option linter.unreachableTactic false in
theorem AudioRingInv_add (st st1 : AudioState) (sample_rate : Nat) (channels passthrough : Int)
    (ret : Int) (hinv : AudioRingInv st)
    (h : AudioRingAdd st sample_rate channels passthrough = some (ret, st1)) :
    AudioRingInv st1 := by
  unfold AudioRingAdd at h
  simp only at h
  repeat' split at h
  all_goals first
    | (injection h with h; injection h with h1 h2; subst h2; exact hinv)
    | (injection h with h; injection h with h1 h2; subst h2
       unfold AudioRingInv AUDIO_RING_MAX at *
       simp only at *
       omega)
    | (injection h)

theorem AudioRingInv_flushBuffers (st : AudioState) (hinv : AudioRingInv st) :
    AudioRingInv (AudioFlushBuffers_enqueue st) := by
  unfold AudioFlushBuffers_enqueue
  split
  · exact hinv
  · unfold AudioRingInv AUDIO_RING_MAX at *
    simp only at *
    omega

theorem AudioRingInv_nextRing (st : AudioState) (hinv : AudioRingInv st) :
    AudioRingInv (AudioNextRingStep st) := by
  unfold AudioNextRingStep
  split
  · exact hinv
  · unfold AudioRingInv AUDIO_RING_MAX at *
    simp only at *
    omega

theorem AudioRingInv_flushScan (st : AudioState) (hinv : AudioRingInv st) :
    AudioRingInv (AudioFlushScan st) := by
  obtain ⟨hw, hf, h⟩ := AudioFlushScan_loop_spec st.AudioRingFilled st.AudioRingFilled.toNat
    st.AudioRingRead 0 st
  unfold AudioFlushScan
  simp only
  unfold AudioRingInv AUDIO_RING_MAX at *
  obtain ⟨i1, i2, i3, i4, i5⟩ := hinv
  have hn : (st.AudioRingFilled.toNat : Int) = st.AudioRingFilled := Int.toNat_of_nonneg i3
  rcases h with ⟨h1, h2⟩ | ⟨k, hk1, hk2, h1, h2⟩
  · rw [if_neg (by rw [h1]; simp)]
    rw [hw, hf, h2]
    exact ⟨i1, i2, i3, i4, i5⟩
  · rw [if_pos (by rw [h1]; omega)]
    simp only
    rw [hw, hf, h2, h1]
    refine ⟨i1, by omega, by omega, by omega, by omega⟩

theorem AudioRingInv_step (st st1 : AudioState) (op : AudioOp) (hinv : AudioRingInv st)
    (h : AudioOp.step st op = some st1) : AudioRingInv st1 := by
  cases op with
  | add sample_rate channels passthrough =>
    simp only [AudioOp.step, Option.map_eq_some'] at h
    obtain ⟨⟨ret, st2⟩, h1, h2⟩ := h
    simp only at h2
    subst h2
    exact AudioRingInv_add st st2 sample_rate channels passthrough ret hinv h1
  | flushBuffers =>
    simp only [AudioOp.step, Option.some.injEq] at h
    subst h
    exact AudioRingInv_flushBuffers st hinv
  | flushScan =>
    simp only [AudioOp.step, Option.some.injEq] at h
    subst h
    exact AudioRingInv_flushScan st hinv
  | nextRing =>
    simp only [AudioOp.step, Option.some.injEq] at h
    subst h
    exact AudioRingInv_nextRing st hinv

theorem AudioRingInv_run (ops : List AudioOp) :
    ∀ (st st1 : AudioState), AudioRingInv st → AudioOp.run st ops = some st1 →
      AudioRingInv st1 := by
  induction ops with
  | nil =>
    intro st st1 hinv h
    simp only [AudioOp.run, Option.some.injEq] at h
    subst h
    exact hinv
  | cons op ops ih =>
    intro st st1 hinv h
    unfold AudioOp.run at h
    split at h
    · exact absurd h (by simp)
    · rename_i st2 hstep
      exact ih st2 st1 (AudioRingInv_step st st2 op hinv hstep) h

/-- C10 as stated fails: four successful `AudioRingAdd` calls on the initial
ring, with no drain in between, leave the fill counter at 4 while the write
index is back on the read index, so `(AudioRingWrite - AudioRingRead) mod 4`
is 0. -/
theorem AudioRing_fill_counterexample :
    ∃ st, AudioOp.run (AudioInit AudioState.zero)
        [.add 48000 2 0, .add 48000 2 0, .add 48000 2 0, .add 48000 2 0] = some st ∧
      st.AudioRingFilled = 4 ∧ ((st.AudioRingWrite : Int) - st.AudioRingRead) % 4 = 0 ∧
      st.AudioRingFilled ≠ ((st.AudioRingWrite : Int) - st.AudioRingRead) % 4 :=
  ⟨_, rfl, by decide, by decide, by decide⟩

/-- C10, amended.  Starting from the initial ring (read = write = 0, fill
counter 0 after `AudioInit`), after every sequence of `AudioRingAdd` calls,
successful or failed, `AudioFlushBuffers` calls and consumer steps (flush
handling, step to the next ring buffer), the fill counter lies in 0..4 and is
congruent to `AudioRingWrite - AudioRingRead` modulo 4; it equals
`(AudioRingWrite - AudioRingRead) mod 4` whenever fewer than 4 segments are
filled. -/
theorem AudioRing_fill_invariant (st0 : AudioState)
    (h0 : st0.AudioRingWrite = 0 ∧ st0.AudioRingRead = 0) (ops : List AudioOp)
    (st : AudioState) (hrun : AudioOp.run (AudioInit st0) ops = some st) :
    0 ≤ st.AudioRingFilled ∧ st.AudioRingFilled ≤ 4 ∧
      st.AudioRingFilled % 4 = ((st.AudioRingWrite : Int) - st.AudioRingRead) % 4 ∧
      (st.AudioRingFilled < 4 →
        st.AudioRingFilled = ((st.AudioRingWrite : Int) - st.AudioRingRead) % 4) := by
  have hinv := AudioRingInv_run ops (AudioInit st0) st (AudioRingInv_init st0 h0) hrun
  unfold AudioRingInv AUDIO_RING_MAX at hinv
  obtain ⟨-, -, i3, i4, i5⟩ := hinv
  exact ⟨i3, by omega, i5, by omega⟩

/-- Witness of C10, amended: a run of six operations by producer and
consumer. -/
theorem AudioRing_fill_invariant_witness :
    (AudioState.zero.AudioRingWrite = 0 ∧ AudioState.zero.AudioRingRead = 0) ∧
    AudioOp.run (AudioInit AudioState.zero) audioRingExampleOps = some audioRingExampleState ∧
    (0 ≤ audioRingExampleState.AudioRingFilled ∧ audioRingExampleState.AudioRingFilled ≤ 4 ∧
      audioRingExampleState.AudioRingFilled % 4
        = ((audioRingExampleState.AudioRingWrite : Int) - audioRingExampleState.AudioRingRead) % 4
      ∧ (audioRingExampleState.AudioRingFilled < 4 →
        audioRingExampleState.AudioRingFilled
          = ((audioRingExampleState.AudioRingWrite : Int)
              - audioRingExampleState.AudioRingRead) % 4)) :=
  ⟨⟨rfl, rfl⟩, rfl,
    AudioRing_fill_invariant AudioState.zero ⟨rfl, rfl⟩ audioRingExampleOps
      audioRingExampleState rfl⟩


/-! ## Video packet ring -/

theorem VIDEO_PACKET_MAX_next_ne (w : Nat) : (w + 1) % VIDEO_PACKET_MAX ≠ w := by
  unfold VIDEO_PACKET_MAX
  omega

/-- C11.  `VideoNextPacket(stream, codec_id)`: on an empty write slot with a
real codec id the stream is unchanged; on a non-empty slot with the fill
counter below `VIDEO_PACKET_MAX - 1` the slot at the old write index is
tagged with `codec_id`, the write index becomes `(write + 1) mod
VIDEO_PACKET_MAX`, the fill counter grows by one and the new current slot is
empty, tagged `NONE` and without timestamps; on a non-empty slot with a full
ring the accumulated size of the slot is reset to 0 while write index and
fill counter stay. -/
theorem VideoNextPacket_cases (stream : VideoStream) (codec_id : AVCodecID) :
    ((stream.PacketRb stream.PacketWrite).stream_index = 0 → codec_id ≠ AVCodecID.NONE →
      VideoNextPacket stream codec_id = stream) ∧
    ((stream.PacketRb stream.PacketWrite).stream_index ≠ 0 →
      stream.PacketsFilled < (VIDEO_PACKET_MAX : Int) - 1 →
      (VideoNextPacket stream codec_id).CodecIDRb stream.PacketWrite = codec_id ∧
      (VideoNextPacket stream codec_id).PacketWrite
        = (stream.PacketWrite + 1) % VIDEO_PACKET_MAX ∧
      (VideoNextPacket stream codec_id).PacketsFilled = stream.PacketsFilled + 1 ∧
      ((VideoNextPacket stream codec_id).PacketRb
        (VideoNextPacket stream codec_id).PacketWrite).stream_index = 0 ∧
      (VideoNextPacket stream codec_id).CodecIDRb (VideoNextPacket stream codec_id).PacketWrite
        = AVCodecID.NONE ∧
      ((VideoNextPacket stream codec_id).PacketRb
        (VideoNextPacket stream codec_id).PacketWrite).pts = AV_NOPTS_VALUE ∧
      ((VideoNextPacket stream codec_id).PacketRb
        (VideoNextPacket stream codec_id).PacketWrite).dts = AV_NOPTS_VALUE) ∧
    ((stream.PacketRb stream.PacketWrite).stream_index ≠ 0 →
      stream.PacketsFilled ≥ (VIDEO_PACKET_MAX : Int) - 1 →
      ((VideoNextPacket stream codec_id).PacketRb stream.PacketWrite).stream_index = 0 ∧
      (VideoNextPacket stream codec_id).PacketWrite = stream.PacketWrite ∧
      (VideoNextPacket stream codec_id).PacketsFilled = stream.PacketsFilled ∧
      (VideoNextPacket stream codec_id).CodecIDRb = stream.CodecIDRb) := by
  refine ⟨?_, ?_, ?_⟩
  · intro h0 hc
    unfold VideoNextPacket
    simp only [h0, hc, ne_eq, not_false_eq_true, and_self, if_true]
  · intro h0 hf
    have hne := VIDEO_PACKET_MAX_next_ne stream.PacketWrite
    unfold VideoNextPacket VideoResetPacket
    simp only [h0, false_and, if_false, if_neg (not_le.2 hf), ge_iff_le]
    refine ⟨?_, ?_, ?_, ?_, ?_, ?_, ?_⟩ <;>
      first
        | trivial
        | rfl
        | simp only [Function.update_same]
        | rw [Function.update_noteq (Ne.symm hne), Function.update_same]
  · intro h0 hf
    unfold VideoNextPacket
    simp only [h0, false_and, if_false, ge_iff_le] at hf ⊢
    rw [if_pos hf]
    exact ⟨by simp only [Function.update_same], rfl, rfl, rfl⟩


/-- Witness of C11: the three cases on the open stream, empty and after an
H.264 packet was enqueued, the last with the fill counter at the limit. -/
theorem VideoNextPacket_cases_witness :
    (exVideoStream.PacketRb exVideoStream.PacketWrite).stream_index = 0 ∧
    (exVideoStreamH264.PacketRb exVideoStreamH264.PacketWrite).stream_index ≠ 0 ∧
    exVideoStreamH264.PacketsFilled < (VIDEO_PACKET_MAX : Int) - 1 ∧
    VideoNextPacket exVideoStream AVCodecID.H264 = exVideoStream ∧
    (VideoNextPacket exVideoStreamH264 AVCodecID.H264).PacketWrite
      = (exVideoStreamH264.PacketWrite + 1) % VIDEO_PACKET_MAX ∧
    (VideoNextPacket { exVideoStreamH264 with PacketsFilled := 255 } AVCodecID.H264).PacketWrite
      = exVideoStreamH264.PacketWrite :=
  ⟨by decide, by decide, by decide,
    (VideoNextPacket_cases exVideoStream AVCodecID.H264).1 (by decide) (by decide),
    ((VideoNextPacket_cases exVideoStreamH264 AVCodecID.H264).2.1 (by decide) (by decide)).2.1,
    ((VideoNextPacket_cases { exVideoStreamH264 with PacketsFilled := 255 }
      AVCodecID.H264).2.2 (by decide) (by decide)).2.1⟩

/-- C20.  `VideoDecodeInput` with a decoder present honours the priority
Close, ClearBuffers, Freezed, dequeue: with Close set it closes the stream,
clears Close and returns 1 whatever the other flags are; else with
ClearBuffers set it sets the fill counter to 0 and the read index to the
write index, clears ClearBuffers and returns 1; else with Freezed set it
returns 1 and leaves the stream as it is; only otherwise it dequeues,
returning -1 on an empty ring and else advancing the read index by one modulo
`VIDEO_PACKET_MAX` and decrementing the fill counter by one. -/
theorem VideoDecodeInput_priority (stream : VideoStream) (hdec : stream.Decoder = true) :
    (stream.Close ≠ 0 →
      VideoDecodeInput stream = (1, { (VideoStreamClose stream 1) with Close := 0 }) ∧
      (VideoDecodeInput stream).2.Close = 0 ∧ (VideoDecodeInput stream).2.Decoder = false ∧
      (VideoDecodeInput stream).2.PacketsFilled = 0) ∧
    (stream.Close = 0 → stream.ClearBuffers ≠ 0 →
      (VideoDecodeInput stream).1 = 1 ∧
      (VideoDecodeInput stream).2.PacketsFilled = 0 ∧
      (VideoDecodeInput stream).2.PacketRead = stream.PacketWrite ∧
      (VideoDecodeInput stream).2.PacketWrite = stream.PacketWrite ∧
      (VideoDecodeInput stream).2.ClearBuffers = 0 ∧
      (VideoDecodeInput stream).2.PacketRb = stream.PacketRb) ∧
    (stream.Close = 0 → stream.ClearBuffers = 0 → stream.Freezed ≠ 0 →
      VideoDecodeInput stream = (1, stream)) ∧
    (stream.Close = 0 → stream.ClearBuffers = 0 → stream.Freezed = 0 →
      (stream.PacketsFilled = 0 → VideoDecodeInput stream = (-1, stream)) ∧
      (stream.PacketsFilled ≠ 0 →
        (VideoDecodeInput stream).1 = 0 ∧
        (VideoDecodeInput stream).2.PacketRead = (stream.PacketRead + 1) % VIDEO_PACKET_MAX ∧
        (VideoDecodeInput stream).2.PacketsFilled = stream.PacketsFilled - 1 ∧
        (VideoDecodeInput stream).2.PacketWrite = stream.PacketWrite)) := by
  refine ⟨?_, ?_, ?_, ?_⟩
  · intro hc
    have h : VideoDecodeInput stream = (1, { (VideoStreamClose stream 1) with Close := 0 }) := by
      unfold VideoDecodeInput
      simp only [hdec, Bool.not_true, Bool.false_eq_true, if_false, hc, ne_eq, not_false_eq_true,
        if_true]
    rw [h]
    refine ⟨rfl, rfl, ?_, ?_⟩
    · simp only [VideoStreamClose, VideoPacketExit, hdec, if_true]
      split <;> rfl
    · simp only [VideoStreamClose, VideoPacketExit]
  · intro hc hb
    unfold VideoDecodeInput
    simp only [hdec, Bool.not_true, Bool.false_eq_true, if_false, hc, ne_eq, not_true_eq_false,
      hb, not_false_eq_true, if_true]
    refine ⟨?_, ?_, ?_, ?_, ?_, ?_⟩ <;> trivial
  · intro hc hb hf
    unfold VideoDecodeInput
    simp only [hdec, Bool.not_true, Bool.false_eq_true, if_false, hc, ne_eq, not_true_eq_false,
      hb, hf, not_false_eq_true, if_true]
  · intro hc hb hf
    constructor
    · intro h0
      unfold VideoDecodeInput
      simp only [hdec, Bool.not_true, Bool.false_eq_true, if_false, hc, ne_eq, not_true_eq_false,
        hb, hf, h0, if_true]
    · intro h0
      unfold VideoDecodeInput
      simp only [hdec, Bool.not_true, Bool.false_eq_true, if_false, hc, ne_eq, not_true_eq_false,
        hb, hf, h0]
      split_ifs <;> refine ⟨?_, ?_, ?_, ?_⟩ <;> trivial

/-- Witness of C20: the stream holding the H.264 packet, sealed, with Freezed
set together with Close, with ClearBuffers, alone, and with no flag. -/
theorem VideoDecodeInput_priority_witness :
    (VideoNextPacket exVideoStreamH264 AVCodecID.H264).Decoder = true ∧
    (VideoDecodeInput { (VideoNextPacket exVideoStreamH264 AVCodecID.H264) with
        Close := 1, ClearBuffers := 1, Freezed := 1 }).1 = 1 ∧
    (VideoDecodeInput { (VideoNextPacket exVideoStreamH264 AVCodecID.H264) with
        Close := 1, ClearBuffers := 1, Freezed := 1 }).2.Decoder = false ∧
    (VideoDecodeInput { (VideoNextPacket exVideoStreamH264 AVCodecID.H264) with
        ClearBuffers := 1, Freezed := 1 }).2.PacketRead = 1 ∧
    (VideoDecodeInput { (VideoNextPacket exVideoStreamH264 AVCodecID.H264) with
        Freezed := 1 }).1 = 1 ∧
    (VideoDecodeInput (VideoNextPacket exVideoStreamH264 AVCodecID.H264)).2.PacketRead = 1 ∧
    (VideoDecodeInput (VideoNextPacket exVideoStreamH264 AVCodecID.H264)).2.PacketsFilled = 0 := by
  have h1 := (VideoDecodeInput_priority { (VideoNextPacket exVideoStreamH264 AVCodecID.H264) with
        Close := 1, ClearBuffers := 1, Freezed := 1 } (by decide)).1 (by decide)
  have h2 := (VideoDecodeInput_priority { (VideoNextPacket exVideoStreamH264 AVCodecID.H264) with
        ClearBuffers := 1, Freezed := 1 } (by decide)).2.1 (by decide) (by decide)
  have h3 := (VideoDecodeInput_priority { (VideoNextPacket exVideoStreamH264 AVCodecID.H264) with
        Freezed := 1 } (by decide)).2.2.1 (by decide) (by decide) (by decide)
  have h4 := ((VideoDecodeInput_priority (VideoNextPacket exVideoStreamH264 AVCodecID.H264)
        (by decide)).2.2.2 (by decide) (by decide) (by decide)).2 (by decide)
  refine ⟨by decide, ?_, h1.2.2.1, ?_, ?_, ?_, ?_⟩
  · rw [h1.1]
  · rw [h2.2.2.1]; decide
  · rw [h3]
  · rw [h4.2.1]; decide
  · rw [h4.2.2.1]; decide


/-- Clearing the invalid-PES counter when it is non-zero yields the stream with the
counter at 0. -/
theorem PlayVideo3_invalid_counter (s : VideoStream) :
    (if s.InvalidPesCounter ≠ 0 then { s with InvalidPesCounter := 0 } else s)
      = { s with InvalidPesCounter := 0 } := by
  split
  · rfl
  · rename_i h0
    have h0' : s.InvalidPesCounter = 0 := by simpa using h0
    cases s
    simp only at h0'
    subst h0'
    rfl

/-- The value of `PlayVideo3` on an accepted packet in which a codec is detected. -/
theorem PlayVideo3_of_detect (stream : VideoStream) (data : Bytes) (size : Int)
    (c : AVCodecID) (hacc : PlayVideo3_accepts stream data size)
    (hdet : PlayVideo3_detect data size = some c) :
    PlayVideo3 stream data size =
      (size, VideoEnqueue
        (if stream.CodecID = c then VideoNextPacket { stream with InvalidPesCounter := 0 } c
          else { stream with InvalidPesCounter := 0, CodecID := c })
        (PlayVideo3_pts data) (PlayVideo3_dts data) (PlayVideo3_payload data size)) := by
  obtain ⟨h1, h2, h3, h4, h5, h6, h7, h8, h9, h10, h11⟩ := hacc
  have hg1 : ¬ ((!stream.Decoder) = true) := by simp [h1]
  have hg2 : ¬ (stream.SkipStream ≠ 0) := by simp [h2]
  have hg3 : ¬ (stream.Freezed ≠ 0) := by simp [h3]
  have hg4 : ¬ (stream.NewStream ≠ 0 ∧ stream.PacketsFilled ≥ (VIDEO_PACKET_MAX : Int) - 1) := by
    simp [h4]
  have hg5 : ¬ (stream.NewStream ≠ 0) := by simp [h4]
  have hpes : ¬ (size < 9 ∨ rd data 0 ≠ 0 ∨ rd data 1 ≠ 0 ∨ rd data 2 ≠ 0x01) := by
    rw [h6, h7, h8]
    simp only [ne_eq, not_true_eq_false, or_false]
    omega
  unfold PlayVideo3
  rw [if_neg hg1, if_neg hg2, if_neg hg3, if_neg hg4]
  have hlen : ¬ (size ≤ 9 + (rd data 8 : Int)) := by omega
  have hfull : ¬ (stream.PacketsFilled ≥ (VIDEO_PACKET_MAX : Int) - 10) := by omega
  have hfull2 : ¬ (({ stream with InvalidPesCounter := 0 } : VideoStream).PacketsFilled
      ≥ (VIDEO_PACKET_MAX : Int) - 10) := hfull
  simp only [if_neg hg5, if_neg hpes, PlayVideo3_invalid_counter, if_neg h9, if_neg hlen, if_neg hfull2]
  unfold PlayVideo3_detect at hdet
  unfold PlayVideo3_pts PlayVideo3_dts PlayVideo3_payload
  simp only at hdet
  split at hdet
  · rename_i hc1
    injection hdet with hdet
    subst hdet
    simp only [if_pos hc1]
  · rename_i hc1
    split at hdet
    · rename_i hc2
      injection hdet with hdet
      subst hdet
      simp only [if_neg hc1, if_pos hc2]
    · rename_i hc2
      split at hdet
      · rename_i hc3
        injection hdet with hdet
        subst hdet
        simp only [if_neg hc1, if_neg hc2, if_pos hc3]
      · exact absurd hdet (by simp)


/-- C18 as stated fails: with H264 as tracked codec id and 9 bytes in the
write slot, a packet whose start code is detected as MPEG-2 is appended to
the same slot: `PlayVideo3` does not call `VideoNextPacket`, the write index
and the fill counter stay, and the slot then holds the bytes enqueued under
H264 followed by the bytes enqueued under MPEG2VIDEO. -/
theorem PlayVideo3_codec_change_counterexample :
    PlayVideo3_accepts exVideoStreamH264 exPesMpeg2 15 ∧
    exVideoStreamH264.CodecID = AVCodecID.H264 ∧
    (exVideoStreamH264.PacketRb exVideoStreamH264.PacketWrite).stream_index = 9 ∧
    PlayVideo3_detect exPesMpeg2 15 = some AVCodecID.MPEG2VIDEO ∧
    (PlayVideo3 exVideoStreamH264 exPesMpeg2 15).2.CodecID = AVCodecID.MPEG2VIDEO ∧
    (PlayVideo3 exVideoStreamH264 exPesMpeg2 15).2.PacketWrite = exVideoStreamH264.PacketWrite ∧
    (PlayVideo3 exVideoStreamH264 exPesMpeg2 15).2.PacketsFilled
      = exVideoStreamH264.PacketsFilled ∧
    ((PlayVideo3 exVideoStreamH264 exPesMpeg2 15).2.PacketRb exVideoStreamH264.PacketWrite).data
      = (exVideoStreamH264.PacketRb exVideoStreamH264.PacketWrite).data
        ++ PlayVideo3_payload exPesMpeg2 15 := by
  decide

/-- C18, amended.  In `PlayVideo3`, for a packet that passes the checks at
the head and in which a codec `c` (H.264, HEVC or MPEG-2) is detected from
the start code: when `c` equals the tracked codec id, `VideoNextPacket(c)` is
called before the payload is enqueued, which seals a non-empty in-progress
slot; when `c` differs from the tracked codec id, the tracked id is set to
`c` and the payload is enqueued into the in-progress slot without sealing it:
write index and fill counter stay and the payload follows the bytes the slot
already holds. -/
theorem PlayVideo3_detected (stream : VideoStream) (data : Bytes) (size : Int)
    (c : AVCodecID) (hacc : PlayVideo3_accepts stream data size)
    (hdet : PlayVideo3_detect data size = some c) :
    (stream.CodecID = c →
      PlayVideo3 stream data size =
        (size, VideoEnqueue (VideoNextPacket { stream with InvalidPesCounter := 0 } c)
          (PlayVideo3_pts data) (PlayVideo3_dts data) (PlayVideo3_payload data size))) ∧
    (stream.CodecID ≠ c →
      PlayVideo3 stream data size =
        (size, VideoEnqueue { stream with InvalidPesCounter := 0, CodecID := c }
          (PlayVideo3_pts data) (PlayVideo3_dts data) (PlayVideo3_payload data size)) ∧
      (PlayVideo3 stream data size).2.PacketWrite = stream.PacketWrite ∧
      (PlayVideo3 stream data size).2.PacketsFilled = stream.PacketsFilled ∧
      ((PlayVideo3 stream data size).2.PacketRb stream.PacketWrite).data
        = (stream.PacketRb stream.PacketWrite).data.take
            (stream.PacketRb stream.PacketWrite).stream_index
          ++ PlayVideo3_payload data size) := by
  rw [PlayVideo3_of_detect stream data size c hacc hdet]
  constructor
  · intro hc
    simp only [hc, if_true]
  · intro hc
    simp only [hc, if_false]
    refine ⟨trivial, ?_, ?_, ?_⟩
    · simp only [VideoEnqueue]
    · simp only [VideoEnqueue]
    · simp only [VideoEnqueue, Function.update_same]
      split_ifs <;> rfl

/-- Witness of C18, amended: the MPEG-2 packet on the stream tracking H264
(no seal), and the H.264 packet on the same stream (seal). -/
theorem PlayVideo3_detected_witness :
    PlayVideo3_accepts exVideoStreamH264 exPesMpeg2 15 ∧
    PlayVideo3_detect exPesMpeg2 15 = some AVCodecID.MPEG2VIDEO ∧
    exVideoStreamH264.CodecID ≠ AVCodecID.MPEG2VIDEO ∧
    (PlayVideo3 exVideoStreamH264 exPesMpeg2 15).2.PacketWrite = exVideoStreamH264.PacketWrite ∧
    PlayVideo3_accepts exVideoStreamH264 exPesH264 19 ∧
    PlayVideo3_detect exPesH264 19 = some AVCodecID.H264 ∧
    exVideoStreamH264.CodecID = AVCodecID.H264 ∧
    PlayVideo3 exVideoStreamH264 exPesH264 19 =
      (19, VideoEnqueue (VideoNextPacket { exVideoStreamH264 with InvalidPesCounter := 0 }
          AVCodecID.H264)
        (PlayVideo3_pts exPesH264) (PlayVideo3_dts exPesH264) (PlayVideo3_payload exPesH264 19)) :=
  ⟨by decide, by decide, by decide,
    ((PlayVideo3_detected exVideoStreamH264 exPesMpeg2 15 AVCodecID.MPEG2VIDEO (by decide)
      (by decide)).2 (by decide)).2.1,
    by decide, by decide, by decide,
    (PlayVideo3_detected exVideoStreamH264 exPesH264 19 AVCodecID.H264 (by decide)
      (by decide)).1 (by decide)⟩


/-- C12 as stated fails: with `AudioBufferTime` 336 ms, 48 kHz stereo, a
period of 4096 bytes and `VideoAudioDelay` 9000 (100 ms), the threshold is
83712 bytes, while `min(max(period_bytes, R*C*B*T/1000), 840000/3)` is
64512. -/
theorem AlsaSetup_StartThreshold_counterexample :
    AlsaSetup_StartThreshold 4096 48000 2 336 9000 = some 83712 ∧
    min (max 4096 (48000 * 2 * 2 * 336 / 1000)) (840000 / 3) = 64512 := by
  decide

/-- Conversion to `unsigned` keeps a value in the range of `unsigned`. -/
theorem toUnsigned_of_range (x : Int) (h0 : 0 ≤ x) (h1 : x < 2 ^ 32) :
    toUnsigned x = x.toNat := by
  unfold toUnsigned
  rw [Int.emod_eq_of_lt h0 h1]

/-- C12, amended.  For a buffer time `T > 0` ms (`AudioBufferTime`), rate
`R > 0`, channels `C > 0`, `B = 2` and a period of `period_bytes` (below
`2^32`), let `D` be `T + VideoAudioDelay / 90` when `VideoAudioDelay > 0` and
`T` otherwise.  When `R*C*B*D` fits a C `int`, the start threshold computed by
the audio setup equals `min(max(period_bytes, R*C*B*D/1000), ring_capacity/3)`
with `ring_capacity = 840000`; for `VideoAudioDelay ≤ 0` this is the formula
with `T`. -/
theorem AlsaSetup_StartThreshold_eq (period_bytes R C T V : Int)
    (hp : 0 ≤ period_bytes ∧ period_bytes < 2 ^ 32) (hR : 0 < R) (hC : 0 < C) (hT : 0 < T)
    (hfit : R * C * 2 * (if V > 0 then T + V / 90 else T) < 2 ^ 31) :
    AlsaSetup_StartThreshold period_bytes R C T V
      = some (min (max period_bytes.toNat
          ((R * C * 2 * (if V > 0 then T + V / 90 else T)).toNat / 1000)) (840000 / 3)) ∧
    (V ≤ 0 →
      AlsaSetup_StartThreshold period_bytes R C T V
        = some (min (max period_bytes.toNat ((R * C * 2 * T).toNat / 1000)) (840000 / 3))) := by
  have key : ∀ D : Int, 0 < D → R * C * 2 * D < 2 ^ 31 →
      (if V > 0 then T + V / 90 else T) = D →
      AlsaSetup_StartThreshold period_bytes R C T V
        = some (min (max period_bytes.toNat ((R * C * 2 * D).toNat / 1000)) (840000 / 3)) := by
    intro D hD hfitD hDeq
    have hP : 0 < R * C := mul_pos hR hC
    have h1 : R * C ≤ R * C * 2 * D := by nlinarith
    have h2 : R * C * 2 ≤ R * C * 2 * D := by nlinarith
    have h3 : D ≤ R * C * 2 * D := by nlinarith
    have hr : ¬ (¬ intRange D ∨ ¬ intRange (R * C) ∨ ¬ intRange (R * C * AudioBytesProSample)
        ∨ ¬ intRange (R * C * AudioBytesProSample * D)) := by
      unfold intRange AudioBytesProSample
      omega
    have hu : toUnsigned (R * C * AudioBytesProSample * D) = (R * C * 2 * D).toNat := by
      unfold AudioBytesProSample
      exact toUnsigned_of_range _ (by omega) (by omega)
    unfold AlsaSetup_StartThreshold
    simp only [hDeq]
    rw [if_neg hr, hu, toUnsigned_of_range _ hp.1 hp.2]
    have hsz : AudioRingBufferSize / 3 = 280000 := by decide
    rw [hsz]
    congr 1
    simp only [Nat.min_def, Nat.max_def]
    split_ifs <;> omega
  have hD : 0 < (if V > 0 then T + V / 90 else T) := by
    split
    · omega
    · exact hT
  refine ⟨key _ hD hfit rfl, fun hV => ?_⟩
  have hVn : ¬ V > 0 := by omega
  rw [if_neg hVn] at hfit
  exact key T hT hfit (if_neg hVn)

/-- Witness of C12, amended: 48 kHz stereo, 336 ms, a period of 4096 bytes and
an audio/video delay of 100 ms. -/
theorem AlsaSetup_StartThreshold_eq_witness :
    AlsaSetup_StartThreshold 4096 48000 2 336 9000
      = some (min (max (4096 : Int).toNat
          (((48000 : Int) * 2 * 2 * (if (9000 : Int) > 0 then 336 + 9000 / 90 else 336)).toNat
            / 1000)) (840000 / 3)) :=
  (AlsaSetup_StartThreshold_eq 4096 48000 2 336 9000 (by decide) (by decide) (by decide)
    (by decide) (by decide)).1

/-- C13 as stated fails: the read segment has the valid time stamp 90000 and
the hardware delay is 900, but another segment is queued
(`AudioRingFilled = 1`): `AudioGetDelay` returns 0 and `AudioGetClock`
returns 0, neither `90000 - (900 + 19200*90000/(48000*2*2))` nor `90000`. -/
theorem AudioGetClock_counterexample :
    (exClockState.AudioRing exClockState.AudioRingRead).PTS = 90000 ∧
    (90000 : Int) ≠ AV_NOPTS_VALUE ∧
    AudioGetDelay { exClockState with AudioRingFilled := 1 } 1 900 = some 0 ∧
    AudioGetClock { exClockState with AudioRingFilled := 1 } 1 900 = some 0 ∧
    AudioGetClock { exClockState with AudioRingFilled := 1 } 1 900
      ≠ some (90000 - (900 + 19200 * 90000 / (48000 * 2 * 2))) := by
  decide

/-- C13, amended.  When the read segment has a valid time stamp, the audio is
running, the segment is set up (`HwSampleRate` and the divisor
`HwSampleRate*HwChannels*2` non-zero), no further segment is queued
(`AudioRingFilled = 0`) and the delay, the hardware output delay plus
`buffered_bytes*90000/(HwSampleRate*HwChannels*2)` of the read segment, is
non-zero, `AudioGetClock` returns segment PTS - delay (as `uint64_t`).  When
the time stamp is valid but the audio is not running, the segment is not set
up or a further segment is queued, it returns 0, as it does when the read
segment has no valid time stamp. -/
theorem AudioGetClock_value (st : AudioState) (AudioRunning GetDelay : Int) :
    ((st.AudioRing st.AudioRingRead).PTS ≠ AV_NOPTS_VALUE → AudioRunning ≠ 0 →
      (st.AudioRing st.AudioRingRead).HwSampleRate ≠ 0 → st.AudioRingFilled = 0 →
      ((st.AudioRing st.AudioRingRead).HwSampleRate
        * (st.AudioRing st.AudioRingRead).HwChannels * 2) % 2 ^ 32 ≠ 0 →
      GetDelay + (((st.AudioRing st.AudioRingRead).RingBuffer * 90 * 1000
        / (((st.AudioRing st.AudioRingRead).HwSampleRate
          * (st.AudioRing st.AudioRingRead).HwChannels * 2) % 2 ^ 32) : Nat) : Int) ≠ 0 →
      AudioGetClock st AudioRunning GetDelay
        = some (((st.AudioRing st.AudioRingRead).PTS
            - (GetDelay + (((st.AudioRing st.AudioRingRead).RingBuffer * 90 * 1000
              / (((st.AudioRing st.AudioRingRead).HwSampleRate
                * (st.AudioRing st.AudioRingRead).HwChannels * 2) % 2 ^ 32) : Nat) : Int)))
            % 2 ^ 64).toNat) ∧
    ((st.AudioRing st.AudioRingRead).PTS ≠ AV_NOPTS_VALUE →
      (AudioRunning = 0 ∨ (st.AudioRing st.AudioRingRead).HwSampleRate = 0
        ∨ st.AudioRingFilled ≠ 0) →
      AudioGetClock st AudioRunning GetDelay = some 0) ∧
    ((st.AudioRing st.AudioRingRead).PTS = AV_NOPTS_VALUE →
      AudioGetClock st AudioRunning GetDelay = some 0) := by
  refine ⟨fun hpts hrun hrate hfill hdiv hdelay => ?_, fun hpts hz => ?_, fun hpts => ?_⟩
  · unfold AudioGetClock AudioGetDelay
    rw [if_pos hpts, if_neg hrun, if_neg hrate, if_neg (by simp [hfill])]
    simp only [if_neg hdiv, if_pos hdelay]
    congr 3
    omega
  · unfold AudioGetClock AudioGetDelay
    rw [if_pos hpts]
    rcases hz with h | h | h
    · rw [if_pos h]; rfl
    · by_cases hr : AudioRunning = 0
      · rw [if_pos hr]; rfl
      · rw [if_neg hr, if_pos h]; rfl
    · by_cases hr : AudioRunning = 0
      · rw [if_pos hr]; rfl
      · by_cases hs : (st.AudioRing st.AudioRingRead).HwSampleRate = 0
        · rw [if_neg hr, if_pos hs]; rfl
        · rw [if_neg hr, if_neg hs, if_pos h]; rfl
  · unfold AudioGetClock
    rw [if_neg (by simp [hpts])]

/-- Witness of C13, amended: the running state with 19200 buffered bytes and
a hardware delay of 900, and the same state while not running. -/
theorem AudioGetClock_value_witness :
    AudioGetClock exClockState 1 900 = some 80100 ∧
    AudioGetClock exClockState 0 900 = some 0 :=
  ⟨(AudioGetClock_value exClockState 1 900).1 (by decide) (by decide) (by decide) (by decide)
      (by decide) (by decide),
    (AudioGetClock_value exClockState 0 900).2.1 (by decide) (Or.inl rfl)⟩

/-- A packet of `TsDemuxer` with an adaptation field only is counted and
skipped. -/
theorem TsDemuxer_loop_skip (data : Bytes) (fuel : Nat) (ctx : AudioDemuxState) (p : Nat)
    (size : Int) (hsize : size ≥ TS_PACKET_SIZE) (h0 : rd data p = TS_PACKET_SYNC)
    (h1 : rd data (p + 1) &&& 0x80 = 0) (h3 : rd data (p + 3) &&& 0x30 = 0x20) :
    TsDemuxer_loop data (fuel + 1) ctx p size
      = TsDemuxer_loop data fuel { ctx with Packets := ctx.Packets + 1 } (p + 188)
          (size - TS_PACKET_SIZE) := by
  conv_lhs => unfold TsDemuxer_loop
  simp only [if_pos hsize, h0, h1, h3, ne_eq, not_true_eq_false, if_false]
  rfl

/-- A run of `k` packets with an adaptation field only is counted and
skipped. -/
theorem TsDemuxer_loop_skips (data : Bytes) (k : Nat) :
    ∀ (fuel : Nat) (ctx : AudioDemuxState) (j : Nat) (size : Int),
      size ≥ TS_PACKET_SIZE * k →
      (∀ i, j ≤ i → i < j + k → rd data (188 * i) = TS_PACKET_SYNC ∧
        rd data (188 * i + 1) &&& 0x80 = 0 ∧ rd data (188 * i + 3) &&& 0x30 = 0x20) →
      TsDemuxer_loop data (fuel + k) ctx (188 * j) size
        = TsDemuxer_loop data fuel { ctx with Packets := ctx.Packets + k } (188 * (j + k))
            (size - TS_PACKET_SIZE * k) := by
  induction k with
  | zero =>
    intro fuel ctx j size _ _
    simp only [Nat.add_zero, Nat.cast_zero, Int.add_zero, Int.mul_zero, Int.sub_zero]
  | succ k ih =>
    intro fuel ctx j size hsize hskip
    have hj := hskip j (Nat.le_refl j) (by omega)
    have hs : size ≥ TS_PACKET_SIZE := by
      unfold TS_PACKET_SIZE at hsize ⊢
      push_cast at hsize
      omega
    rw [show fuel + (k + 1) = (fuel + k) + 1 from rfl,
      TsDemuxer_loop_skip data (fuel + k) ctx (188 * j) size hs hj.1 hj.2.1 hj.2.2,
      show 188 * j + 188 = 188 * (j + 1) from by omega,
      ih fuel _ (j + 1) _ (by
        unfold TS_PACKET_SIZE at hsize ⊢
        push_cast at hsize
        omega) (fun i h1 h2 => hskip i (by omega) (by omega))]
    have e1 : j + 1 + k = j + (k + 1) := by omega
    have e2 : size - TS_PACKET_SIZE - TS_PACKET_SIZE * (k : Int)
        = size - TS_PACKET_SIZE * ((k + 1 : Nat) : Int) := by
      push_cast
      ring
    have e3 : ctx.Packets + 1 + (k : Int) = ctx.Packets + ((k + 1 : Nat) : Int) := by
      push_cast
      ring
    rw [e1, e2]
    simp only [e3]

/-- A packet of `TsDemuxer` with payload only goes to `PesParse`. -/
theorem TsDemuxer_loop_payload (data : Bytes) (fuel : Nat) (ctx ctx1 : AudioDemuxState)
    (p : Nat) (size : Int) (hsize : size ≥ TS_PACKET_SIZE) (h0 : rd data p = TS_PACKET_SYNC)
    (h1 : rd data (p + 1) &&& 0x80 = 0) (h3 : rd data (p + 3) &&& 0x30 = 0x10)
    (hp : PesParse { ctx with Packets := ctx.Packets + 1 } (ptrAdd data (p + 4)) 184
      ((rd data (p + 1) &&& 0x40 : Nat) : Int) = some ctx1) :
    TsDemuxer_loop data (fuel + 1) ctx p size
      = TsDemuxer_loop data fuel ctx1 (p + 188) (size - TS_PACKET_SIZE) := by
  conv_lhs => unfold TsDemuxer_loop
  simp only [if_pos hsize, h0, h1, h3, ne_eq, not_true_eq_false, if_false, if_true]
  rw [show TS_PACKET_SIZE - 4 = (184 : Int) from rfl, hp]

/-- A packet of `TsDemuxer` with an adaptation field and payload goes to
`PesParse` behind the adaptation field. -/
theorem TsDemuxer_loop_adaptation (data : Bytes) (fuel : Nat) (ctx ctx1 : AudioDemuxState)
    (p : Nat) (size : Int) (hsize : size ≥ TS_PACKET_SIZE) (h0 : rd data p = TS_PACKET_SYNC)
    (h1 : rd data (p + 1) &&& 0x80 = 0) (h3 : rd data (p + 3) &&& 0x30 = 0x30)
    (hlen : ((5 + rd data (p + 4) : Nat) : Int) < TS_PACKET_SIZE)
    (hp : PesParse { ctx with Packets := ctx.Packets + 1 } (ptrAdd data (p + (5 + rd data (p + 4))))
      (TS_PACKET_SIZE - ((5 + rd data (p + 4) : Nat) : Int))
      ((rd data (p + 1) &&& 0x40 : Nat) : Int) = some ctx1) :
    TsDemuxer_loop data (fuel + 1) ctx p size
      = TsDemuxer_loop data fuel ctx1 (p + 188) (size - TS_PACKET_SIZE) := by
  conv_lhs => unfold TsDemuxer_loop
  simp only [if_pos hsize, h0, h1, h3, ne_eq, not_true_eq_false, if_false, if_true]
  rw [if_neg (by decide), if_neg (by omega), hp]

/-- A turn of the loop of `PesParse` that neither returns nor uses up the
bytes is followed by the next turn. -/
theorem PesParse_loop_step (data : Bytes) (fuel : Nat) (ctx ctx1 : AudioDemuxState)
    (p p1 : Nat) (size size1 : Int)
    (h : PesParse_pass data ctx p size = some (ctx1, p1, size1, false)) (hs : size1 > 0) :
    PesParse_loop data (fuel + 1) ctx p size = PesParse_loop data fuel ctx1 p1 size1 := by
  conv_lhs => unfold PesParse_loop
  rw [h]
  simp only [Bool.false_eq_true, if_false, if_pos hs]

/-- A turn of the loop of `PesParse` that fills the buffer and uses up the
bytes ends the loop with the result of the scan. -/
theorem PesParse_loop_last (data : Bytes) (fuel : Nat) (ctx : AudioDemuxState)
    (o : Option AudioDemuxState) (p p1 : Nat) (size : Int)
    (h : PesParse_pass data ctx p size = o.map fun c => (c, p1, (0 : Int), false)) :
    PesParse_loop data (fuel + 1) ctx p size = o := by
  conv_lhs => unfold PesParse_loop
  rw [h]
  cases o with
  | none => rfl
  | some c => simp only [Option.map_some', Bool.false_eq_true, if_false, gt_iff_lt, lt_self_iff_false]

/-- The turn of `PesParse` in the states `PES_START` and `PES_INIT` when the
chunk fits the buffer: the chunk is appended and the buffer scanned from
`Skip`. -/
theorem PesParse_pass_fill (data : Bytes) (cid : AVCodecID) (apts adts : Int) (st : PesState)
    (hdr : Bytes) (hi hs : Int) (buf : Bytes) (index skip psize : Int) (sc : Nat)
    (pts dts pk : Int) (calls : List AudioCall) (p : Nat) (size : Int)
    (hst : st = PesState.PES_START ∨ st = PesState.PES_INIT)
    (h0 : 0 ≤ size) (hfit : size < psize - index) (hidx : 0 ≤ index) (hskip : 0 ≤ skip) :
    PesParse_pass data
        ⟨cid, apts, adts, ⟨st, hdr, hi, hs, buf, index, skip, psize, sc, pts, dts⟩, pk, calls⟩
        p size
      = (PesParse_scan (index + size - skip).toNat
          ⟨cid, apts, adts,
            ⟨st, hdr, hi, hs, memcpy buf index.toNat data p size.toNat, index + size, skip,
              psize, sc, pts, dts⟩, pk, calls⟩
          skip.toNat (index + size - skip)).map fun c => (c, p + size.toNat, (0 : Int), false) := by
  have hn : psize - index > size := hfit
  rcases hst with h | h
  · subst h
    simp only [PesParse_pass, if_pos hn, if_neg (show ¬ (size < 0 ∨ index < 0) by omega),
      if_neg (show ¬ skip < 0 by omega), sub_self]
  · subst h
    simp only [PesParse_pass, if_pos hn, if_neg (show ¬ (size < 0 ∨ index < 0) by omega),
      if_neg (show ¬ skip < 0 by omega), sub_self]

/-- A call of `PesParse` without start flag in the states `PES_START` and
`PES_INIT` when the chunk fits the buffer: the chunk is appended and the
buffer scanned from `Skip`. -/
theorem PesParse_fill (data : Bytes) (cid : AVCodecID) (apts adts : Int) (st : PesState)
    (hdr : Bytes) (hi hs : Int) (buf : Bytes) (index skip psize : Int) (sc : Nat)
    (pts dts pk : Int) (calls : List AudioCall) (size : Int)
    (hst : st = PesState.PES_START ∨ st = PesState.PES_INIT)
    (h0 : 0 ≤ size) (hfit : size < psize - index) (hidx : 0 ≤ index) (hskip : 0 ≤ skip)
    (hcruft : skip ≤ PES_MAX_PAYLOAD / 2) :
    PesParse
        ⟨cid, apts, adts, ⟨st, hdr, hi, hs, buf, index, skip, psize, sc, pts, dts⟩, pk, calls⟩
        data size 0
      = PesParse_scan (index + size - skip).toNat
          ⟨cid, apts, adts,
            ⟨st, hdr, hi, hs, memcpy buf index.toNat data 0 size.toNat, index + size, skip,
              psize, sc, pts, dts⟩, pk, calls⟩
          skip.toNat (index + size - skip) := by
  unfold PesParse
  simp only [ne_eq, not_true_eq_false, if_false, Option.some_bind,
    if_neg (show ¬ skip > PES_MAX_PAYLOAD / 2 by omega)]
  exact PesParse_loop_last _ _ _ _ _ _ _
    (PesParse_pass_fill data cid apts adts st hdr hi hs buf index skip psize sc pts dts pk calls
      0 size hst h0 hfit hidx hskip)

/-- The scan loop of `PesParse` stops when the cascade asks for more
bytes. -/
theorem PesParse_scan_need_more (fuel : Nat) (ctx : AudioDemuxState) (q : Nat) (n r : Int)
    (c : AVCodecID) (hn : n ≥ 5)
    (hs : PesParse_sniff (ptrAdd ctx.PesDemuxAudio.Buffer q) n = some (r, c)) (hr : r < 0) :
    PesParse_scan (fuel + 1) ctx q n = some ctx := by
  unfold PesParse_scan
  rw [if_pos hn, hs]
  simp only [if_pos hr]

/-- The scan loop of `PesParse` decodes a confirmed frame and stops. -/
theorem PesParse_scan_confirmed (fuel : Nat) (ctx : AudioDemuxState) (q : Nat) (n r : Int)
    (c : AVCodecID) (hn : n ≥ 5)
    (hs : PesParse_sniff (ptrAdd ctx.PesDemuxAudio.Buffer q) n = some (r, c)) (hr : 0 < r) :
    PesParse_scan (fuel + 1) ctx q n = some (PesParse_emit ctx q r c) := by
  unfold PesParse_scan
  rw [if_pos hn, hs]
  simp only [if_neg (show ¬ r < 0 by omega), if_pos hr]

/-- The cascade of `PesParse` on a window that starts like a valid AC-3
frame: it asks for more bytes while the frame and the 5 bytes behind it are
not in the window, and confirms the frame when they are and the next sync
word follows. -/
theorem PesParse_sniff_ac3 (w frame : Bytes) (n : Int) (hn : 5 ≤ n)
    (hagree : ∀ k, k < 6 → w k = frame k)
    (hv : Ac3HeaderValid frame 5) (hac3 : rd frame 5 ≤ 10 <<< 3) :
    ((Ac3Check_frame_size frame : Int) + 5 > n →
      PesParse_sniff w n = some (-(Ac3Check_frame_size frame : Int) - 5, AVCodecID.AC3)) ∧
    ((Ac3Check_frame_size frame : Int) + 5 ≤ n → 0 < Ac3Check_frame_size frame →
      FastAc3Check (ptrAdd w (Ac3Check_frame_size frame)) = true →
      PesParse_sniff w n = some ((Ac3Check_frame_size frame : Int), AVCodecID.AC3)) := by
  have h0 : rd w 0 = rd frame 0 := by unfold rd; rw [hagree 0 (by omega)]
  have h1 : rd w 1 = rd frame 1 := by unfold rd; rw [hagree 1 (by omega)]
  have h2 : rd w 2 = rd frame 2 := by unfold rd; rw [hagree 2 (by omega)]
  have h3 : rd w 3 = rd frame 3 := by unfold rd; rw [hagree 3 (by omega)]
  have h4 : rd w 4 = rd frame 4 := by unfold rd; rw [hagree 4 (by omega)]
  have h5 : rd w 5 = rd frame 5 := by unfold rd; rw [hagree 5 (by omega)]
  have hfast : FastAc3Check w = FastAc3Check frame := by
    unfold FastAc3Check
    rw [h0, h1]
  have hvw : Ac3HeaderValid w n := by
    unfold Ac3HeaderValid at hv ⊢
    rw [hfast, h4, h5]
    exact ⟨hn, hv.2⟩
  have hL : Ac3Check_frame_size w = Ac3Check_frame_size frame := by
    unfold Ac3Check_frame_size Ac3Check_eac3_frame_size Ac3Check_ac3_frame_size
    rw [h2, h3, h4, h5]
  have hw0 : rd w 0 = 0x0B := by
    have hf := hv.2.1
    unfold FastAc3Check at hf
    rw [h0]
    by_contra hne
    rw [if_pos hne] at hf
    exact absurd hf (by decide)
  have hmpeg : FastMpegCheck w = false := by
    unfold FastMpegCheck
    rw [if_pos (by rw [hw0]; decide)]
  have hfw : FastAc3Check w = true := by rw [hfast]; exact hv.2.1
  have h5w : ¬ rd w 5 > 10 <<< 3 := by rw [h5]; omega
  have hchk := Ac3Check_eq w n hvw
  rw [hL] at hchk
  constructor
  · intro hgt
    rw [if_pos hgt] at hchk
    unfold PesParse_sniff
    simp only [hmpeg, hfw, hchk, CResult.toOption, Bool.false_eq_true, if_false, Option.some_bind,
      and_self, if_true, Option.map_some', h5w, and_false]
    rw [if_neg (by omega), Option.some_bind, if_neg (by omega)]
  · intro hle hpos hnext
    rw [if_neg (by omega), hnext, if_pos rfl] at hchk
    unfold PesParse_sniff
    simp only [hmpeg, hfw, hchk, CResult.toOption, Bool.false_eq_true, if_false, Option.some_bind,
      and_self, if_true, Option.map_some', h5w, and_false]
    rw [if_neg (by omega), Option.some_bind, if_neg (by omega)]

/-- Every packet of `exTsStream` starts with the sync byte. -/
theorem exTsStream_sync (pes : Bytes) (last j : Nat) :
    rd (exTsStream pes last) (188 * j) = TS_PACKET_SYNC := by
  unfold rd exTsStream
  rw [if_pos (Nat.mul_mod_right 188 j)]
  rfl

/-- The packets of `exTsStream` other than the third to the fifth hold an
adaptation field only. -/
theorem exTsStream_skip (pes : Bytes) (last j : Nat) (hj : j ≠ 2 ∧ j ≠ 3 ∧ j ≠ 4) :
    rd (exTsStream pes last) (188 * j + 1) &&& 0x80 = 0 ∧
    rd (exTsStream pes last) (188 * j + 3) &&& 0x30 = 0x20 := by
  have m1 : (188 * j + 1) % 188 = 1 := by omega
  have d1 : (188 * j + 1) / 188 = j := by omega
  have m3 : (188 * j + 3) % 188 = 3 := by omega
  have d3 : (188 * j + 3) / 188 = j := by omega
  obtain ⟨hj2, hj3, hj4⟩ := hj
  have hor : ¬ (j = 2 ∨ j = 3) := fun h => h.elim hj2 hj3
  unfold rd exTsStream
  rw [m1, d1, m3, d3]
  simp only [if_neg hor, if_neg hj4]
  decide

/-- The payload of the third packet of `exTsStream`. -/
theorem exTsStream_payload3 (pes : Bytes) (last i : Nat) (hi : i < 184) :
    exTsStream pes last (380 + i) = pes i := by
  have m : (380 + i) % 188 = 4 + i := by omega
  have d : (380 + i) / 188 = 2 := by omega
  unfold exTsStream
  rw [m, d, if_neg (show ¬ 4 + i = 0 by omega), if_pos (show 2 = 2 ∨ 2 = 3 from (Or.inl rfl)),
    if_neg (show ¬ 4 + i = 1 by omega), if_neg (show ¬ 4 + i = 2 by omega),
    if_neg (show ¬ 4 + i = 3 by omega)]
  congr 1
  omega

/-- The payload of the fourth packet of `exTsStream`. -/
theorem exTsStream_payload4 (pes : Bytes) (last i : Nat) (hi : i < 184) :
    exTsStream pes last (568 + i) = pes (184 + i) := by
  have m : (568 + i) % 188 = 4 + i := by omega
  have d : (568 + i) / 188 = 3 := by omega
  unfold exTsStream
  rw [m, d, if_neg (show ¬ 4 + i = 0 by omega), if_pos (show 3 = 2 ∨ 3 = 3 from (Or.inr rfl)),
    if_neg (show ¬ 4 + i = 1 by omega), if_neg (show ¬ 4 + i = 2 by omega),
    if_neg (show ¬ 4 + i = 3 by omega)]
  congr 1
  omega

/-- The payload of the fifth packet of `exTsStream`. -/
theorem exTsStream_payload5 (pes : Bytes) (last i : Nat) (hlast : last ≤ 182) (hi : i < last) :
    exTsStream pes last (752 + (188 - last) + i) = pes (368 + i) := by
  have m : (752 + (188 - last) + i) % 188 = 188 - last + i := by omega
  have d : (752 + (188 - last) + i) / 188 = 4 := by omega
  unfold exTsStream
  rw [m, d, if_neg (show ¬ 188 - last + i = 0 by omega),
    if_neg (show ¬ (4 = 2 ∨ 4 = 3) by decide), if_pos (show 4 = 4 from rfl),
    if_neg (show ¬ 188 - last + i = 1 by omega), if_neg (show ¬ 188 - last + i = 2 by omega),
    if_neg (show ¬ 188 - last + i = 3 by omega), if_neg (show ¬ 188 - last + i = 4 by omega),
    if_neg (show ¬ 188 - last + i = 5 by omega),
    if_neg (show ¬ 188 - last + i < 188 - last by omega)]
  congr 1
  omega

/-- The head of the fifth packet of `exTsStream`: no error, no start, an
adaptation field of `183 - last` bytes and payload. -/
theorem exTsStream_adaptation (pes : Bytes) (last : Nat) (hlast : last ≤ 182) :
    rd (exTsStream pes last) (752 + 1) = 0 ∧ rd (exTsStream pes last) (752 + 3) = 0x30 ∧
    rd (exTsStream pes last) (752 + 4) = 183 - last := by
  refine ⟨rfl, rfl, ?_⟩
  show (183 - last) % 256 = 183 - last
  omega

/-- Reading behind a `memcpy`. -/
theorem memcpy_apply (dst : Bytes) (d : Nat) (src : Bytes) (s n i : Nat) :
    memcpy dst d src s n i = if d ≤ i ∧ i < d + n then src (s + (i - d)) else dst i := rfl

/-- Reading a byte that a `memcpy` wrote. -/
theorem rd_memcpy_in (dst : Bytes) (d : Nat) (src : Bytes) (s n i : Nat)
    (h : d ≤ i ∧ i < d + n) : rd (memcpy dst d src s n) i = rd src (s + (i - d)) := by
  unfold rd
  rw [memcpy_apply, if_pos h]

/-- Reading a byte that a `memcpy` left. -/
theorem rd_memcpy_out (dst : Bytes) (d : Nat) (src : Bytes) (s n i : Nat)
    (h : ¬ (d ≤ i ∧ i < d + n)) : rd (memcpy dst d src s n) i = rd dst i := by
  unfold rd
  rw [memcpy_apply, if_neg h]

/-- The turn of `PesParse` in the state `PES_SYNC` at the start of a chunk
that begins with the start code prefix 00 00 01. -/
theorem PesParse_pass_sync (data : Bytes) (cid : AVCodecID) (apts adts : Int) (hdr : Bytes)
    (hs : Int) (buf : Bytes) (index skip psize : Int) (sc : Nat) (pts dts pk : Int)
    (calls : List AudioCall) (size : Int) (hsize : 6 ≤ size)
    (h0 : rd data 0 = 0) (h1 : rd data 1 = 0) (h2 : rd data 2 = 0x01) :
    PesParse_pass data
        ⟨cid, apts, adts, ⟨PesState.PES_SYNC, hdr, 0, hs, buf, index, skip, psize, sc, pts, dts⟩,
          pk, calls⟩ 0 size
      = some (⟨cid, apts, adts,
          ⟨PesState.PES_HEADER, memcpy hdr 0 data 0 6, 6, 9, buf, index, skip, psize, rd data 3,
            pts, dts⟩, pk, calls⟩, 6, size - 6, false) := by
  have r0 : rd (memcpy hdr 0 data 0 6) 0 = 0 := by
    rw [rd_memcpy_in _ _ _ _ _ _ (by omega)]; exact h0
  have r1 : rd (memcpy hdr 0 data 0 6) 1 = 0 := by
    rw [rd_memcpy_in _ _ _ _ _ _ (by omega)]; exact h1
  have r2 : rd (memcpy hdr 0 data 0 6) 2 = 1 := by
    rw [rd_memcpy_in _ _ _ _ _ _ (by omega)]; exact h2
  have r3 : rd (memcpy hdr 0 data 0 6) 3 = rd data 3 := by
    rw [rd_memcpy_in _ _ _ _ _ _ (by omega)]
  have hn : ¬ (6 > size) := by omega
  have e6 : (6 : Int).toNat = 6 := rfl
  have e0 : (0 : Int).toNat = 0 := rfl
  by_cases hsc : rd data 3 = sc
  · subst hsc
    simp +decide only [PesParse_pass, PES_START_CODE_SIZE, PES_MAX_HEADER_SIZE, PES_HEADER_SIZE,
      sub_zero, zero_add, hn, if_false, if_true, e6, e0, r0, r1, r2, r3, ne_eq, not_true_eq_false,
      or_self]
  · simp +decide only [PesParse_pass, PES_START_CODE_SIZE, PES_MAX_HEADER_SIZE, PES_HEADER_SIZE,
      sub_zero, zero_add, hn, if_false, if_true, e6, e0, r0, r1, r2, r3, ne_eq, not_true_eq_false,
      or_self, hsc, not_false_eq_true]

/-- The turn of `PesParse` in the state `PES_HEADER` that completes the 9
fixed header bytes of an MPEG-2 PES packet with 5 further header bytes. -/
theorem PesParse_pass_header_fixed (data : Bytes) (cid : AVCodecID) (apts adts : Int)
    (hdr buf : Bytes) (index skip psize : Int) (sc : Nat) (pts dts pk : Int)
    (calls : List AudioCall) (size : Int) (hsize : 3 ≤ size)
    (h6 : rd data 6 &&& 0xC0 = 0x80) (h8 : rd data 8 = 5) :
    PesParse_pass data
        ⟨cid, apts, adts, ⟨PesState.PES_HEADER, hdr, 6, 9, buf, index, skip, psize, sc, pts, dts⟩,
          pk, calls⟩ 6 size
      = some (⟨cid, apts, adts,
          ⟨PesState.PES_HEADER, memcpy hdr 6 data 6 3, 9, 14, buf, index, skip, psize, sc,
            pts, dts⟩, pk, calls⟩, 9, size - 3, false) := by
  have r6 : rd (memcpy hdr 6 data 6 3) 6 &&& 0xC0 = 0x80 := by
    rw [rd_memcpy_in _ _ _ _ _ _ (by omega)]; exact h6
  have r8 : rd (memcpy hdr 6 data 6 3) 8 = 5 := by
    rw [rd_memcpy_in _ _ _ _ _ _ (by omega)]; exact h8
  have hn : ¬ (3 > size) := by omega
  have e3 : (3 : Int).toNat = 3 := rfl
  have e6 : (6 : Int).toNat = 6 := rfl
  simp +decide only [PesParse_pass, PES_MAX_HEADER_SIZE, PES_HEADER_SIZE, hn, if_false, if_true,
    e3, e6, r6, r8, ne_eq, not_true_eq_false, Int.reduceSub, Int.reduceAdd, Nat.reduceAdd,
    Nat.cast_ofNat]

/-- The turn of `PesParse` in the state `PES_HEADER` that completes a header
of 14 bytes with the PTS flag, for private stream 1: the PTS is decoded from
the bytes 9..13 of the chunk. -/
theorem PesParse_pass_header_pts (data : Bytes) (cid : AVCodecID) (apts adts : Int)
    (hdr buf : Bytes) (index skip psize : Int) (pts dts pk : Int)
    (calls : List AudioCall) (size : Int) (hsize : 5 ≤ size)
    (h7 : rd hdr 7 &&& 0xC0 = 0x80) :
    PesParse_pass data
        ⟨cid, apts, adts,
          ⟨PesState.PES_HEADER, hdr, 9, 14, buf, index, skip, psize, PES_PRIVATE_STREAM1, pts,
            dts⟩, pk, calls⟩ 9 size
      = some (⟨cid, apts, adts,
          ⟨PesState.PES_START, memcpy hdr 9 data 9 5, 14, 14, buf, index, skip, psize,
            PES_PRIVATE_STREAM1, PesTimestamp data 9, AV_NOPTS_VALUE⟩, pk, calls⟩,
          14, size - 5, false) := by
  have r7 : rd (memcpy hdr 9 data 9 5) 7 &&& 0xC0 = 0x80 := by
    rw [rd_memcpy_out _ _ _ _ _ _ (by omega)]; exact h7
  have hn : ¬ (5 > size) := by omega
  have e5 : (5 : Int).toNat = 5 := rfl
  have e9 : (9 : Int).toNat = 9 := rfl
  simp +decide only [PesParse_pass, PesParse_empty_header, PES_MAX_HEADER_SIZE, PES_HEADER_SIZE,
    hn, if_false, if_true, e5, e9, r7, ne_eq, not_true_eq_false, Int.reduceSub, Int.reduceAdd,
    Nat.reduceAdd]

/-- Two windows that hold the same bytes give the same list. -/
theorem bytesFrom_congr (a b : Bytes) (o o1 : Nat) (len : Int)
    (h : ∀ i, i < len.toNat → a (o + i) = b (o1 + i)) : bytesFrom a o len = bytesFrom b o1 len := by
  unfold bytesFrom
  exact List.map_congr_left (fun i hi => h i (List.mem_range.1 hi))

/-- The payload of the third packet of the stream behind the PES header. -/
theorem exTsStream_chunk1 (frame : Bytes) (last k : Nat) (hk : k < 170) :
    ptrAdd (exTsStream (exPesAc3 frame) last) 380 (14 + k) = frame k := by
  unfold ptrAdd
  rw [exTsStream_payload3 _ _ _ (by omega)]
  unfold exPesAc3
  rw [if_neg (by omega)]
  congr 1
  omega

/-- The payload of the fourth packet of the stream. -/
theorem exTsStream_chunk2 (frame : Bytes) (last k : Nat) (hk : k < 184) :
    ptrAdd (exTsStream (exPesAc3 frame) last) 568 k = frame (170 + k) := by
  unfold ptrAdd
  rw [exTsStream_payload4 _ _ _ hk]
  unfold exPesAc3
  rw [if_neg (by omega)]
  congr 1
  omega

/-- The payload of the fifth packet of the stream. -/
theorem exTsStream_chunk3 (frame : Bytes) (last k : Nat) (hlast : last ≤ 182) (hk : k < last) :
    ptrAdd (exTsStream (exPesAc3 frame) last) (752 + (188 - last)) k = frame (354 + k) := by
  unfold ptrAdd
  rw [exTsStream_payload5 _ _ _ hlast hk]
  unfold exPesAc3
  rw [if_neg (by omega)]
  congr 1
  omega

/-- A buffer that holds the first `n` bytes of a frame holds the first
`n + m` bytes when the next `m` bytes are copied behind them. -/
theorem memcpy_frame (buf data frame : Bytes) (n s m : Nat)
    (hbuf : ∀ k, k < n → buf k = frame k) (hdata : ∀ k, k < m → data (s + k) = frame (n + k))
    (k : Nat) (hk : k < n + m) : memcpy buf n data s m k = frame k := by
  rw [memcpy_apply]
  by_cases h : n ≤ k
  · rw [if_pos ⟨h, hk⟩, hdata _ (by omega)]
    congr 1
    omega
  · rw [if_neg (fun hc => h hc.1)]
    exact hbuf k (by omega)

/-- The PES header at the start of the payload of the third packet. -/
theorem exTsStream_header (frame : Bytes) (last : Nat) :
    rd (ptrAdd (exTsStream (exPesAc3 frame) last) 380) 0 = 0 ∧
    rd (ptrAdd (exTsStream (exPesAc3 frame) last) 380) 1 = 0 ∧
    rd (ptrAdd (exTsStream (exPesAc3 frame) last) 380) 2 = 1 ∧
    rd (ptrAdd (exTsStream (exPesAc3 frame) last) 380) 3 = 0xBD ∧
    rd (ptrAdd (exTsStream (exPesAc3 frame) last) 380) 6 = 0x80 ∧
    rd (ptrAdd (exTsStream (exPesAc3 frame) last) 380) 7 = 0x80 ∧
    rd (ptrAdd (exTsStream (exPesAc3 frame) last) 380) 8 = 5 ∧
    PesTimestamp (ptrAdd (exTsStream (exPesAc3 frame) last) 380) 9 = 65537 := by
  have d9 : rd (ptrAdd (exTsStream (exPesAc3 frame) last) 380) 9 = 0x21 := rfl
  have d10 : rd (ptrAdd (exTsStream (exPesAc3 frame) last) 380) (9 + 1) = 0x00 := rfl
  have d11 : rd (ptrAdd (exTsStream (exPesAc3 frame) last) 380) (9 + 2) = 0x05 := rfl
  have d12 : rd (ptrAdd (exTsStream (exPesAc3 frame) last) 380) (9 + 3) = 0x00 := rfl
  have d13 : rd (ptrAdd (exTsStream (exPesAc3 frame) last) 380) (9 + 4) = 0x03 := rfl
  refine ⟨rfl, rfl, rfl, rfl, rfl, rfl, rfl, ?_⟩
  unfold PesTimestamp
  rw [d9, d10, d11, d12, d13]
  decide

/-- A call of `PesParse` with the start flag on an empty buffer: the state
becomes `PES_SYNC`, the time stamps are cleared and the loop starts. -/
theorem PesParse_start (data : Bytes) (cid : AVCodecID) (apts adts : Int) (st : PesState)
    (hdr : Bytes) (hi hs : Int) (buf : Bytes) (psize : Int) (sc : Nat) (pts dts pk : Int)
    (calls : List AudioCall) (size is_start : Int) (hstart : is_start ≠ 0) :
    PesParse ⟨cid, apts, adts, ⟨st, hdr, hi, hs, buf, 0, 0, psize, sc, pts, dts⟩, pk, calls⟩
        data size is_start
      = PesParse_loop data (size.toNat + 1)
          ⟨cid, apts, adts,
            ⟨PesState.PES_SYNC, hdr, 0, hs, buf, 0, 0, psize, sc, AV_NOPTS_VALUE,
              AV_NOPTS_VALUE⟩, pk, calls⟩ 0 size := by
  unfold PesParse
  simp +decide only [hstart, ne_eq, not_false_eq_true, if_true, if_false, not_true_eq_false,
    false_and, PES_MAX_PAYLOAD, Option.map_some', Option.some_bind]

/-- A chunk of 184 bytes with the start flag, on the initial demuxer, that
begins with the PES header of 14 bytes of a packet of private stream 1 with
PTS, followed by the start of a valid AC-3 frame that is longer than the
chunk: the header is read, the PTS latched, the 170 bytes behind the header
are put into the payload buffer, and the cascade asks for more bytes. -/
theorem PesParse_ac3_start (data frame : Bytes) (cid : AVCodecID) (apts adts pk : Int)
    (calls : List AudioCall)
    (h0 : rd data 0 = 0) (h1 : rd data 1 = 0) (h2 : rd data 2 = 0x01)
    (h3 : rd data 3 = PES_PRIVATE_STREAM1) (h6 : rd data 6 &&& 0xC0 = 0x80)
    (h7 : rd data 7 &&& 0xC0 = 0x80) (h8 : rd data 8 = 5)
    (hframe : ∀ k, k < 170 → data (14 + k) = frame k)
    (hv : Ac3HeaderValid frame 5) (hac3 : rd frame 5 ≤ 10 <<< 3)
    (hL : 170 < Ac3Check_frame_size frame + 5) :
    PesParse ⟨cid, apts, adts, PesInit, pk, calls⟩ data 184 64
      = some ⟨cid, apts, adts,
          ⟨PesState.PES_START,
            memcpy (memcpy (memcpy (fun _ => 0) 0 data 0 6) 6 data 6 3) 9 data 9 5, 14, 14,
            memcpy (fun _ => 0) 0 data 14 170, 170, 0, PES_MAX_PAYLOAD, PES_PRIVATE_STREAM1,
            PesTimestamp data 9, AV_NOPTS_VALUE⟩, pk, calls⟩ := by
  have r7 : rd (memcpy (memcpy (fun _ => 0) 0 data 0 6) 6 data 6 3) 7 &&& 0xC0 = 0x80 := by
    rw [rd_memcpy_in _ _ _ _ _ _ (by omega)]
    exact h7
  have e0 := PesParse_start data cid apts adts PesState.PES_INIT (fun _ => 0) 0 0 (fun _ => 0)
    PES_MAX_PAYLOAD 0xFF AV_NOPTS_VALUE AV_NOPTS_VALUE pk calls 184 64 (by decide)
  have e1 := PesParse_pass_sync data cid apts adts (fun _ => 0) 0 (fun _ => 0) 0 0
    PES_MAX_PAYLOAD 0xFF AV_NOPTS_VALUE AV_NOPTS_VALUE pk calls 184 (by decide) h0 h1 h2
  rw [h3] at e1
  have e2 := PesParse_pass_header_fixed data cid apts adts (memcpy (fun _ => 0) 0 data 0 6)
    (fun _ => 0) 0 0 PES_MAX_PAYLOAD PES_PRIVATE_STREAM1 AV_NOPTS_VALUE AV_NOPTS_VALUE pk calls
    178 (by decide) h6 h8
  have e3 := PesParse_pass_header_pts data cid apts adts
    (memcpy (memcpy (fun _ => 0) 0 data 0 6) 6 data 6 3) (fun _ => 0) 0 0 PES_MAX_PAYLOAD
    AV_NOPTS_VALUE AV_NOPTS_VALUE pk calls 175 (by decide) r7
  have e4 := PesParse_pass_fill data cid apts adts PesState.PES_START
    (memcpy (memcpy (memcpy (fun _ => 0) 0 data 0 6) 6 data 6 3) 9 data 9 5) 14 14
    (fun _ => 0) 0 0 PES_MAX_PAYLOAD PES_PRIVATE_STREAM1 (PesTimestamp data 9) AV_NOPTS_VALUE
    pk calls 14 170 (Or.inl rfl) (by decide) (by decide) (by decide) (by decide)
  have hag : ∀ k, k < 6 → ptrAdd (memcpy (fun _ => 0) 0 data 14 170) 0 k = frame k := by
    intro k hk
    unfold ptrAdd
    rw [Nat.zero_add]
    exact memcpy_frame (fun _ => 0) data frame 0 14 170 (fun k hk => absurd hk (by omega))
      (fun k hk => by rw [Nat.zero_add]; exact hframe k hk) k (by omega)
  have hscan := PesParse_scan_need_more 169
    ⟨cid, apts, adts,
      ⟨PesState.PES_START,
        memcpy (memcpy (memcpy (fun _ => 0) 0 data 0 6) 6 data 6 3) 9 data 9 5, 14, 14,
        memcpy (fun _ => 0) 0 data 14 170, 170, 0, PES_MAX_PAYLOAD, PES_PRIVATE_STREAM1,
        PesTimestamp data 9, AV_NOPTS_VALUE⟩, pk, calls⟩
    0 170 _ AVCodecID.AC3 (by decide)
    ((PesParse_sniff_ac3 _ frame 170 (by decide) hag hv hac3).1 (by omega))
    (by omega)
  have e5 := PesParse_loop_last _ 181 _ _ _ _ _ e4
  have e6 := PesParse_loop_step _ 182 _ _ _ _ _ _ e3 (by decide)
  have e7 := PesParse_loop_step _ 183 _ _ _ _ _ _ e2 (by decide)
  have e8 := PesParse_loop_step _ 184 _ _ _ _ _ _ e1 (by decide)
  exact e0.trans (e8.trans (e7.trans (e6.trans (e5.trans hscan))))

/-- The fast AC-3 check reads the first two bytes only. -/
theorem FastAc3Check_congr (w v : Bytes) (h0 : w 0 = v 0) (h1 : w 1 = v 1) :
    FastAc3Check w = FastAc3Check v := by
  unfold FastAc3Check rd
  rw [h0, h1]

/-- A chunk without start flag is appended to a payload buffer that holds
the start of a valid AC-3 frame at offset 0: while the frame and the 5 bytes
behind it are not complete, the cascade asks for more bytes and nothing is
decoded. -/
theorem PesParse_ac3_need_more (data frame : Bytes) (cid : AVCodecID) (apts adts : Int)
    (st : PesState) (hdr : Bytes) (hi hs : Int) (buf : Bytes) (index psize : Int) (sc : Nat)
    (pts dts pk : Int) (calls : List AudioCall) (size : Int)
    (hst : st = PesState.PES_START ∨ st = PesState.PES_INIT)
    (h0 : 0 ≤ size) (hfit : size < psize - index) (hidx : 0 ≤ index) (hn : 5 ≤ index + size)
    (hbuf : ∀ k, k < 6 → memcpy buf index.toNat data 0 size.toNat k = frame k)
    (hv : Ac3HeaderValid frame 5) (hac3 : rd frame 5 ≤ 10 <<< 3)
    (hL : index + size < (Ac3Check_frame_size frame : Int) + 5) :
    PesParse
        ⟨cid, apts, adts, ⟨st, hdr, hi, hs, buf, index, 0, psize, sc, pts, dts⟩, pk, calls⟩
        data size 0
      = some ⟨cid, apts, adts,
          ⟨st, hdr, hi, hs, memcpy buf index.toNat data 0 size.toNat, index + size, 0, psize,
            sc, pts, dts⟩, pk, calls⟩ := by
  have e1 := PesParse_fill data cid apts adts st hdr hi hs buf index 0 psize sc pts dts pk calls
    size hst h0 hfit hidx (by decide) (by decide)
  obtain ⟨f, hf⟩ : ∃ f, (index + size - 0).toNat = f + 1 := ⟨(index + size - 0).toNat - 1, by omega⟩
  have e00 : (0 : Int).toNat = 0 := rfl
  rw [hf, e00, sub_zero] at e1
  have hag : ∀ k, k < 6 → ptrAdd (memcpy buf index.toNat data 0 size.toNat) 0 k = frame k := by
    intro k hk
    unfold ptrAdd
    rw [Nat.zero_add]
    exact hbuf k hk
  exact e1.trans (PesParse_scan_need_more f _ 0 (index + size) _ AVCodecID.AC3 hn
    ((PesParse_sniff_ac3 _ frame (index + size) hn hag hv hac3).1 (by omega)) (by omega))

/-- A chunk without start flag is appended to a payload buffer that holds
the start of a valid AC-3 frame at offset 0: when the frame and the 5 bytes
behind it are complete and the sync word of a next frame follows, the frame
is decoded, behind close and open(AC-3) when another codec was current, and
`Skip` moves behind the frame. -/
theorem PesParse_ac3_confirmed (data frame : Bytes) (cid : AVCodecID) (apts adts : Int)
    (st : PesState) (hdr : Bytes) (hi hs : Int) (buf : Bytes) (index psize : Int) (sc : Nat)
    (pts dts pk : Int) (calls : List AudioCall) (size : Int)
    (hst : st = PesState.PES_START ∨ st = PesState.PES_INIT)
    (h0 : 0 ≤ size) (hfit : size < psize - index) (hidx : 0 ≤ index)
    (hbuf : ∀ k, k < (index + size).toNat → memcpy buf index.toNat data 0 size.toNat k = frame k)
    (hv : Ac3HeaderValid frame 5) (hac3 : rd frame 5 ≤ 10 <<< 3)
    (hL : (Ac3Check_frame_size frame : Int) + 5 ≤ index + size)
    (hpos : 0 < Ac3Check_frame_size frame)
    (hnext : FastAc3Check (ptrAdd frame (Ac3Check_frame_size frame)) = true) :
    PesParse
        ⟨cid, apts, adts, ⟨st, hdr, hi, hs, buf, index, 0, psize, sc, pts, dts⟩, pk, calls⟩
        data size 0
      = some ⟨AVCodecID.AC3, apts, adts,
          ⟨st, hdr, hi, hs, memcpy buf index.toNat data 0 size.toNat, index + size,
            0 + (Ac3Check_frame_size frame : Int), psize, sc, AV_NOPTS_VALUE, AV_NOPTS_VALUE⟩,
          pk,
          calls ++ specFrameCalls cid AVCodecID.AC3
            (AudioCall.CodecAudioDecode (Ac3Check_frame_size frame) pts dts
              (bytesFrom frame 0 (Ac3Check_frame_size frame)))⟩ := by
  have e1 := PesParse_fill data cid apts adts st hdr hi hs buf index 0 psize sc pts dts pk calls
    size hst h0 hfit hidx (by decide) (by decide)
  obtain ⟨f, hf⟩ : ∃ f, (index + size - 0).toNat = f + 1 := ⟨(index + size - 0).toNat - 1, by omega⟩
  have e00 : (0 : Int).toNat = 0 := rfl
  rw [hf, e00, sub_zero] at e1
  have hag : ∀ k, k < (index + size).toNat →
      ptrAdd (memcpy buf index.toNat data 0 size.toNat) 0 k = frame k := by
    intro k hk
    unfold ptrAdd
    rw [Nat.zero_add]
    exact hbuf k hk
  have hnx : FastAc3Check (ptrAdd (ptrAdd (memcpy buf index.toNat data 0 size.toNat) 0)
      (Ac3Check_frame_size frame)) = true :=
    (FastAc3Check_congr _ (ptrAdd frame (Ac3Check_frame_size frame))
      (hag (Ac3Check_frame_size frame + 0) (by omega))
      (hag (Ac3Check_frame_size frame + 1) (by omega))).trans hnext
  have hscan := PesParse_scan_confirmed f
    ⟨cid, apts, adts,
      ⟨st, hdr, hi, hs, memcpy buf index.toNat data 0 size.toNat, index + size, 0, psize, sc,
        pts, dts⟩, pk, calls⟩
    0 (index + size) _ AVCodecID.AC3 (by omega)
    ((PesParse_sniff_ac3 _ frame (index + size) (by omega) (fun k hk => hag k (by omega)) hv
      hac3).2 hL hpos hnx)
    (by omega)
  have hb : bytesFrom (memcpy buf index.toNat data 0 size.toNat) 0 (Ac3Check_frame_size frame)
      = bytesFrom frame 0 (Ac3Check_frame_size frame) :=
    bytesFrom_congr _ _ 0 0 _ (fun i hi => by
      rw [Nat.zero_add]
      exact hbuf i (by omega))
  refine e1.trans (hscan.trans (congrArg some ?_))
  unfold PesParse_emit specFrameCalls
  by_cases hc : cid = AVCodecID.AC3
  · subst hc
    simp only [ne_eq, not_true_eq_false, if_false, hb]
  · simp only [ne_eq, hc, not_false_eq_true, if_true, hb, List.append_assoc, List.cons_append,
      List.nil_append]

/-- The loop of `TsDemuxer` ends when less than a packet is left. -/
theorem TsDemuxer_loop_zero (data : Bytes) (ctx : AudioDemuxState) (p : Nat) (size : Int)
    (h : ¬ size ≥ TS_PACKET_SIZE) : TsDemuxer_loop data 0 ctx p size = some ((p : Int), ctx) := by
  unfold TsDemuxer_loop
  rw [if_neg h]

/-- The run of `TsDemuxer` over the stream `exTsStream` that carries a PES
packet with a valid AC-3 frame followed by the sync word of a next frame. -/
theorem TsDemuxer_exTsStream (frame : Bytes) (last : Nat)
    (hv : Ac3HeaderValid frame 5) (hac3 : rd frame 5 ≤ 10 <<< 3) (hlast : last ≤ 182)
    (hspread : 354 < Ac3Check_frame_size frame + 5 ∧ Ac3Check_frame_size frame + 5 ≤ 354 + last)
    (hnext : FastAc3Check (ptrAdd frame (Ac3Check_frame_size frame)) = true) :
    ∃ ctx : AudioDemuxState,
      TsDemuxer AudioDemuxState.init (exTsStream (exPesAc3 frame) last) 9400 = some (9400, ctx) ∧
      ctx.Packets = 50 ∧ ctx.AudioCodecID = AVCodecID.AC3 ∧
      ctx.Calls = [AudioCall.CodecAudioClose, AudioCall.CodecAudioOpen AVCodecID.AC3,
        AudioCall.CodecAudioDecode (Ac3Check_frame_size frame) 65537 AV_NOPTS_VALUE
          (bytesFrom frame 0 (Ac3Check_frame_size frame))] := by
  obtain ⟨hlo, hhi⟩ := hspread
  have hskip : ∀ i, i ≠ 2 ∧ i ≠ 3 ∧ i ≠ 4 →
      rd (exTsStream (exPesAc3 frame) last) (188 * i) = TS_PACKET_SYNC ∧
      rd (exTsStream (exPesAc3 frame) last) (188 * i + 1) &&& 0x80 = 0 ∧
      rd (exTsStream (exPesAc3 frame) last) (188 * i + 3) &&& 0x30 = 0x20 :=
    fun i hi => ⟨exTsStream_sync _ _ i, exTsStream_skip _ _ i hi⟩
  -- the heads of the third to the fifth packet
  have p31 : rd (exTsStream (exPesAc3 frame) last) (376 + 1) = 0x40 := by rfl
  have p33 : rd (exTsStream (exPesAc3 frame) last) (376 + 3) = 0x10 := by rfl
  have p41 : rd (exTsStream (exPesAc3 frame) last) (564 + 1) = 0x00 := by rfl
  have p43 : rd (exTsStream (exPesAc3 frame) last) (564 + 3) = 0x10 := by rfl
  obtain ⟨a1, a3, a4⟩ := exTsStream_adaptation (exPesAc3 frame) last hlast
  have hpay : 5 + rd (exTsStream (exPesAc3 frame) last) (752 + 4) = 188 - last := by
    rw [a4]
    omega
  have hsz : TS_PACKET_SIZE - ((5 + rd (exTsStream (exPesAc3 frame) last) (752 + 4) : Nat) : Int)
      = (last : Int) := by
    rw [hpay]
    unfold TS_PACKET_SIZE
    omega
  -- the PES header and the payload buffer behind each of the three packets
  obtain ⟨d0, d1, d2, d3, d6, d7, d8, dpts⟩ := exTsStream_header frame last
  have hb1 : ∀ k, k < 170 →
      memcpy (fun _ => 0) 0 (ptrAdd (exTsStream (exPesAc3 frame) last) 380) 14 170 k
        = frame k :=
    fun k hk => memcpy_frame _ _ frame 0 14 170 (fun k hk => absurd hk (by omega))
      (fun k hk => by rw [Nat.zero_add]; exact exTsStream_chunk1 frame last k hk) k (by omega)
  have hb2 : ∀ k, k < 354 →
      memcpy (memcpy (fun _ => 0) 0 (ptrAdd (exTsStream (exPesAc3 frame) last) 380) 14 170) 170
        (ptrAdd (exTsStream (exPesAc3 frame) last) 568) 0 184 k = frame k :=
    fun k hk => memcpy_frame _ _ frame 170 0 184 hb1
      (fun k hk => by rw [Nat.zero_add]; exact exTsStream_chunk2 frame last k hk) k (by omega)
  have hb3 : ∀ k, k < 354 + last →
      memcpy (memcpy (memcpy (fun _ => 0) 0
          (ptrAdd (exTsStream (exPesAc3 frame) last) 380) 14 170) 170
          (ptrAdd (exTsStream (exPesAc3 frame) last) 568) 0 184) 354
        (ptrAdd (exTsStream (exPesAc3 frame) last) (752 + (188 - last))) 0 last k = frame k :=
    fun k hk => memcpy_frame _ _ frame 354 0 last hb2
      (fun k hk => by rw [Nat.zero_add]; exact exTsStream_chunk3 frame last k hlast hk) k hk
  -- the first two packets
  have t1 : TsDemuxer_loop (exTsStream (exPesAc3 frame) last) (48 + 2) AudioDemuxState.init
        (188 * 0) 9400
      = TsDemuxer_loop (exTsStream (exPesAc3 frame) last) 48
          ⟨AVCodecID.NONE, AV_NOPTS_VALUE, AV_NOPTS_VALUE, PesInit, 2, []⟩ 376 9024 :=
    TsDemuxer_loop_skips _ 2 48 AudioDemuxState.init 0 9400 (by decide)
      (fun i _ h2 => hskip i (by omega))
  -- the third packet: PES header and 170 bytes of the frame
  have t2 := t1.trans (TsDemuxer_loop_payload _ 47 _ _ 376 9024 (by decide)
    (exTsStream_sync _ _ 2) (by rw [p31]; decide) (by rw [p33]; decide)
    (by
      rw [p31]
      exact PesParse_ac3_start _ frame _ _ _ _ _ d0 d1 d2 d3 (by rw [d6]; decide)
        (by rw [d7]; decide) d8 (exTsStream_chunk1 frame last) hv hac3 (by omega)))
  -- the fourth packet: 184 bytes of the frame
  have t3 := t2.trans (TsDemuxer_loop_payload _ 46 _ _ 564 8836 (by decide)
    (exTsStream_sync _ _ 3) (by rw [p41]; decide) (by rw [p43]; decide)
    (by
      rw [p41]
      exact PesParse_ac3_need_more _ frame _ _ _ _ _ _ _ _ _ _ _ _ _ _ _ _ (Or.inl rfl)
        (by decide) (by decide) (by decide) (by decide) (fun k hk => hb2 k (by omega)) hv hac3
        (by omega)))
  -- the fifth packet: the end of the frame and the bytes behind it
  have t4 := t3.trans (TsDemuxer_loop_adaptation _ 45 _ _ 752 8648 (by decide)
    (exTsStream_sync _ _ 4) (by rw [a1]; decide) (by rw [a3]; decide)
    (by rw [hpay]; unfold TS_PACKET_SIZE; omega)
    (by
      rw [hsz, hpay, a1]
      exact PesParse_ac3_confirmed _ frame _ _ _ _ _ _ _ _ _ _ _ _ _ _ _ _ (Or.inl rfl)
        (by omega) (by unfold PES_MAX_PAYLOAD; omega) (by decide)
        (fun k hk => hb3 k (by omega)) hv hac3 (by omega) (by omega) hnext))
  -- the remaining 45 packets
  have t5 := t4.trans (TsDemuxer_loop_skips _ 45 0 _ 5 8460 (by decide)
    (fun i h1 _ => hskip i (by omega)))
  have t6 := t5.trans (TsDemuxer_loop_zero _ _ _ _ (by decide))
  rw [dpts] at t6
  exact ⟨_, t6, rfl, rfl, rfl⟩

/-- C14.  Code bug: `TsDemuxer` does not return the number of bytes it
consumed when it stops on a packet without sync byte.  On a buffer of three
packets (564 bytes) whose second packet starts with 0x00, it processes one
packet (offset 188) and returns 376, the number of bytes that were left. -/
theorem TsDemuxer_out_of_sync :
    rd exTsOutOfSync 0 = TS_PACKET_SYNC ∧ rd exTsOutOfSync 188 ≠ TS_PACKET_SYNC ∧
    (TsDemuxer AudioDemuxState.init exTsOutOfSync 564).map (fun r => (r.1, r.2.Packets))
      = some (376, 1) := by
  decide

/-- C16.  Code bug: `PesParse` decodes the time stamp from the bytes 9..13 of
the chunk of the current call, not from the accumulated header.  The PES
header of `exPesPts` encodes the PTS 65537; delivered in one call the PTS
latched is 65537, delivered in two calls (10 bytes, then the remaining 20)
the accumulated header still encodes 65537 but the PTS latched is 0, decoded
from the payload bytes of the second call. -/
theorem PesParse_fragmented_header :
    PesTimestamp exPesPts 9 = 65537 ∧
    (PesParse AudioDemuxState.init exPesPts 30 1).map (fun c => c.PesDemuxAudio.PTS)
      = some 65537 ∧
    ((PesParse AudioDemuxState.init exPesPts 10 1).bind fun c =>
        PesParse c (ptrAdd exPesPts 10) 20 0).map
      (fun c => (c.PesDemuxAudio.PTS, PesTimestamp c.PesDemuxAudio.Header 9,
        c.PesDemuxAudio.HeaderIndex))
      = some (0, 65537, 14) := by
  decide

/-- The scan loop of `PlayAudio` over the chunk of two LATM frames decodes
both frames. -/
theorem PlayAudio_scan_exLatmChunk :
    PlayAudio_scan exLatmChunk 0xC0 73 AudioDemuxState.init 0 73
      = some ({ AudioDemuxState.init with
          AudioCodecID := AVCodecID.AAC_LATM
          Calls := [AudioCall.CodecAudioClose, AudioCall.CodecAudioOpen AVCodecID.AAC_LATM,
            AudioCall.CodecAudioDecode 35 AV_NOPTS_VALUE AV_NOPTS_VALUE
              (bytesFrom exLatmChunk 0 35),
            AudioCall.CodecAudioDecode 35 AV_NOPTS_VALUE AV_NOPTS_VALUE
              (bytesFrom exLatmChunk 35 35)] }, 70, 3) := by
  rfl

/-- C17.  Code bug: `PesParse` leaves the scan loop with `break` behind a
confirmed frame.  On a chunk of 73 bytes that holds two back-to-back LATM
frames of 35 bytes, each followed by the next sync, one call of `PesParse`
decodes the first frame only and leaves `Skip` at 35 with 38 bytes unscanned;
the loop of `PlayAudio`, which goes on with `continue`, decodes both. -/
theorem PesParse_stops_after_frame :
    PesParse_sniff exLatmChunk 73 = some (35, AVCodecID.AAC_LATM) ∧
    PesParse_sniff (ptrAdd exLatmChunk 35) 38 = some (35, AVCodecID.AAC_LATM) ∧
    (PesParse AudioDemuxState.init exLatmChunk 73 0).map
        (fun c => (c.Calls, c.PesDemuxAudio.Skip, c.PesDemuxAudio.Index))
      = some ([AudioCall.CodecAudioClose, AudioCall.CodecAudioOpen AVCodecID.AAC_LATM,
          AudioCall.CodecAudioDecode 35 AV_NOPTS_VALUE AV_NOPTS_VALUE
            (bytesFrom exLatmChunk 0 35)], 35, 73) ∧
    (PlayAudio_scan exLatmChunk 0xC0 73 AudioDemuxState.init 0 73).map
        (fun res => (res.1.Calls.filter AudioCall.isDecode).length) = some 2 := by
  refine ⟨by decide, by decide, by decide, ?_⟩
  rw [PlayAudio_scan_exLatmChunk]
  rfl

/-- C15 as stated fails: the stream of 50 in-sync packets carries in packets
3 to 5 a PES packet whose payload is exactly one AC-3 frame (`fscod = 0`,
`frmsizcod = 12`, 384 bytes by `Ac3FrameSizeTable`).  `TsDemuxer` consumes
all 50 packets and the 384 bytes of the frame are in the buffer, but
`Ac3Check` asks for 5 bytes behind the frame: no codec is opened and nothing
is decoded. -/
theorem TsDemuxer_ac3_single_frame_counterexample :
    Ac3HeaderValid (exAc3Frame false) 384 ∧
    Ac3Check_frame_size (exAc3Frame false) = 384 ∧
    Ac3FrameSizeTable_at 12 0 = some 192 ∧
    Ac3Check (exAc3Frame false) 384 = CResult.ret (-389) ∧
    (TsDemuxer AudioDemuxState.init (exTsStream (exPesAc3 (exAc3Frame false)) 30) 9400).map
        (fun r => (r.1, r.2.Packets, r.2.Calls, r.2.PesDemuxAudio.Index, r.2.PesDemuxAudio.Skip))
      = some (9400, 50, [], 384, 0) := by
  decide

/-- C15, amended.  End-to-end: the stream `exTsStream` has 50 in-sync packets
of which the third to the fifth carry a PES packet of private stream 1 (PTS
65537) with the bytes of `frame` as payload, the fifth one `last` of them;
the other packets carry no payload.  When `frame` starts with a valid AC-3
header (sync 0x0B 0x77, byte 5 at most 80, `fscod` not 3, `frmsizcod` at most
37), the frame and the 5 bytes that `Ac3Check` asks for behind it end in the
fifth packet, and the sync word of a next frame follows the frame, then
`TsDemuxer`, starting with no audio codec open, consumes all 9400 bytes and
calls close, open(AC-3) and decode exactly once, in this order; the size of
the decoded packet is the frame length of `Ac3Check`, twice the entry of
`Ac3FrameSizeTable` for the embedded `(frmsizcod, fscod)`. -/
theorem TsDemuxer_ac3_frame (frame : Bytes) (last : Nat)
    (hv : Ac3HeaderValid frame 5) (hac3 : rd frame 5 ≤ 10 <<< 3) (hlast : last ≤ 182)
    (hspread : 354 < Ac3Check_frame_size frame + 5 ∧ Ac3Check_frame_size frame + 5 ≤ 354 + last)
    (hnext : FastAc3Check (ptrAdd frame (Ac3Check_frame_size frame)) = true) :
    (TsDemuxer AudioDemuxState.init (exTsStream (exPesAc3 frame) last) 9400).map
        (fun r => (r.1, r.2.Packets, r.2.AudioCodecID, r.2.Calls))
      = some (9400, 50, AVCodecID.AC3,
          [AudioCall.CodecAudioClose, AudioCall.CodecAudioOpen AVCodecID.AC3,
            AudioCall.CodecAudioDecode (Ac3Check_frame_size frame) 65537 AV_NOPTS_VALUE
              (bytesFrom frame 0 (Ac3Check_frame_size frame))]) ∧
    ∃ entry, Ac3FrameSizeTable_at (rd frame 4 &&& 0x3F) (rd frame 4 >>> 6) = some entry ∧
      Ac3Check_frame_size frame = 2 * entry := by
  constructor
  · obtain ⟨ctx, hrun, hpk, hid, hcalls⟩ :=
      TsDemuxer_exTsStream frame last hv hac3 hlast hspread hnext
    rw [hrun, Option.map_some', hpk, hid, hcalls]
  · have hb : ¬ rd frame 5 > 10 <<< 3 := by omega
    obtain ⟨-, -, hcod⟩ := hv
    rw [if_neg hb] at hcod
    have hf3 : rd frame 4 >>> 6 < 3 := by
      have := byte_fscod (frame 4)
      simp only [rd] at hcod ⊢
      omega
    obtain ⟨e, he⟩ := Ac3FrameSizeTable_at_some _ _ hcod.2 hf3
    refine ⟨e, he, ?_⟩
    unfold Ac3Check_frame_size Ac3Check_ac3_frame_size
    rw [if_neg hb, he, Option.getD_some, Nat.mul_comm]

/-- Witness of C15, amended: the frame of 384 bytes followed by the sync word
of a next frame, with 35 bytes in the fifth packet. -/
theorem TsDemuxer_ac3_frame_witness :
    (TsDemuxer AudioDemuxState.init (exTsStream (exPesAc3 (exAc3Frame true)) 35) 9400).map
        (fun r => (r.1, r.2.Packets, r.2.AudioCodecID, r.2.Calls))
      = some (9400, 50, AVCodecID.AC3,
          [AudioCall.CodecAudioClose, AudioCall.CodecAudioOpen AVCodecID.AC3,
            AudioCall.CodecAudioDecode (Ac3Check_frame_size (exAc3Frame true)) 65537
              AV_NOPTS_VALUE (bytesFrom (exAc3Frame true) 0
                (Ac3Check_frame_size (exAc3Frame true)))]) ∧
    Ac3Check_frame_size (exAc3Frame true) = 384 :=
  ⟨(TsDemuxer_ac3_frame (exAc3Frame true) 35 (by decide) (by decide) (by decide) (by decide)
      (by decide)).1, by decide⟩
/-! ## Invariant of the PES demuxer -/

/-- A sniffer that returned is a `ret`. -/
theorem CResult_toOption_some (c : CResult) (r : Int) (h : c.toOption = some r) :
    c = CResult.ret r := by
  cases c with
  | ret v =>
    unfold CResult.toOption at h
    injection h with h
    rw [h]
  | aborted => exact absurd h (by simp [CResult.toOption])
  | undefined => exact absurd h (by simp [CResult.toOption])

/-- One test of a sniffer cascade keeps the bound of a confirmed frame. -/
theorem sniff_stage_bound (n : Int) (cond : Prop) [Decidable cond] (check : CResult)
    (f : Int → AVCodecID) (rc rc1 : Int × AVCodecID)
    (hP : 0 < rc.1 → rc.1 + 2 ≤ n)
    (hcheck : ∀ r, check = CResult.ret r → 0 < r → r + 2 ≤ n)
    (h : (if cond then check.toOption.map (fun r => (r, f r)) else some rc) = some rc1) :
    0 < rc1.1 → rc1.1 + 2 ≤ n := by
  split at h
  · rw [Option.map_eq_some'] at h
    obtain ⟨r, hr, he⟩ := h
    subst he
    exact hcheck r (CResult_toOption_some _ _ hr)
  · injection h with h
    subst h
    exact hP

/-- A frame that the cascade of `PesParse` confirms lies inside the `n`
bytes of the window. -/
theorem PesParse_sniff_bound (q : Bytes) (n r : Int) (c : AVCodecID)
    (h : PesParse_sniff q n = some (r, c)) (hr : 0 < r) : r + 2 ≤ n := by
  unfold PesParse_sniff at h
  simp only [Option.bind_eq_some] at h
  obtain ⟨rc1, h1, rc2, h2, rc3, h3, h4⟩ := h
  have b1 := sniff_stage_bound n _ (MpegCheck q n) (fun _ => AVCodecID.MP2)
    (0, AVCodecID.NONE) rc1 (fun h => absurd h (by decide))
    (fun r hc hp => by have := (MpegCheck_pos q n r hp hc).1; omega) h1
  have b2 := sniff_stage_bound n _ (Ac3Check q n)
    (fun r => if r > 0 ∧ rd q 5 > (10 <<< 3) then AVCodecID.EAC3 else AVCodecID.AC3)
    rc1 rc2 b1 (fun r hc hp => by have := (Ac3Check_pos q n r hp hc).1; omega) h2
  have b3 := sniff_stage_bound n _ (LatmCheck q n) (fun _ => AVCodecID.AAC_LATM)
    rc2 rc3 b2 (fun r hc hp => by have := (LatmCheck_pos q n r hp hc).1; omega) h3
  exact sniff_stage_bound n _ (AdtsCheck q n) (fun _ => AVCodecID.AAC)
    rc3 (r, c) b3 (fun r hc hp => by have := (AdtsCheck_pos q n r hp hc).1; omega) h4 hr

/-- The block for a confirmed frame advances `Skip` by the frame and leaves
`Index` and `Size`. -/
theorem PesParse_emit_pesdx (ctx : AudioDemuxState) (q : Nat) (r : Int) (c : AVCodecID) :
    (PesParse_emit ctx q r c).PesDemuxAudio.Skip = ctx.PesDemuxAudio.Skip + r ∧
    (PesParse_emit ctx q r c).PesDemuxAudio.Index = ctx.PesDemuxAudio.Index ∧
    (PesParse_emit ctx q r c).PesDemuxAudio.Size = ctx.PesDemuxAudio.Size := by
  unfold PesParse_emit
  by_cases h : ctx.AudioCodecID = c
  · simp [h]
  · simp [h]

/-- The scan loop of `PesParse` keeps the invariant, when at most the bytes
between `Skip` and `Index` are scanned. -/
theorem PesParse_scan_inv (fuel : Nat) (ctx : AudioDemuxState) (q : Nat) (n : Int)
    (ctx1 : AudioDemuxState) (h : PesParse_scan fuel ctx q n = some ctx1)
    (hinv : PesInv ctx.PesDemuxAudio)
    (hn : ctx.PesDemuxAudio.Skip + n ≤ ctx.PesDemuxAudio.Index) :
    PesInv ctx1.PesDemuxAudio := by
  induction fuel generalizing ctx q n with
  | zero =>
    unfold PesParse_scan at h
    split at h
    · exact absurd h (by simp)
    · injection h with h
      subst h
      exact hinv
  | succ fuel ih =>
    unfold PesParse_scan at h
    split at h
    · split at h
      · exact absurd h (by simp)
      · rename_i r c hs
        split at h
        · injection h with h
          subst h
          exact hinv
        · split at h
          · rename_i hr
            injection h with h
            subst h
            have hb := PesParse_sniff_bound _ _ _ _ hs hr
            obtain ⟨e1, e2, e3⟩ := PesParse_emit_pesdx ctx q r c
            unfold PesInv at *
            rw [e1, e2, e3]
            omega
          · refine ih _ _ _ h ?_ ?_
            · unfold PesInv at *
              simp only
              omega
            · simp only
              omega
    · injection h with h
      subst h
      exact hinv

set_option linter.unusedTactic false in
set_option linter.unreachableTactic false in
/-- One turn of the loop of `PesParse` keeps the invariant. -/
theorem PesParse_pass_inv (data : Bytes) (ctx : AudioDemuxState) (p : Nat) (size : Int)
    (res : AudioDemuxState × Nat × Int × Bool) (h : PesParse_pass data ctx p size = some res)
    (hinv : PesInv ctx.PesDemuxAudio) : PesInv res.1.PesDemuxAudio := by
  unfold PesParse_pass at h
  simp only at h
  repeat' split at h
  all_goals first
    | (injection h with h; subst h; exact hinv)
    | (rw [Option.map_eq_some'] at h
       obtain ⟨c2, hscan, hres⟩ := h
       subst hres
       refine PesParse_scan_inv _ _ _ _ _ hscan ?_ ?_
       · unfold PesInv at *
         simp only at *
         omega
       · simp only
         omega)
    | (injection h with h
       subst h
       unfold PesInv PesParse_empty_header at *
       simp only at *
       split_ifs <;> simp only <;> omega)
    | (injection h)

/-- The loop of `PesParse` keeps the invariant. -/
theorem PesParse_loop_inv (data : Bytes) (fuel : Nat) (ctx : AudioDemuxState) (p : Nat)
    (size : Int) (ctx1 : AudioDemuxState) (h : PesParse_loop data fuel ctx p size = some ctx1)
    (hinv : PesInv ctx.PesDemuxAudio) : PesInv ctx1.PesDemuxAudio := by
  induction fuel generalizing ctx p size with
  | zero =>
    unfold PesParse_loop at h
    exact absurd h (by simp)
  | succ fuel ih =>
    unfold PesParse_loop at h
    split at h
    · exact absurd h (by simp)
    · rename_i c2 p2 size2 returned hpass
      have h1 := PesParse_pass_inv _ _ _ _ _ hpass hinv
      split at h
      · injection h with h
        subst h
        exact h1
      · split at h
        · exact ih _ _ _ h h1
        · injection h with h
          subst h
          exact h1

/-- The block "copy remaining bytes down" keeps the invariant. -/
theorem PesParse_compact_inv (pesdx pesdx1 : PesDemux) (h : PesParse_compact pesdx = some pesdx1)
    (hinv : PesInv pesdx) : PesInv pesdx1 := by
  unfold PesParse_compact at h
  split at h
  · exact absurd h (by simp)
  · injection h with h
    subst h
    unfold PesInv at *
    simp only
    omega

/-- The function `PesReset` establishes the invariant on a demuxer whose
buffer size is not negative. -/
theorem PesReset_inv (pesdx : PesDemux) (h : 0 ≤ pesdx.Size) : PesInv (PesReset pesdx) := by
  unfold PesInv PesReset
  simp only
  omega

/-- A call of `PesParse` keeps the invariant, for every chunk, chunk length
and start flag. -/
theorem PesParse_inv (ctx : AudioDemuxState) (data : Bytes) (size : Int) (is_start : Int)
    (ctx1 : AudioDemuxState) (h : PesParse ctx data size is_start = some ctx1)
    (hinv : PesInv ctx.PesDemuxAudio) : PesInv ctx1.PesDemuxAudio := by
  unfold PesParse at h
  simp only [Option.bind_eq_some] at h
  obtain ⟨p1, h1, p2, h2, hloop⟩ := h
  have i1 : PesInv p1 := by
    split at h1
    · rw [Option.map_eq_some'] at h1
      obtain ⟨p0, h0, he⟩ := h1
      subst he
      have i0 : PesInv p0 := by
        split at h0
        · exact PesParse_compact_inv _ _ h0 hinv
        · injection h0 with h0
          subst h0
          exact hinv
      exact i0
    · injection h1 with h1
      subst h1
      exact hinv
  have i2 : PesInv p2 := by
    split at h2
    · exact PesParse_compact_inv _ _ h2 i1
    · injection h2 with h2
      subst h2
      exact i1
  exact PesParse_loop_inv _ _ _ _ _ _ hloop i2

/-- A call of `PesReset` or `PesParse` keeps the invariant. -/
theorem PesOp_step_inv (ctx ctx1 : AudioDemuxState) (op : PesOp)
    (h : PesOp.step ctx op = some ctx1) (hinv : PesInv ctx.PesDemuxAudio) :
    PesInv ctx1.PesDemuxAudio := by
  cases op with
  | reset =>
    unfold PesOp.step at h
    injection h with h
    subst h
    exact PesReset_inv _ (hinv.1.trans (hinv.2.1.trans hinv.2.2))
  | parse data size is_start => exact PesParse_inv _ _ _ _ _ h hinv

/-- A sequence of calls keeps the invariant. -/
theorem PesOp_run_inv (ops : List PesOp) : ∀ ctx ctx1 : AudioDemuxState,
    PesOp.run ctx ops = some ctx1 → PesInv ctx.PesDemuxAudio → PesInv ctx1.PesDemuxAudio := by
  induction ops with
  | nil =>
    intro ctx ctx1 h hinv
    unfold PesOp.run at h
    injection h with h
    subst h
    exact hinv
  | cons op ops ih =>
    intro ctx ctx1 h hinv
    unfold PesOp.run at h
    split at h
    · exact absurd h (by simp)
    · rename_i c2 hstep
      exact ih _ _ h (PesOp_step_inv _ _ _ hstep hinv)

/-- C21.  PES demuxer invariant: `0 <= Skip <= Index <= Size` holds after
`PesReset` (on a demuxer whose buffer size is not negative, as `PesInit`
sets it) and is preserved by every `PesParse` call, for every payload chunk,
chunk length and packet-start flag: it holds behind every sequence of calls
that starts with a `PesReset`. -/
theorem PesDemux_invariant (ctx ctx1 : AudioDemuxState) (ops : List PesOp)
    (hsize : 0 ≤ ctx.PesDemuxAudio.Size)
    (h : PesOp.run ctx (PesOp.reset :: ops) = some ctx1) :
    0 ≤ ctx1.PesDemuxAudio.Skip ∧ ctx1.PesDemuxAudio.Skip ≤ ctx1.PesDemuxAudio.Index ∧
    ctx1.PesDemuxAudio.Index ≤ ctx1.PesDemuxAudio.Size := by
  unfold PesOp.run at h
  simp only [PesOp.step] at h
  exact PesOp_run_inv ops _ _ h (PesReset_inv _ hsize)

set_option maxRecDepth 100000 in
/-- The invariant behind the calls of `pesExampleOps`: the frame of 384 bytes
is confirmed by the third call of `PesParse`, which leaves `Skip = 384` and
`Index = 538`. -/
theorem PesDemux_invariant_witness :
    0 ≤ AudioDemuxState.init.PesDemuxAudio.Size ∧
    PesOp.run AudioDemuxState.init pesExampleOps = some pesExampleState ∧
    pesExampleState.PesDemuxAudio.Skip = 384 ∧ pesExampleState.PesDemuxAudio.Index = 538 ∧
    (0 ≤ pesExampleState.PesDemuxAudio.Skip ∧
      pesExampleState.PesDemuxAudio.Skip ≤ pesExampleState.PesDemuxAudio.Index ∧
      pesExampleState.PesDemuxAudio.Index ≤ pesExampleState.PesDemuxAudio.Size) :=
  ⟨by decide, rfl, by decide, by decide,
    PesDemux_invariant AudioDemuxState.init pesExampleState pesExampleParses (by decide) rfl⟩

/-! ## The PES demuxer returns -/

/-- Behind its fast check `MpegCheck` returns a value: it neither aborts nor
leaves a table. -/
theorem MpegCheck_returns (data : Bytes) (size : Int) (h : FastMpegCheck data = true) :
    ∃ r, MpegCheck data size = CResult.ret r := by
  obtain ⟨-, -, -, hl, -, hsr⟩ := (FastMpegCheck_iff data).1 h
  obtain ⟨sr0, hsr0, hsrne⟩ := SampleRateTable_some data hsr
  have hlayer : 4 - ((rd data 1 >>> 1) &&& 0x03) < 4 := by
    have h1 := (byte_fields1 (data 1)).1
    have h4 := (byte_fields1 (data 1)).2.2.2.1
    simp only [rd] at hl ⊢
    rw [h1]
    have : (data 1).val / 2 % 4 ≠ 0 := fun h0 => hl (h4.2 h0)
    omega
  have hidx : (rd data 2 >>> 4) &&& 0x0F < 16 := by
    have h1 := (byte_fields2 (data 2)).1
    simp only [rd]
    rw [h1]
    have := (data 2).isLt
    omega
  have hv : ∀ a b : Nat, a < 2 → b < 2 → a ||| b < 2 := by
    intro a b ha hb
    interval_cases a <;> interval_cases b <;> decide
  obtain ⟨b, hb⟩ := BitRateTable_at_some
    ((if rd data 1 &&& 0x08 = 0 ∧ rd data 1 &&& 0x10 ≠ 0 then 1 else 0)
      ||| (if rd data 1 &&& 0x08 = 0 ∧ rd data 1 &&& 0x10 = 0 then 1 else 0))
    (4 - ((rd data 1 >>> 1) &&& 0x03)) ((rd data 2 >>> 4) &&& 0x0F)
    (hv _ _ (by split_ifs <;> omega) (by split_ifs <;> omega)) hlayer hidx
  unfold MpegCheck
  simp only [hsr0, hb, if_neg hsrne]
  split_ifs <;> exact ⟨_, rfl⟩

/-- The function `Ac3Check` returns a value. -/
theorem Ac3Check_returns (data : Bytes) (size : Int) :
    ∃ r, Ac3Check data size = CResult.ret r := by
  unfold Ac3Check
  by_cases h5 : size < 5
  · exact ⟨_, by rw [if_pos h5]⟩
  · rw [if_neg h5]
    by_cases hb : rd data 5 > (10 <<< 3)
    · rw [if_pos hb]
      simp only
      split_ifs <;> exact ⟨_, rfl⟩
    · rw [if_neg hb]
      simp only
      by_cases hf : rd data 4 >>> 6 = 0x03
      · exact ⟨_, by rw [if_pos hf]⟩
      · rw [if_neg hf]
        by_cases hc : rd data 4 &&& 0x3F > 37
        · exact ⟨_, by rw [if_pos hc]⟩
        · rw [if_neg hc]
          have hf3 : rd data 4 >>> 6 < 3 := by
            have := byte_fscod (data 4)
            simp only [rd] at hf ⊢
            omega
          obtain ⟨e, he⟩ := Ac3FrameSizeTable_at_some _ _ (Nat.not_lt.1 hc) hf3
          simp only [he]
          split_ifs <;> exact ⟨_, rfl⟩

/-- The function `LatmCheck` returns a value. -/
theorem LatmCheck_returns (data : Bytes) (size : Int) :
    ∃ r, LatmCheck data size = CResult.ret r := by
  unfold LatmCheck
  simp only
  split_ifs <;> exact ⟨_, rfl⟩

/-- The function `AdtsCheck` returns a value. -/
theorem AdtsCheck_returns (data : Bytes) (size : Int) :
    ∃ r, AdtsCheck data size = CResult.ret r := by
  unfold AdtsCheck
  simp only
  split_ifs <;> exact ⟨_, rfl⟩

/-- One test of a sniffer cascade gives a value when the sniffer returns
one. -/
theorem sniff_stage_returns (cond : Prop) [Decidable cond] (check : CResult)
    (f : Int → AVCodecID) (rc : Int × AVCodecID)
    (hcheck : cond → ∃ r, check = CResult.ret r) :
    ∃ rc1, (if cond then check.toOption.map (fun r => (r, f r)) else some rc) = some rc1 := by
  by_cases hc : cond
  · obtain ⟨r, hr⟩ := hcheck hc
    rw [if_pos hc, hr]
    exact ⟨_, rfl⟩
  · rw [if_neg hc]
    exact ⟨_, rfl⟩

/-- The sniffer cascade of `PesParse` gives a value on every window. -/
theorem PesParse_sniff_returns (q : Bytes) (n : Int) : ∃ rc, PesParse_sniff q n = some rc := by
  unfold PesParse_sniff
  obtain ⟨rc1, h1⟩ := sniff_stage_returns (FastMpegCheck q = true) (MpegCheck q n)
    (fun _ => AVCodecID.MP2) (0, AVCodecID.NONE) (fun h => MpegCheck_returns q n h)
  rw [h1, Option.some_bind]
  obtain ⟨rc2, h2⟩ := sniff_stage_returns (rc1.1 = 0 ∧ FastAc3Check q = true) (Ac3Check q n)
    (fun r => if r > 0 ∧ rd q 5 > (10 <<< 3) then AVCodecID.EAC3 else AVCodecID.AC3) rc1
    (fun _ => Ac3Check_returns q n)
  rw [h2, Option.some_bind]
  obtain ⟨rc3, h3⟩ := sniff_stage_returns (rc2.1 = 0 ∧ FastLatmCheck q = true) (LatmCheck q n)
    (fun _ => AVCodecID.AAC_LATM) rc2 (fun _ => LatmCheck_returns q n)
  rw [h3, Option.some_bind]
  exact sniff_stage_returns (rc3.1 = 0 ∧ FastAdtsCheck q = true) (AdtsCheck q n)
    (fun _ => AVCodecID.AAC) rc3 (fun _ => AdtsCheck_returns q n)

/-- The scan loop of `PesParse` ends within `n` turns. -/
theorem PesParse_scan_returns (fuel : Nat) (ctx : AudioDemuxState) (q : Nat) (n : Int)
    (hf : n ≤ fuel) : ∃ ctx1, PesParse_scan fuel ctx q n = some ctx1 := by
  induction fuel generalizing ctx q n with
  | zero =>
    unfold PesParse_scan
    rw [if_neg (by omega)]
    exact ⟨_, rfl⟩
  | succ fuel ih =>
    unfold PesParse_scan
    by_cases h5 : n ≥ 5
    · rw [if_pos h5]
      obtain ⟨⟨r, c⟩, hs⟩ := PesParse_sniff_returns (ptrAdd ctx.PesDemuxAudio.Buffer q) n
      rw [hs]
      simp only
      by_cases hr : r < 0
      · rw [if_pos hr]
        exact ⟨_, rfl⟩
      · rw [if_neg hr]
        by_cases hp : r > 0
        · rw [if_pos hp]
          exact ⟨_, rfl⟩
        · rw [if_neg hp]
          exact ih _ _ _ (by push_cast at hf; omega)
    · rw [if_neg h5]
      exact ⟨_, rfl⟩

set_option linter.unusedTactic false in
set_option linter.unreachableTactic false in
/-- One turn of the loop of `PesParse` on a chunk that fits the payload
buffer gives a state; it returns, or takes the rest of the chunk, or takes at
least one byte and keeps the invariant and the header fields. -/
theorem PesParse_pass_returns (data : Bytes) (ctx : AudioDemuxState) (p : Nat) (size : Int)
    (hs : 0 < size) (hinv : PesInv ctx.PesDemuxAudio)
    (hroom : ctx.PesDemuxAudio.Index + size ≤ ctx.PesDemuxAudio.Size)
    (hok : PesHeaderOk ctx.PesDemuxAudio) :
    ∃ res, PesParse_pass data ctx p size = some res ∧
      (res.2.2.2 = true ∨ res.2.2.1 ≤ 0 ∨
        (res.2.2.1 < size ∧ PesInv res.1.PesDemuxAudio ∧
          res.1.PesDemuxAudio.Index + res.2.2.1 ≤ res.1.PesDemuxAudio.Size ∧
          PesHeaderOk res.1.PesDemuxAudio)) := by
  obtain ⟨cid, apts, adts, ⟨st, hdr, hi, hsz, buf, index, skip, psize, sc, pts, dts⟩, pk,
    calls⟩ := ctx
  unfold PesInv at hinv
  simp only at hinv hroom
  cases st
  case PES_SKIP =>
    exact ⟨_, rfl, Or.inl rfl⟩
  case PES_INIT =>
    have hn : (if psize - index > size then size else psize - index) = size := by
      split_ifs <;> omega
    obtain ⟨c1, hc1⟩ := PesParse_scan_returns (index + size - skip).toNat
      { AudioCodecID := cid, AudioAvPkt_pts := apts, AudioAvPkt_dts := adts,
        PesDemuxAudio :=
          { State := PesState.PES_INIT, Header := hdr, HeaderIndex := hi, HeaderSize := hsz,
            Buffer := memcpy buf index.toNat data p size.toNat,
            Index := index + size, Skip := skip, Size := psize, StartCode := sc, PTS := pts,
            DTS := dts },
        Packets := pk, Calls := calls } skip.toNat (index + size - skip) (by omega)
    unfold PesParse_pass
    simp only [hn]
    rw [if_neg (by omega), if_neg (by omega), hc1]
    exact ⟨_, rfl, Or.inr (Or.inl (by simp))⟩
  case PES_START =>
    have hn : (if psize - index > size then size else psize - index) = size := by
      split_ifs <;> omega
    obtain ⟨c1, hc1⟩ := PesParse_scan_returns (index + size - skip).toNat
      { AudioCodecID := cid, AudioAvPkt_pts := apts, AudioAvPkt_dts := adts,
        PesDemuxAudio :=
          { State := PesState.PES_START, Header := hdr, HeaderIndex := hi, HeaderSize := hsz,
            Buffer := memcpy buf index.toNat data p size.toNat,
            Index := index + size, Skip := skip, Size := psize, StartCode := sc, PTS := pts,
            DTS := dts },
        Packets := pk, Calls := calls } skip.toNat (index + size - skip) (by omega)
    unfold PesParse_pass
    simp only [hn]
    rw [if_neg (by omega), if_neg (by omega), hc1]
    exact ⟨_, rfl, Or.inr (Or.inl (by simp))⟩
  case PES_SYNC =>
    unfold PesHeaderOk PES_START_CODE_SIZE at hok
    simp only at hok
    unfold PesParse_pass
    simp only [PES_START_CODE_SIZE, PES_MAX_HEADER_SIZE, PES_HEADER_SIZE]
    split_ifs
    all_goals first
      | (exfalso; omega)
      | (refine ⟨_, rfl, ?_⟩
         first
           | exact Or.inl rfl
           | (right; right
              unfold PesInv PesHeaderOk
              simp only [PesParse_empty_header, PES_START_CODE_SIZE, PES_HEADER_SIZE]
              first
                | (split_ifs <;> simp only [true_and, and_true, implies_true] <;> omega)
                | (simp only [true_and, and_true, implies_true]; omega)
                | omega))
  case PES_HEADER =>
    unfold PesHeaderOk PES_START_CODE_SIZE PES_HEADER_SIZE at hok
    simp only at hok
    have h8a : rd (memcpy hdr hi.toNat data p (hsz - hi).toNat) 8 < 256 := by
      unfold rd
      exact Fin.isLt _
    have h8b : rd (memcpy hdr hi.toNat data p size.toNat) 8 < 256 := by
      unfold rd
      exact Fin.isLt _
    unfold PesParse_pass
    simp only [PES_START_CODE_SIZE, PES_MAX_HEADER_SIZE, PES_HEADER_SIZE]
    split_ifs
    all_goals first
      | (exfalso; omega)
      | (refine ⟨_, rfl, ?_⟩
         first
           | exact Or.inl rfl
           | (right; right
              unfold PesInv PesHeaderOk
              simp only [PesParse_empty_header, PES_START_CODE_SIZE, PES_HEADER_SIZE]
              first
                | (split_ifs <;> simp only [true_and, and_true, implies_true] <;> omega)
                | (simp only [true_and, and_true, implies_true]; omega)
                | omega))
  case PES_PAYLOAD => exact absurd hok (by unfold PesHeaderOk; simp)
  case PES_LPCM_HEADER => exact absurd hok (by unfold PesHeaderOk; simp)
  case PES_LPCM_PAYLOAD => exact absurd hok (by unfold PesHeaderOk; simp)

/-- The loop of `PesParse` on a chunk that fits the payload buffer ends within
`size` turns. -/
theorem PesParse_loop_returns (data : Bytes) (fuel : Nat) (ctx : AudioDemuxState) (p : Nat)
    (size : Int) (hs : 0 < size) (hf : size ≤ fuel) (hinv : PesInv ctx.PesDemuxAudio)
    (hroom : ctx.PesDemuxAudio.Index + size ≤ ctx.PesDemuxAudio.Size)
    (hok : PesHeaderOk ctx.PesDemuxAudio) :
    ∃ ctx1, PesParse_loop data fuel ctx p size = some ctx1 := by
  induction fuel generalizing ctx p size with
  | zero => exact absurd hf (by push_cast; omega)
  | succ fuel ih =>
    obtain ⟨⟨c2, p2, size2, returned⟩, hpass, hres⟩ :=
      PesParse_pass_returns data ctx p size hs hinv hroom hok
    unfold PesParse_loop
    rw [hpass]
    simp only
    by_cases hr : returned = true
    · rw [if_pos hr]
      exact ⟨_, rfl⟩
    · rw [if_neg hr]
      by_cases h0 : size2 > 0
      · rw [if_pos h0]
        simp only at hres
        rcases hres with h | h | ⟨h1, h2, h3, h4⟩
        · exact absurd h hr
        · exact absurd h0 (by omega)
        · exact ih c2 p2 size2 h0 (by push_cast at hf; omega) h2 h3 h4
      · rw [if_neg h0]
        exact ⟨_, rfl⟩

/-- The block "copy remaining bytes down" gives a state that keeps the
invariant, the size, the state and the header fields, and does not raise
`Index`. -/
theorem PesParse_compact_returns (pesdx : PesDemux) (hinv : PesInv pesdx) :
    ∃ p1, PesParse_compact pesdx = some p1 ∧ PesInv p1 ∧ p1.Index ≤ pesdx.Index ∧
      p1.Size = pesdx.Size ∧ (PesHeaderOk pesdx → PesHeaderOk p1) := by
  unfold PesInv at hinv
  unfold PesParse_compact
  rw [if_neg (by omega)]
  refine ⟨_, rfl, ?_, ?_, rfl, fun h => h⟩
  · unfold PesInv
    simp only
    omega
  · simp only
    omega

/-- A call of `PesParse` with a chunk of at least one byte that fits the
payload buffer returns, from every state whose header fields fit and at every
start of a PES packet. -/
theorem PesParse_returns (ctx : AudioDemuxState) (data : Bytes) (size : Int) (is_start : Int)
    (hs : 0 < size) (hinv : PesInv ctx.PesDemuxAudio)
    (hroom : ctx.PesDemuxAudio.Index + size ≤ ctx.PesDemuxAudio.Size)
    (hok : is_start ≠ 0 ∨ PesHeaderOk ctx.PesDemuxAudio) :
    ∃ ctx1, PesParse ctx data size is_start = some ctx1 := by
  -- the state behind the block for the start of a PES packet
  have s1 : ∃ p1, (if is_start ≠ 0 then
        (if ctx.PesDemuxAudio.Index ≠ 0 ∧ ctx.PesDemuxAudio.Skip ≠ 0 then
            PesParse_compact ctx.PesDemuxAudio
          else some ctx.PesDemuxAudio).map fun pesdx =>
          { pesdx with
            State := PesState.PES_SYNC
            HeaderIndex := 0
            PTS := AV_NOPTS_VALUE
            DTS := AV_NOPTS_VALUE }
      else some ctx.PesDemuxAudio) = some p1 ∧ PesInv p1 ∧
      p1.Index ≤ ctx.PesDemuxAudio.Index ∧ p1.Size = ctx.PesDemuxAudio.Size ∧
      PesHeaderOk p1 := by
    by_cases h1 : is_start ≠ 0
    · rw [if_pos h1]
      have hsync : ∀ q : PesDemux, PesHeaderOk { q with
          State := PesState.PES_SYNC
          HeaderIndex := 0
          PTS := AV_NOPTS_VALUE
          DTS := AV_NOPTS_VALUE } := by
        intro q
        unfold PesHeaderOk PES_START_CODE_SIZE
        simp only
        omega
      by_cases h2 : ctx.PesDemuxAudio.Index ≠ 0 ∧ ctx.PesDemuxAudio.Skip ≠ 0
      · obtain ⟨p0, e0, i0, x0, z0, -⟩ := PesParse_compact_returns _ hinv
        rw [if_pos h2, e0]
        exact ⟨_, rfl, i0, x0, z0, hsync _⟩
      · rw [if_neg h2]
        exact ⟨_, rfl, hinv, le_refl _, rfl, hsync _⟩
    · rw [if_neg h1]
      rcases hok with h | h
      · exact absurd h h1
      · exact ⟨_, rfl, hinv, le_refl _, rfl, h⟩
  obtain ⟨p1, e1, i1, x1, z1, k1⟩ := s1
  -- the state behind the cleanup
  have s2 : ∃ p2, (if p1.Skip > PES_MAX_PAYLOAD / 2 then PesParse_compact p1 else some p1)
      = some p2 ∧ PesInv p2 ∧ p2.Index ≤ p1.Index ∧ p2.Size = p1.Size ∧ PesHeaderOk p2 := by
    by_cases h3 : p1.Skip > PES_MAX_PAYLOAD / 2
    · obtain ⟨p0, e0, i0, x0, z0, k0⟩ := PesParse_compact_returns _ i1
      rw [if_pos h3, e0]
      exact ⟨_, rfl, i0, x0, z0, k0 k1⟩
    · rw [if_neg h3]
      exact ⟨_, rfl, i1, le_refl _, rfl, k1⟩
  obtain ⟨p2, e2, i2, x2, z2, k2⟩ := s2
  unfold PesParse
  simp only
  rw [e1, Option.some_bind, e2, Option.some_bind]
  exact PesParse_loop_returns data _ _ 0 size hs (by omega) i2
    (by simp only; omega) k2

/-! ## Flush of the audio buffers -/

/-- The loop for the loudest sample: the result is not below the start
value, no sample is louder, and the result is the start value or the
absolute value of a sample. -/
theorem AudioCompressor_max_spec (samples : List Int) : ∀ m0 : Int,
    m0 ≤ AudioCompressor_max samples m0 ∧
    (∀ s ∈ samples, |s| ≤ AudioCompressor_max samples m0) ∧
    (AudioCompressor_max samples m0 = m0 ∨ ∃ s ∈ samples, |s| = AudioCompressor_max samples m0) := by
  induction samples with
  | nil => intro m0; simp [AudioCompressor_max]
  | cons a l ih =>
    intro m0
    simp only [AudioCompressor_max]
    by_cases hc : |a| > m0
    · rw [if_pos hc]
      obtain ⟨h1, h2, h3⟩ := ih |a|
      refine ⟨by omega, ?_, ?_⟩
      · intro s hs
        rcases List.mem_cons.mp hs with h | h
        · subst h
          exact h1
        · exact h2 s h
      · rcases h3 with h | ⟨s, hs, h⟩
        · exact Or.inr ⟨a, List.mem_cons_self _ _, h.symm⟩
        · exact Or.inr ⟨s, List.mem_cons_of_mem _ hs, h⟩
    · rw [if_neg hc]
      obtain ⟨h1, h2, h3⟩ := ih m0
      refine ⟨h1, ?_, ?_⟩
      · intro s hs
        rcases List.mem_cons.mp hs with h | h
        · subst h
          omega
        · exact h2 s h
      · rcases h3 with h | ⟨s, hs, h⟩
        · exact Or.inl h
        · exact Or.inr ⟨s, List.mem_cons_of_mem _ hs, h⟩

/-- A truncating division by 1000 of a value between -32767000 and 32767000
lies between -32767 and 32767. -/
theorem tdiv_1000_bound (x : Int) (h1 : -32767000 ≤ x) (h2 : x ≤ 32767000) :
    -32767 ≤ x.tdiv 1000 ∧ x.tdiv 1000 ≤ 32767 := by
  by_cases h : 0 ≤ x
  · rw [Int.tdiv_eq_ediv h (by norm_num)]
    omega
  · have e : x = -(-x) := by omega
    rw [e, Int.neg_tdiv, Int.tdiv_eq_ediv (by omega) (by norm_num)]
    omega

/-- The product of a sample that is not louder than `m` and a factor between
0 and `B / m`. -/
theorem sample_mul_bound (s f m B : Int) (hs : |s| ≤ m) (hf0 : 0 ≤ f) (hfm : m * f ≤ B) :
    -B ≤ s * f ∧ s * f ≤ B := by
  obtain ⟨ha, hb⟩ := abs_le.mp hs
  constructor <;> nlinarith

/-- C23.  `AudioCompressor` on a buffer of 16 bit samples whose loudest
absolute sample is `m > 0`, with a previous factor between 0 and 500000 and a
maximum that is not negative: the new compression factor is
`min(AudioMaxCompression, inst, (prev*950 + inst*50)/1000)` with
`inst = 32767*1000/m`; it is not negative, and every output sample equals
`sample*factor/1000` and lies in `[-32768, 32767]`, so that no saturation
branch is taken.  On an all-zero buffer the samples and the factor are
unchanged. -/
theorem AudioCompressor_spec (prev maxc : Int) (samples : List Int)
    (hs : ∀ s ∈ samples, INT16_MIN ≤ s ∧ s ≤ INT16_MAX)
    (h0 : 0 ≤ prev) (h1 : prev ≤ 500000) (hmax : 0 ≤ maxc) :
    (∀ s ∈ samples, |s| ≤ AudioCompressor_max samples 0) ∧
    (0 < AudioCompressor_max samples 0 →
      (∃ s ∈ samples, |s| = AudioCompressor_max samples 0) ∧
      ∃ f : Int,
        AudioCompressor prev maxc samples
          = some (f, samples.map (fun s => (s * f).tdiv 1000)) ∧
        f = min maxc (min (32767 * 1000 / AudioCompressor_max samples 0)
          ((prev * 950 + 32767 * 1000 / AudioCompressor_max samples 0 * 50) / 1000)) ∧
        0 ≤ f ∧
        ∀ s ∈ samples, INT16_MIN ≤ (s * f).tdiv 1000 ∧ (s * f).tdiv 1000 ≤ INT16_MAX) ∧
    ((∀ s ∈ samples, s = 0) → AudioCompressor prev maxc samples = some (prev, samples)) := by
  obtain ⟨-, hle, hex⟩ := AudioCompressor_max_spec samples 0
  refine ⟨hle, ?_, ?_⟩
  · intro hpos
    have hex1 : ∃ s ∈ samples, |s| = AudioCompressor_max samples 0 := by
      rcases hex with h | h
      · omega
      · exact h
    refine ⟨hex1, ?_⟩
    obtain ⟨s0, hs0, hs0m⟩ := hex1
    have hm32 : AudioCompressor_max samples 0 ≤ 32768 := by
      have := hs s0 hs0
      unfold INT16_MIN INT16_MAX at this
      rw [← hs0m]
      exact abs_le.mpr ⟨by omega, by omega⟩
    generalize hmdef : AudioCompressor_max samples 0 = m at *
    have hinst : (INT16_MAX * 1000).tdiv m = 32767 * 1000 / m := by
      unfold INT16_MAX
      rw [Int.tdiv_eq_ediv (by norm_num) (by omega)]
    have hi0 : 0 ≤ 32767 * 1000 / m := Int.ediv_nonneg (by norm_num) (by omega)
    have hi1 : m * (32767 * 1000 / m) ≤ 32767 * 1000 := Int.mul_ediv_self_le (by omega)
    have hi2 : 32767 * 1000 / m ≤ 32767 * 1000 := by nlinarith
    have hsum : (prev * 950 + 32767 * 1000 / m * 50).tdiv 1000
        = (prev * 950 + 32767 * 1000 / m * 50) / 1000 :=
      Int.tdiv_eq_ediv (by omega) (by norm_num)
    have hb0 : 0 ≤ (prev * 950 + 32767 * 1000 / m * 50) / 1000 :=
      Int.ediv_nonneg (by omega) (by norm_num)
    -- the factor
    obtain ⟨f, hf⟩ : ∃ f : Int, f = min maxc (min (32767 * 1000 / m)
        ((prev * 950 + 32767 * 1000 / m * 50) / 1000)) := ⟨_, rfl⟩
    have hf0 : 0 ≤ f := by
      rw [hf]
      exact le_min hmax (le_min hi0 hb0)
    have hfi : f ≤ 32767 * 1000 / m := by
      rw [hf]
      exact (min_le_right _ _).trans (min_le_left _ _)
    have hmf : m * f ≤ 32767000 := by nlinarith
    have hmul : ∀ s ∈ samples, -32767000 ≤ s * f ∧ s * f ≤ 32767000 := fun s hsm =>
      sample_mul_bound s f m 32767000 (hle s hsm) hf0 hmf
    have hout : ∀ s ∈ samples, INT16_MIN ≤ (s * f).tdiv 1000 ∧ (s * f).tdiv 1000 ≤ INT16_MAX := by
      intro s hsm
      obtain ⟨a, b⟩ := hmul s hsm
      obtain ⟨c, d⟩ := tdiv_1000_bound (s * f) a b
      unfold INT16_MIN INT16_MAX
      exact ⟨by omega, d⟩
    refine ⟨f, ?_, hf, hf0, hout⟩
    have hfc : (if (if (prev * 950 + 32767 * 1000 / m * 50) / 1000 > 32767 * 1000 / m
          then 32767 * 1000 / m else (prev * 950 + 32767 * 1000 / m * 50) / 1000) > maxc
        then maxc
        else (if (prev * 950 + 32767 * 1000 / m * 50) / 1000 > 32767 * 1000 / m
          then 32767 * 1000 / m else (prev * 950 + 32767 * 1000 / m * 50) / 1000)) = f := by
      rw [hf]
      simp only [min_def]
      split_ifs <;> omega
    have hr : ¬ (¬ intRange (prev * 950) ∨ ¬ intRange (32767 * 1000 / m * 50)
        ∨ ¬ intRange (prev * 950 + 32767 * 1000 / m * 50)) := by
      unfold intRange
      omega
    have hall : samples.all (fun s => decide (intRange (s * f))) = true := by
      rw [List.all_eq_true]
      intro s hsm
      obtain ⟨a, b⟩ := hmul s hsm
      unfold intRange
      exact decide_eq_true ⟨by omega, by omega⟩
    have hmap : samples.map (AudioCompressor_apply f)
        = samples.map (fun s => (s * f).tdiv 1000) := by
      apply List.map_congr_left
      intro s hsm
      obtain ⟨a, b⟩ := hout s hsm
      unfold AudioCompressor_apply
      simp only
      rw [if_neg (by omega), if_neg (by omega)]
    unfold AudioCompressor
    simp only [hmdef, hinst, hsum, hfc, hall, hmap, gt_iff_lt, if_pos hpos, if_neg hr, if_true]
  · intro hz
    have hm0 : AudioCompressor_max samples 0 = 0 := by
      rcases hex with h | ⟨s, hsm, h⟩
      · exact h
      · rw [← h, hz s hsm]
        rfl
    unfold AudioCompressor
    simp only [hm0, gt_iff_lt, lt_self_iff_false, if_false]

/-- The buffer 1000, -2000 with the factor 2000 and the maximum 10000: the
loudest sample is 2000 and the new factor is 2719. -/
theorem AudioCompressor_spec_witness :
    AudioCompressor_max [1000, -2000] 0 = 2000 ∧
    AudioCompressor 2000 10000 [1000, -2000] = some (2719, [2719, -5438]) ∧
    ∃ f : Int, AudioCompressor 2000 10000 [1000, -2000]
        = some (f, [1000, -2000].map (fun s => (s * f).tdiv 1000)) ∧
      f = min 10000 (min (32767 * 1000 / AudioCompressor_max [1000, -2000] 0)
        ((2000 * 950 + 32767 * 1000 / AudioCompressor_max [1000, -2000] 0 * 50) / 1000)) ∧
      0 ≤ f ∧
      ∀ s ∈ [1000, -2000], INT16_MIN ≤ (s * f).tdiv 1000 ∧ (s * f).tdiv 1000 ≤ INT16_MAX :=
  ⟨by decide, by decide,
    ((AudioCompressor_spec 2000 10000 [1000, -2000] (by decide) (by decide) (by decide)
      (by decide)).2.1 (by decide)).2⟩

/-! ## Channel remixer -/

/-- The loop of `AudioStereo2Mono` from the even index `2 * a` on, with `k`
turns left: the output samples it writes. -/
theorem AudioStereo2Mono_loop_apply (inp : Samples) (frames : Int) :
    ∀ (k a : Nat) (out : Samples) (j : Nat),
      AudioStereo2Mono_loop inp frames k (2 * a) out j
        = if a ≤ j ∧ j < a + k ∧ ((2 * j : Nat) : Int) < frames then
            (inp (2 * j) + inp (2 * j + 1)).tdiv 2
          else out j := by
  intro k
  induction k with
  | zero =>
    intro a out j
    unfold AudioStereo2Mono_loop
    rw [if_neg (by omega)]
  | succ k ih =>
    intro a out j
    unfold AudioStereo2Mono_loop
    by_cases hc : ((2 * a : Nat) : Int) < frames
    · rw [if_pos hc, show 2 * a + 2 = 2 * (a + 1) by omega, ih,
        show 2 * a / 2 = a by omega]
      by_cases hj : j = a
      · subst hj
        rw [if_neg (by omega), if_pos ⟨le_refl _, by omega, hc⟩, Function.update_same]
        rfl
      · rw [Function.update_noteq hj]
        by_cases h2 : a + 1 ≤ j ∧ j < a + 1 + k ∧ ((2 * j : Nat) : Int) < frames
        · rw [if_pos h2, if_pos ⟨by omega, by omega, h2.2.2⟩]
        · rw [if_neg h2, if_neg (by omega)]
    · rw [if_neg hc, if_neg (by omega)]

/-- The output of `AudioStereo2Mono`: the sample at `j` is written only when
`2 * j < frames`. -/
theorem AudioStereo2Mono_apply (inp : Samples) (frames : Int) (out : Samples) (j : Nat) :
    AudioStereo2Mono inp frames out j
      = if ((2 * j : Nat) : Int) < frames then (inp (2 * j) + inp (2 * j + 1)).tdiv 2
        else out j := by
  unfold AudioStereo2Mono
  have h := AudioStereo2Mono_loop_apply inp frames frames.toNat 0 out j
  rw [Nat.mul_zero] at h
  rw [h]
  by_cases hc : ((2 * j : Nat) : Int) < frames
  · rw [if_pos hc, if_pos ⟨by omega, by omega, hc⟩]
  · rw [if_neg hc, if_neg (fun h3 => hc h3.2.2)]

/-- C24.  Code bug: `AudioStereo2Mono` steps its index by 2 up to `frames`
and so writes only every second of the `frames` output samples it is asked
for.  The input is the output of `AudioMono2Stereo` for the two mono samples
10 and 30 (`frames = 2`, stereo samples 10 10 30 30); the first output sample
is 10, the second one is not written (it still holds 77, not 30). -/
theorem AudioStereo2Mono_half :
    (List.range 4).map (AudioMono2Stereo exMono 2 exStale) = [10, 10, 30, 30] ∧
    (List.range 2).map (AudioStereo2Mono (AudioMono2Stereo exMono 2 exStale) 2 exStale)
      = [10, 77] ∧
    (List.range 2).map exMono = [10, 30] := by
  decide

/-! ## Sniffers: sample rate, window and try order -/

/-- In `MpegCheck` the table sample rate is shifted once for every header
whose version bit `0x08` is clear, for MPEG-2 and MPEG-2.5 alike. -/
theorem MpegCheck_frame_size_low_rate (data : Bytes) (h : rd data 1 &&& 0x08 = 0) :
    MpegCheck_frame_size data =
      if 4 - ((rd data 1 >>> 1) &&& 0x03) = 1 then
        (12 * ((BitRateTable_at 1 (4 - ((rd data 1 >>> 1) &&& 0x03))
            ((rd data 2 >>> 4) &&& 0x0F)).getD 0 * 1000)
          / (SampleRateTable.getD ((rd data 2 >>> 2) &&& 0x03) 0 / 2)
          + ((rd data 2 >>> 1) &&& 0x01)) * 4
      else
        144 * ((BitRateTable_at 1 (4 - ((rd data 1 >>> 1) &&& 0x03))
            ((rd data 2 >>> 4) &&& 0x0F)).getD 0 * 1000)
          / (SampleRateTable.getD ((rd data 2 >>> 2) &&& 0x03) 0 / 2)
          + ((rd data 2 >>> 1) &&& 0x01) := by
  unfold MpegCheck_frame_size
  by_cases h10 : rd data 1 &&& 0x10 = 0
  · simp [h, h10, Nat.shiftRight_eq_div_pow]
  · simp [h, h10, Nat.shiftRight_eq_div_pow]

/-- C25.  Code bug: for an MPEG-2.5 header `MpegCheck` computes the frame
length with half of the table sample rate, not with a quarter of it.  The
window holds a header with version bits 00, Layer III, 32 kbit/s and
sample-rate index 0 (44100 Hz in the table): the frame length returned is 208
bytes, which is `144 * 32000 / 22050`; with the quarter rate 11025 Hz it would
be 417 bytes. -/
theorem MpegCheck_mpeg25_half_rate :
    mpegVersionBits exMpeg25Pair = 0 ∧ mpegLayer exMpeg25Pair = 3 ∧
    specMpegBitrate exMpeg25Pair = 32000 ∧ mpegSamplerateIndex exMpeg25Pair = 0 ∧
    MpegCheck exMpeg25Pair 212 = .ret 208 ∧ MpegCheck_frame_size exMpeg25Pair = 208 ∧
    144 * 32000 / (44100 / 2) = 208 ∧ 144 * 32000 / (44100 / 4) = 417 := by
  decide

/-- With six bytes or more in the window the result of `Ac3Check` is fixed by
the bytes of the window. -/
theorem Ac3Check_congr (w v : Bytes) (size : Int) (h6 : 6 ≤ size)
    (h : ∀ i : Nat, (i : Int) < size → w i = v i) : Ac3Check w size = Ac3Check v size := by
  have r : ∀ i : Nat, (i : Int) < size → rd w i = rd v i := fun i hi => by
    unfold rd
    rw [h i hi]
  have key : ∀ fs : Nat, ¬ ((fs : Int) + 5 > size) →
      FastAc3Check (ptrAdd w fs) = FastAc3Check (ptrAdd v fs) := fun fs hfs =>
    FastAc3Check_congr _ _ (h (fs + 0) (by omega)) (h (fs + 1) (by omega))
  have tail : ∀ fs : Nat,
      (if (fs : Int) + 5 > size then CResult.ret (-(fs : Int) - 5)
        else if FastAc3Check (ptrAdd w fs) then CResult.ret fs else CResult.ret 0)
      = (if (fs : Int) + 5 > size then CResult.ret (-(fs : Int) - 5)
        else if FastAc3Check (ptrAdd v fs) then CResult.ret fs else CResult.ret 0) := by
    intro fs
    by_cases hfs : (fs : Int) + 5 > size
    · rw [if_pos hfs, if_pos hfs]
    · rw [if_neg hfs, if_neg hfs, key fs hfs]
  unfold Ac3Check
  rw [r 2 (by omega), r 3 (by omega), r 4 (by omega), r 5 (by omega)]
  simp only [tail]

/-- C26.  Code bug: with five bytes in the window `Ac3Check` reads the byte
behind the window.  The two windows hold the same five bytes and differ in
the byte at offset 5 only; the results differ (133 or 7 bytes needed). -/
theorem Ac3Check_reads_behind_window :
    (∀ i : Fin 5, exAc3Five i.val = exAc3FiveFF i.val) ∧
    Ac3Check exAc3Five 5 = .ret (-133) ∧ Ac3Check exAc3FiveFF 5 = .ret (-7) := by
  decide

set_option maxRecDepth 100000 in
/-- The ADTS sync needs the layer bits 00, which the MPEG sync rejects. -/
theorem byte_adts_layer : ∀ x : Fin 256, x.val &&& 0xF6 = 0xF0 → x.val &&& 0x06 = 0 := by decide

/-- At most one of the four fast checks succeeds on a window. -/
theorem FastCheck_exclusive (p : Bytes) :
    [FastMpegCheck p, FastAc3Check p, FastLatmCheck p, FastAdtsCheck p].count true ≤ 1 := by
  have hM : FastMpegCheck p = true → rd p 0 = 0xFF ∧ rd p 1 &&& 0x06 ≠ 0 := by
    intro h
    unfold FastMpegCheck at h
    split_ifs at h with a b c d e f
    exact ⟨not_not.mp a, d⟩
  have hA : FastAc3Check p = true → rd p 0 = 0x0B := by
    intro h
    unfold FastAc3Check at h
    split_ifs at h with a b
    exact not_not.mp a
  have hL : FastLatmCheck p = true → rd p 0 = 0x56 := by
    intro h
    unfold FastLatmCheck at h
    split_ifs at h with a b
    exact not_not.mp a
  have hD : FastAdtsCheck p = true → rd p 0 = 0xFF ∧ rd p 1 &&& 0x06 = 0 := by
    intro h
    unfold FastAdtsCheck at h
    split_ifs at h with a b c
    exact ⟨not_not.mp a, byte_adts_layer (p 1) (not_not.mp b)⟩
  cases hm : FastMpegCheck p <;> cases ha : FastAc3Check p <;> cases hl : FastLatmCheck p <;>
    cases hd : FastAdtsCheck p <;>
    first
    | decide
    | (exfalso; exact (hM hm).2 (hD hd).2)
    | (exfalso; have a := hM hm; have b := hA ha; omega)
    | (exfalso; have a := hM hm; have b := hL hl; omega)
    | (exfalso; have a := hA ha; have b := hL hl; omega)
    | (exfalso; have a := hA ha; have b := hD hd; omega)
    | (exfalso; have a := hL hl; have b := hD hd; omega)

/-- The cascade of `PlayAudio` selects none for a window with the AC-3 sync
word when the PES packet type is 0xC0, where the cascade of `PesParse`
selects AC-3. -/
theorem sniff_selection_counterexample :
    PesParse_sniff exAc3Pair 261 = some (256, AVCodecID.AC3) ∧
    PlayAudio_sniff exAc3Pair 261 0xC0 = some (0, AVCodecID.NONE) := by
  decide

/-- C27 (amended).  At most one of the four fast checks succeeds on a
window; hence the cascades of `PesParse` (MPEG, AC-3, LATM, ADTS) and of
`PlayAudio` (MPEG, LATM, AC-3, ADTS) give the same result and codec id,
provided the test of `PlayAudio` on the PES packet type admits the sniffer
whose fast check succeeds: for MPEG, LATM and ADTS the type is not 0xBD, for
AC-3 it is 0xBD or 0x80..0x8F. -/
theorem sniff_same_selection (p : Bytes) (n : Int) (id : Nat)
    (hac3 : FastAc3Check p = true → id = 0xBD ∨ id &&& 0xF0 = 0x80)
    (hother : FastMpegCheck p = true ∨ FastLatmCheck p = true ∨ FastAdtsCheck p = true →
      id ≠ 0xBD) :
    [FastMpegCheck p, FastAc3Check p, FastLatmCheck p, FastAdtsCheck p].count true ≤ 1 ∧
    PlayAudio_sniff p n id = PesParse_sniff p n := by
  have hx := FastCheck_exclusive p
  refine ⟨hx, ?_⟩
  unfold PlayAudio_sniff PesParse_sniff
  cases hm : FastMpegCheck p <;> cases ha : FastAc3Check p <;> cases hl : FastLatmCheck p <;>
    cases hd : FastAdtsCheck p <;> simp [hm, ha, hl, hd] at hx hac3 hother ⊢
  all_goals first
    | (intro h; exact absurd h hother)
    | (intro h1 h2; rcases hac3 with h | h
       · exact absurd h h1
       · exact absurd h h2)

/-- The amended C27 on the window `exAc3Pair` with the PES packet type 0xBD,
which admits AC-3. -/
theorem sniff_same_selection_witness :
    PlayAudio_sniff exAc3Pair 261 0xBD = some (256, AVCodecID.AC3) ∧
    ([FastMpegCheck exAc3Pair, FastAc3Check exAc3Pair, FastLatmCheck exAc3Pair,
        FastAdtsCheck exAc3Pair].count true ≤ 1 ∧
      PlayAudio_sniff exAc3Pair 261 0xBD = PesParse_sniff exAc3Pair 261) :=
  ⟨by decide, sniff_same_selection exAc3Pair 261 0xBD (by decide) (by decide)⟩

/-! ## Invariant of the video packet ring -/

/-- The close request breaks the relation of the fill counter to the
indices: from `VideoPacketInit` on an open stream, one `VideoNextPacket`
moves the write index to 1; with the close request of `PipStop` pending,
`VideoDecodeInput` closes the stream, which sets the fill counter to 0 and
leaves the indices at 1 and 0. -/
theorem VideoRing_close_counterexample :
    (VideoOp.run (VideoPacketInit exVideoStream)
      [.nextPacket AVCodecID.NONE, .requestClose, .decodeInput]).PacketWrite = 1 ∧
    (VideoOp.run (VideoPacketInit exVideoStream)
      [.nextPacket AVCodecID.NONE, .requestClose, .decodeInput]).PacketRead = 0 ∧
    (VideoOp.run (VideoPacketInit exVideoStream)
      [.nextPacket AVCodecID.NONE, .requestClose, .decodeInput]).PacketsFilled = 0 ∧
    ¬ VideoRingInv (VideoOp.run (VideoPacketInit exVideoStream)
      [.nextPacket AVCodecID.NONE, .requestClose, .decodeInput]) := by
  decide

/-- The function `VideoPacketInit` establishes the invariant and keeps the
close flag. -/
theorem VideoRingInv_init (stream : VideoStream) :
    VideoRingInv (VideoPacketInit stream) ∧ (VideoPacketInit stream).Close = stream.Close := by
  unfold VideoRingInv VideoPacketInit VIDEO_PACKET_MAX
  simp

/-- The function `VideoNextPacket` keeps the invariant and the close flag. -/
theorem VideoRingInv_nextPacket (stream : VideoStream) (codec_id : AVCodecID)
    (hinv : VideoRingInv stream) :
    VideoRingInv (VideoNextPacket stream codec_id) ∧
      (VideoNextPacket stream codec_id).Close = stream.Close := by
  unfold VideoRingInv VIDEO_PACKET_MAX at *
  unfold VideoNextPacket VideoResetPacket VIDEO_PACKET_MAX
  simp only
  split_ifs <;> simp only [and_true] <;> omega

/-- Without a close request `VideoDecodeInput` keeps the invariant and the
close flag. -/
theorem VideoRingInv_decodeInput (stream : VideoStream) (hinv : VideoRingInv stream)
    (hc : stream.Close = 0) :
    VideoRingInv (VideoDecodeInput stream).2 ∧ (VideoDecodeInput stream).2.Close = 0 := by
  unfold VideoRingInv VIDEO_PACKET_MAX at *
  unfold VideoDecodeInput VIDEO_PACKET_MAX
  simp only [hc, ne_eq, not_true_eq_false, if_false]
  split_ifs <;> simp only [hc, and_true] <;> omega

/-- Without a close request `VideoPollInput` keeps the invariant and the
close flag. -/
theorem VideoRingInv_pollInput (stream : VideoStream) (hinv : VideoRingInv stream)
    (hc : stream.Close = 0) :
    VideoRingInv (VideoPollInput stream).2 ∧ (VideoPollInput stream).2.Close = 0 := by
  unfold VideoRingInv VIDEO_PACKET_MAX at *
  unfold VideoPollInput
  simp only [hc, ne_eq, not_true_eq_false, if_false]
  split_ifs <;> simp only [hc, and_true] <;> omega

/-- A sequence of steps without a close request, from a stream without one,
keeps the invariant. -/
theorem VideoRingInv_steps (ops : List VideoOp) : ∀ stream : VideoStream,
    VideoRingInv stream → stream.Close = 0 → VideoOp.requestClose ∉ ops →
    VideoRingInv (VideoOp.run stream ops) := by
  induction ops with
  | nil => intro stream hinv _ _; exact hinv
  | cons op ops ih =>
    intro stream hinv hc hops
    have hop : op ≠ VideoOp.requestClose := fun h => hops (h ▸ List.mem_cons_self _ _)
    have hrest : VideoOp.requestClose ∉ ops := fun h => hops (List.mem_cons_of_mem _ h)
    unfold VideoOp.run
    cases op with
    | nextPacket codec_id =>
      obtain ⟨a, b⟩ := VideoRingInv_nextPacket stream codec_id hinv
      exact ih _ a (b.trans hc) hrest
    | decodeInput =>
      obtain ⟨a, b⟩ := VideoRingInv_decodeInput stream hinv hc
      exact ih _ a b hrest
    | pollInput =>
      obtain ⟨a, b⟩ := VideoRingInv_pollInput stream hinv hc
      exact ih _ a b hrest
    | requestClear => exact ih _ hinv hc hrest
    | requestClose => exact absurd rfl hop

/-- C28 (amended).  Video packet ring invariant: starting from
`VideoPacketInit` (read = write = 0, fill counter 0) on a stream without a
pending close request, every sequence of `VideoNextPacket`,
`VideoDecodeInput` and `VideoPollInput` steps and clear requests, without a
close request, preserves
`PacketsFilled = (PacketWrite - PacketRead) mod VIDEO_PACKET_MAX` and
`0 <= PacketsFilled <= VIDEO_PACKET_MAX - 1`. -/
theorem VideoRing_invariant (stream : VideoStream) (ops : List VideoOp)
    (hc : stream.Close = 0) (hops : VideoOp.requestClose ∉ ops) :
    (VideoPacketInit stream).PacketRead = 0 ∧ (VideoPacketInit stream).PacketWrite = 0 ∧
    (VideoPacketInit stream).PacketsFilled = 0 ∧
    0 ≤ (VideoOp.run (VideoPacketInit stream) ops).PacketsFilled ∧
    (VideoOp.run (VideoPacketInit stream) ops).PacketsFilled ≤ (VIDEO_PACKET_MAX : Int) - 1 ∧
    (VideoOp.run (VideoPacketInit stream) ops).PacketsFilled
      = (((VideoOp.run (VideoPacketInit stream) ops).PacketWrite : Int)
          - (VideoOp.run (VideoPacketInit stream) ops).PacketRead) % (VIDEO_PACKET_MAX : Int) := by
  obtain ⟨hi, hci⟩ := VideoRingInv_init stream
  obtain ⟨-, -, h3, h4, h5⟩ :=
    VideoRingInv_steps ops (VideoPacketInit stream) hi (hci.trans hc) hops
  exact ⟨rfl, rfl, rfl, h3, h4, h5⟩

/-- The amended C28 on the open stream `exVideoStream` and the steps of
`videoRingExampleOps`, which leave one packet in the ring. -/
theorem VideoRing_invariant_witness :
    exVideoStream.Close = 0 ∧ VideoOp.requestClose ∉ videoRingExampleOps ∧
    (VideoOp.run (VideoPacketInit exVideoStream) videoRingExampleOps).PacketsFilled = 1 ∧
    (VideoOp.run (VideoPacketInit exVideoStream) videoRingExampleOps).PacketsFilled
      = (((VideoOp.run (VideoPacketInit exVideoStream) videoRingExampleOps).PacketWrite : Int)
          - (VideoOp.run (VideoPacketInit exVideoStream) videoRingExampleOps).PacketRead)
        % (VIDEO_PACKET_MAX : Int) :=
  ⟨by decide, by decide, by decide,
    (VideoRing_invariant exVideoStream videoRingExampleOps (by decide) (by decide)).2.2.2.2.2⟩

/-! ## Reads of `PlayVideo3` -/

/-- C29.  Code bug: `PlayVideo3` reads bytes behind the packet it is given.
The two packets of 13 bytes are the same and pass the start-code and size
checks; the start code `01 09` is found at offset 11, and the H.264 test
reads `check[3]` and `check[4]`, the offsets 14 and 15.  With zeros behind the
packet the codec detected is H.264 and the payload is enqueued, with 0xFF
behind the packet nothing is detected. -/
theorem PlayVideo3_reads_behind_packet :
    (∀ i : Fin 13, exPesShortAud i.val = exPesShortAudFF i.val) ∧
    PlayVideo3_accepts exVideoStream exPesShortAud 13 ∧
    PlayVideo3_accepts exVideoStream exPesShortAudFF 13 ∧
    (PlayVideo3_zeros exPesShortAud 4 9 4 0).1 = 11 ∧
    PlayVideo3_detect exPesShortAud 13 = some AVCodecID.H264 ∧
    PlayVideo3_detect exPesShortAudFF 13 = none ∧
    (PlayVideo3 exVideoStream exPesShortAud 13).2.CodecID = AVCodecID.H264 ∧
    ((PlayVideo3 exVideoStream exPesShortAud 13).2.PacketRb 0).stream_index = 4 ∧
    (PlayVideo3 exVideoStream exPesShortAudFF 13).2.CodecID = AVCodecID.NONE ∧
    ((PlayVideo3 exVideoStream exPesShortAudFF 13).2.PacketRb 0).stream_index = 0 := by
  decide

/-! ## Channel matrix and remixer -/

/-- C30.  Code bug: the channel matrix that `AudioInit` populates resolves
3 input channels to 4 and 7 input channels to 8 hardware channels, and
`AudioResample` has no case for either mapping.  In each of the three rows
of the matrix the unsupported ones among the input channel counts 1..8 are 3
and 7; a segment added for 3 channels gets 4 hardware channels, and
`AudioResample` turns the frame 1000 2000 3000 into four samples of
silence. -/
theorem AudioResample_unsupported :
    (∀ u : Fin 3, (List.range' 1 8).filter (fun c =>
        decide (AudioResample_case (c : Nat)
          ((AudioInit AudioState.zero).AudioChannelMatrix u.val c) = ResampleCase.unsupported))
      = [3, 7]) ∧
    (AudioRingAdd (AudioInit AudioState.zero) 48000 3 0).map (fun r =>
        (r.1, (r.2.AudioRing r.2.AudioRingWrite).InChannels,
          (r.2.AudioRing r.2.AudioRingWrite).HwChannels)) = some (0, 3, 4) ∧
    (AudioResample exThreeChannels 3 1 exStale 4).map (fun out => (List.range 5).map out)
      = some [0, 0, 0, 0, 77] := by
  decide

end SoftHd
